import Mathlib

/-! # paddle-api-mock: the subscription lifecycle engine

A shallow embedding of `internal/handlers/subscriptions.go`,
`internal/handlers/admin.go`, `internal/webhook/webhook.go`,
`internal/store/store.go` and `internal/models/models.go`.

Conventions of the embedding:

* Go `int` is `Int`, and every arithmetic operation the handlers perform on it
  is wrapped to 64 bits by `wrapInt`.
* A `*models.Subscription` is an address into `World.heap`; the store's
  subscription map and the `Data` of an event hold addresses, so that the
  in-place writes of the handlers are visible through every alias, as in Go.
* Transactions, prices, products and customers are never written through a
  pointer once they are stored, so they are embedded as values.
* `time.Now()`, the iteration order of Go maps, `json.Marshal` and the HTTP
  client are supplied by an environment `Env`.
* `time.Time.AddDate` is embedded with the 64-bit arithmetic of `time.Date`
  (the algorithm of Go 1.22), and `crypto/hmac` over `crypto/sha256` and
  `encoding/hex` as functions on lists of bytes (FIPS 180-4, RFC 2104).
-/

namespace PaddleMock

/-! ## Machine integers -/

/-- Two's-complement wrap of an integer to the 64-bit range of a Go `int`. -/
def wrapInt (n : Int) : Int := (n + 2 ^ 63) % 2 ^ 64 - 2 ^ 63

/-! ## Time (`time.Time` in UTC) -/

/-- An instant, as nanoseconds since the Unix epoch (all instants of the
program are taken in UTC and carry no monotonic reading). -/
structure Time where
  unixNano : Int
deriving DecidableEq, Repr, Inhabited

instance : LE Time := ⟨fun a b => a.unixNano ≤ b.unixNano⟩

instance (a b : Time) : Decidable (a ≤ b) := inferInstanceAs (Decidable (a.unixNano ≤ b.unixNano))

/-- Nanoseconds in a civil day. -/
def nanosPerDay : Int := 86400 * 1000000000

/-- Days from 0001-01-01 to 1970-01-01 in the proleptic Gregorian calendar. -/
def unixEpochDays : Int := 719162

/-- Gregorian leap-year rule. -/
def isLeap (year : Int) : Bool :=
  year % 4 == 0 && (year % 100 != 0 || year % 400 == 0)

/-- Days of a non-leap year before the month with the given zero-based index. -/
def daysBefore (m : Int) : Int :=
  if m ≤ 0 then 0 else if m = 1 then 31 else if m = 2 then 59 else if m = 3 then 90
  else if m = 4 then 120 else if m = 5 then 151 else if m = 6 then 181
  else if m = 7 then 212 else if m = 8 then 243 else if m = 9 then 273
  else if m = 10 then 304 else if m = 11 then 334 else 365

/-- Days from 0001-01-01 to the first of January of `year`. -/
def daysSinceEpoch (year : Int) : Int :=
  let y := year - 1
  365 * y + y / 4 - y / 100 + y / 400

/-- Year and zero-based day of the year of a day number counted from
0001-01-01, by the 400/100/4/1-year cycle decomposition of the Go runtime. -/
def yearDay (n : Int) : Int × Int :=
  let n400 := n / 146097
  let r := n % 146097
  let n100 := min (r / 36524) 3
  let r := r - 36524 * n100
  let n4 := r / 1461
  let r := r % 1461
  let n1 := min (r / 365) 3
  let r := r - 365 * n1
  (400 * n400 + 100 * n100 + 4 * n4 + n1 + 1, r)

/-- Civil date `(year, month 1..12, day 1..31)` of a day number counted from
0001-01-01. -/
def civil (n : Int) : Int × Int × Int :=
  let (year, yday) := yearDay n
  let leapShift : Int := if isLeap year && yday > 31 + 29 - 1 then 1 else 0
  if isLeap year && yday == 31 + 29 - 1 then (year, 2, 29)
  else
    let day := yday - leapShift
    let month := day / 31
    let stop := daysBefore (month + 1)
    if day ≥ stop then (year, month + 2, day - stop + 1)
    else (year, month + 1, day - daysBefore month + 1)

/-- The day number, counted from 0001-01-01, of a year, a month offset
(zero-based, any integer) and a day of the month (any integer) in the proleptic
Gregorian calendar, in exact arithmetic: the month overflows into the year and
the day is added without normalisation. -/
def dateDays (year m day : Int) : Int :=
  let year := year + m / 12
  let m := m % 12
  daysSinceEpoch year + daysBefore m + (if isLeap year && m ≥ 2 then 1 else 0) + (day - 1)

/-- Conversion of an integer to a Go `uint64`. -/
def wrapUint (n : Int) : Int := n % 2 ^ 64

/-- The constant `secondsPerDay` of package `time`. -/
def secondsPerDay : Int := 86400

/-- The constant `absoluteZeroYear` of package `time`: the year in which the
absolute count of seconds starts. It is 1 modulo 400. -/
def absoluteZeroYear : Int := -292277022399

/-- The constant `unixToInternal` of package `time`: the seconds from
0001-01-01 to 1970-01-01. -/
def unixToInternal : Int := 62135596800

/-- The constant `internalToAbsolute` of package `time`: the seconds from the
first of January of the absolute zero year to 0001-01-01. -/
def internalToAbsolute : Int := 9223371966579724800

/-- Days from the first of January of the absolute zero year to 0001-01-01
(`internalToAbsolute / secondsPerDay`, 730692556 cycles of 400 years). -/
def absoluteZeroDays : Int := 106751990353932

/-- The seconds field of a `time.Time` without monotonic reading: a 64-bit
count of the seconds since 0001-01-01T00:00:00Z. -/
def Time.sec (t : Time) : Int := wrapInt (t.unixNano / 1000000000 + unixToInternal)

/-- The nanoseconds field of a `time.Time`, in `[0, 999999999]`. -/
def Time.nsec (t : Time) : Int := t.unixNano % 1000000000

/-- The instants whose seconds field is what it stands for and whose absolute
count of seconds does not wrap: from the first second of the absolute zero year
to the last second a 64-bit count from 0001-01-01 holds. -/
def Time.InRange (t : Time) : Prop :=
  -internalToAbsolute ≤ t.unixNano / 1000000000 + unixToInternal ∧
    t.unixNano / 1000000000 + unixToInternal < 2 ^ 63

instance (t : Time) : Decidable t.InRange :=
  inferInstanceAs (Decidable (_ ∧ _))

/-- Go's `Time.abs()` in UTC: the seconds since the first of January of the
absolute zero year, as a `uint64`. -/
def Time.abs (t : Time) : Int := wrapUint (t.sec + internalToAbsolute)

/-- Go's `Time.Date()` in UTC (`absDate`): year, month and day of the instant.
The runtime counts 400-, 100-, 4- and 1-year cycles from the absolute zero
year; that year being 1 modulo 400, the count from 0001-01-01 gives the same
year and day of the year. -/
def Time.Date (t : Time) : Int × Int × Int :=
  civil (t.abs / secondsPerDay - absoluteZeroDays)

/-- Go's `Time.Clock()` in UTC (`absClock`): hour, minute and second. -/
def Time.Clock (t : Time) : Int × Int × Int :=
  let sec := t.abs % secondsPerDay
  let hour := sec / 3600
  let sec := sec - hour * 3600
  let min := sec / 60
  (hour, min, sec - min * 60)

/-- The function `norm` of package `time` on Go `int`s: `lo` is brought into
`[0, base)` and the carry goes to `hi`. The dividends are never negative, so
Go's truncated quotient is the floor. -/
def norm (hi lo base : Int) : Int × Int :=
  let (hi, lo) :=
    if lo < 0 then
      let n := wrapInt (wrapInt (wrapInt (-lo) - 1) / base + 1)
      (wrapInt (hi - n), wrapInt (lo + wrapInt (n * base)))
    else (hi, lo)
  if lo ≥ base then
    let n := lo / base
    (wrapInt (hi + n), wrapInt (lo - wrapInt (n * base)))
  else (hi, lo)

/-- The function `daysSinceEpoch` of package `time`: the days from the first of
January of the absolute zero year to the first of January of `year`, computed
in `uint64` by 400-, 100-, 4- and 1-year cycles (the sum is reduced once, which
is the same modulo `2 ^ 64`). -/
def daysSinceEpoch64 (year : Int) : Int :=
  let y := wrapUint (year - absoluteZeroYear)
  let n := y / 400
  let y := y - 400 * n
  let d := 146097 * n
  let n := y / 100
  let y := y - 100 * n
  let d := d + 36524 * n
  let n := y / 4
  let y := y - 4 * n
  let d := d + 1461 * n
  wrapUint (d + 365 * y)

/-- Go's `time.Date(year, month, day, hour, min, sec, nsec, time.UTC)`: the
fields are normalised by `norm`, the days are counted in `uint64`, turned into
absolute seconds and then into the 64-bit seconds field. -/
def Date (year month day hour min sec nsec : Int) : Time :=
  let m := wrapInt (month - 1)
  let (year, m) := norm year m 12
  let month := m + 1
  let (sec, nsec) := norm sec nsec 1000000000
  let (min, sec) := norm min sec 60
  let (hour, min) := norm hour min 60
  let (day, hour) := norm day hour 24
  let d := daysSinceEpoch64 year
  let d := wrapUint (d + daysBefore (month - 1))
  let d := if isLeap year && month ≥ 3 then wrapUint (d + 1) else d
  let d := wrapUint (d + wrapUint (wrapInt (day - 1)))
  let abs := wrapUint (d * secondsPerDay)
  let abs := wrapUint (abs + wrapUint (hour * 3600 + min * 60 + sec))
  let ext := wrapInt (abs - internalToAbsolute)
  ⟨(ext - unixToInternal) * 1000000000 + nsec⟩

/-- Go's `Time.AddDate(years, months, days)` for a UTC instant: the fields of
the civil date are shifted in Go `int`s and handed to `time.Date` together with
the time of day. -/
def Time.AddDate (t : Time) (years months days : Int) : Time :=
  let (year, month, day) := t.Date
  let (hour, min, sec) := t.Clock
  PaddleMock.Date (wrapInt (year + years)) (wrapInt (month + months)) (wrapInt (day + days))
    hour min sec t.nsec

/-- Go's `Time.Unix()`: whole seconds since the Unix epoch. -/
def Time.Unix (t : Time) : Int := t.unixNano / 1000000000

/-! ## Billing period calculator and amount parsing (`subscriptions.go`) -/

/-- The function `addPeriod` of `subscriptions.go`. -/
def addPeriod (t : Time) (interval : String) (frequency : Int) : Time :=
  if interval = "day" then t.AddDate 0 0 frequency
  else if interval = "week" then t.AddDate 0 0 (wrapInt (7 * frequency))
  else if interval = "month" then t.AddDate 0 frequency 0
  else if interval = "year" then t.AddDate frequency 0 0
  else t.AddDate 0 frequency 0

/-- One step of the loop of `parseAmount`: a decimal digit is shifted into the
accumulator, any other character is skipped. -/
def parseAmountStep (n : Int) (c : Char) : Int :=
  if '0' ≤ c ∧ c ≤ '9' then wrapInt (wrapInt (n * 10) + (c.toNat - '0'.toNat : Int)) else n

/-- The function `parseAmount` of `subscriptions.go`. -/
def parseAmount (s : String) : Int :=
  s.toList.foldl parseAmountStep 0

/-- The function `formatAmount` of `subscriptions.go` (`strconv.Itoa`). -/
def formatAmount (n : Int) : String := toString n

/-! ## Data model (`models.go`)

Fields that no handler reads or writes after construction and that take no part
in any transition (names, descriptions, tax settings, the always-nil address,
business, billing-details, management-URL and discount fields) are left out. -/

/-- The struct `models.BillingCycle`. -/
structure BillingCycle where
  Interval : String
  Frequency : Int
deriving DecidableEq, Repr, Inhabited

/-- The struct `models.TrialPeriod`. -/
structure TrialPeriod where
  Interval : String
  Frequency : Int
deriving DecidableEq, Repr, Inhabited

/-- The struct `models.Money`. -/
structure Money where
  Amount : String
  CurrencyCode : String
deriving DecidableEq, Repr, Inhabited

/-- The struct `models.Product`. -/
structure Product where
  ID : String
  Name : String
  Status : String
deriving DecidableEq, Repr, Inhabited

/-- The struct `models.Price`; the nullable `billing_cycle` and `trial_period`
pointers are options. -/
structure Price where
  ID : String
  ProductID : String
  BillingCycle : Option BillingCycle
  TrialPeriod : Option TrialPeriod
  UnitPrice : Money
  Status : String
deriving DecidableEq, Repr, Inhabited

/-- The struct `models.Customer`. -/
structure Customer where
  ID : String
  Email : String
  Status : String
deriving DecidableEq, Repr, Inhabited

/-- The struct `models.BillingPeriodDates`. -/
structure BillingPeriodDates where
  StartsAt : Time
  EndsAt : Time
deriving DecidableEq, Repr, Inhabited

/-- The struct `models.ScheduledChange` (`resume_at` is never set). -/
structure ScheduledChange where
  Action : String
  EffectiveAt : Time
deriving DecidableEq, Repr, Inhabited

/-- The struct `models.SubscriptionItem`. -/
structure SubscriptionItem where
  Status : String
  Quantity : Int
  Recurring : Bool
  CreatedAt : Time
  UpdatedAt : Time
  PreviouslyBilledAt : Option Time
  NextBilledAt : Option Time
  TrialDates : Option BillingPeriodDates
  Price : Price
  Product : Option Product
deriving DecidableEq, Repr, Inhabited

/-- The struct `models.Subscription`. -/
structure Subscription where
  ID : String
  Status : String
  CustomerID : String
  CurrencyCode : String
  CreatedAt : Time
  UpdatedAt : Time
  StartedAt : Option Time
  FirstBilledAt : Option Time
  NextBilledAt : Option Time
  PausedAt : Option Time
  CanceledAt : Option Time
  CollectionMode : String
  CurrentBillingPeriod : Option BillingPeriodDates
  BillingCycle : BillingCycle
  ScheduledChange : Option ScheduledChange
  Items : List SubscriptionItem
  CustomData : List (String × String)
deriving DecidableEq, Repr, Inhabited

/-- The struct `models.CreateSubItemReq` (and `models.ChargeItem`). -/
structure CreateSubItemReq where
  PriceID : String
  Quantity : Int
deriving DecidableEq, Repr, Inhabited

/-- The struct `models.CreateSubscriptionRequest`; a nil `custom_data` map is
`none`. -/
structure CreateSubscriptionRequest where
  CustomerID : String
  Items : List CreateSubItemReq
  CurrencyCode : String
  CollectionMode : String
  CustomData : Option (List (String × String))
deriving DecidableEq, Repr, Inhabited

/-- The struct `models.ScheduledChangeReq`. -/
structure ScheduledChangeReq where
  Action : String
deriving DecidableEq, Repr, Inhabited

/-- The struct `models.UpdateSubscriptionRequest`. -/
structure UpdateSubscriptionRequest where
  ScheduledChange : Option ScheduledChangeReq
  Items : List CreateSubItemReq
  CustomData : Option (List (String × String))
deriving DecidableEq, Repr, Inhabited

/-- The struct `models.ChargeRequest`. -/
structure ChargeRequest where
  Items : List CreateSubItemReq
deriving DecidableEq, Repr, Inhabited

/-- The struct `models.TransactionItem`. -/
structure TransactionItem where
  PriceID : String
  Quantity : Int
  Price : Price
  Product : Option Product
deriving DecidableEq, Repr, Inhabited

/-- The struct `models.TransactionTotals`. -/
structure TransactionTotals where
  Subtotal : String
  Tax : String
  Total : String
  GrandTotal : String
  CurrencyCode : String
deriving DecidableEq, Repr, Inhabited

/-- The struct `models.Transaction` (`details` holds only the totals). -/
structure Transaction where
  ID : String
  Status : String
  CustomerID : String
  SubscriptionID : Option String
  CurrencyCode : String
  CollectionMode : String
  Origin : String
  Items : List TransactionItem
  Totals : TransactionTotals
  BilledAt : Option Time
  CreatedAt : Time
  UpdatedAt : Time
  CustomData : List (String × String)
deriving DecidableEq, Repr, Inhabited

/-- The `Data interface{}` of an event: a `*models.Subscription` (an address of
the heap, shared with the store), a `*models.Transaction` (never written after
it is stored, hence a value) or a decoded JSON document. -/
inductive EventData where
  | subscription (addr : Nat)
  | transaction (txn : Transaction)
  | json (raw : String)
deriving DecidableEq, Repr, Inhabited

/-- The struct `models.Event`. -/
structure Event where
  EventID : String
  EventType : String
  OccurredAt : Time
  Data : EventData
deriving DecidableEq, Repr, Inhabited

/-- The struct `models.NotificationSetting`. -/
structure NotificationSetting where
  ID : String
  Destination : String
  Active : Bool
  SubscribedEvents : List String
deriving DecidableEq, Repr, Inhabited

/-! ## Store (`store.go`) -/

/-- Lookup in a Go map held as an association list. -/
def mapGet {V : Type} (m : List (String × V)) (k : String) : Option V :=
  match m with
  | [] => none
  | (k', v) :: rest => if k' = k then some v else mapGet rest k

/-- Assignment `m[k] = v` in a Go map held as an association list: the entry of
an existing key is replaced, a new key is added. -/
def mapSet {V : Type} (m : List (String × V)) (k : String) (v : V) : List (String × V) :=
  match m with
  | [] => [(k, v)]
  | (k', v') :: rest => if k' = k then (k, v) :: rest else (k', v') :: mapSet rest k v

/-- The values of a Go map in one of its iteration orders; the order is not
specified by the language and is chosen here by a seed. -/
def mapValues {V : Type} (m : List (String × V)) (seed : Nat) : List V :=
  (m.map Prod.snd).rotate seed

/-- The struct `store.Store`; the subscription map holds heap addresses. -/
structure Store where
  Products : List (String × Product)
  Prices : List (String × Price)
  Customers : List (String × Customer)
  Subscriptions : List (String × Nat)
  Transactions : List (String × Transaction)
  Events : List Event
  NotificationSettings : List (String × NotificationSetting)
deriving DecidableEq, Repr, Inhabited

/-- One HTTP POST handed to the client by `Notifier.send`. -/
structure Delivery where
  url : String
  body : String
  signature : String
deriving DecidableEq, Repr, Inhabited

/-- The state of the process: the store, the heap of subscription objects, the
global `idCounter`, the number of clock readings taken so far and the webhook
requests sent so far. -/
structure World where
  store : Store
  heap : List Subscription
  idCounter : Nat
  clockReads : Nat
  posts : List Delivery
deriving DecidableEq, Repr, Inhabited

/-- An event as `json.Marshal` sees it: the data pointer is followed. -/
inductive DataView where
  | subscription (sub : Option Subscription)
  | transaction (txn : Transaction)
  | json (raw : String)
deriving DecidableEq, Repr, Inhabited

/-- What the program takes from its surroundings: the successive readings of
the clock, the seed of map iteration, the signing secret the notifier was built
with, `json.Marshal` of an event (of its id, type, time and data), and whether
`http.NewRequest` accepts a URL. -/
structure Env where
  clock : Nat → Time
  mapSeed : Nat
  signingSecret : String
  marshal : String → String → Time → DataView → Option String
  requestOk : String → Bool

/-- A reading of `time.Now().UTC()`. -/
def timeNow (env : Env) (w : World) : Time × World :=
  (env.clock w.clockReads, { w with clockReads := w.clockReads + 1 })

/-- The verb `%08d` of `fmt.Sprintf` for an unsigned number. -/
def pad8 (n : Nat) : String :=
  let s := toString n
  String.mk (List.replicate (8 - s.length) '0') ++ s

/-- The function `store.NextID`: the counter is a `uint64`. -/
def NextID (w : World) (pfx : String) : String × World :=
  let n := (w.idCounter + 1) % 2 ^ 64
  (pfx ++ "_" ++ pad8 n, { w with idCounter := n })

/-- The method `Store.GetPrice`. -/
def GetPrice (w : World) (id : String) : Option Price := mapGet w.store.Prices id

/-- The method `Store.GetProduct`. -/
def GetProduct (w : World) (id : String) : Option Product := mapGet w.store.Products id

/-- The method `Store.GetCustomer`. -/
def GetCustomer (w : World) (id : String) : Option Customer := mapGet w.store.Customers id

/-- The method `Store.GetSubscription`: the pointer held under the key. -/
def GetSubscription (w : World) (id : String) : Option Nat := mapGet w.store.Subscriptions id

/-- The subscription object at an address, if the address is allocated. -/
def deref (w : World) (a : Nat) : Option Subscription := w.heap.get? a

/-- A write through a subscription pointer. -/
def writeSub (w : World) (a : Nat) (sub : Subscription) : World :=
  { w with heap := w.heap.set a sub }

/-- Allocation of a new subscription object. -/
def allocSub (w : World) (sub : Subscription) : Nat × World :=
  (w.heap.length, { w with heap := w.heap ++ [sub] })

/-- The method `Store.SetSubscription` for the object at address `a`. -/
def SetSubscription (w : World) (a : Nat) (sub : Subscription) : World :=
  { w with store := { w.store with Subscriptions := mapSet w.store.Subscriptions sub.ID a } }

/-- The method `Store.SetTransaction`. -/
def SetTransaction (w : World) (t : Transaction) : World :=
  { w with store := { w.store with Transactions := mapSet w.store.Transactions t.ID t } }

/-- The method `Store.ListTransactions`. -/
def ListTransactions (env : Env) (w : World) : List Transaction :=
  mapValues w.store.Transactions env.mapSeed

/-- The method `Store.ListNotificationSettings`. -/
def ListNotificationSettings (env : Env) (w : World) : List NotificationSetting :=
  mapValues w.store.NotificationSettings env.mapSeed

/-- The method `Store.AddEvent`. -/
def AddEvent (w : World) (e : Event) : World :=
  { w with store := { w.store with Events := w.store.Events ++ [e] } }

/-- The method `Store.ListEvents`. -/
def ListEvents (w : World) : List Event := w.store.Events

/-! ## SHA-256, HMAC and hex encoding (`crypto/sha256`, `crypto/hmac`, `encoding/hex`) -/

/-- The bytes of the UTF-8 encoding of a character. -/
def utf8Char (c : Char) : List Nat :=
  let n := c.toNat
  if n < 128 then [n]
  else if n < 2048 then [192 + n / 64, 128 + n % 64]
  else if n < 65536 then [224 + n / 4096, 128 + n / 64 % 64, 128 + n % 64]
  else [240 + n / 262144, 128 + n / 4096 % 64, 128 + n / 64 % 64, 128 + n % 64]

/-- The conversion `[]byte(s)` of a string: its UTF-8 bytes. -/
def utf8 (s : String) : List Nat := (s.toList.map utf8Char).flatten

/-- Rotation of a 32-bit word to the right. -/
def rotr (x n : Nat) : Nat := (x >>> n ||| x <<< (32 - n)) % 2 ^ 32

/-- The round constants of SHA-256 (FIPS 180-4, 4.2.2). -/
def sha256K : List Nat :=
  [0x428a2f98, 0x71374491, 0xb5c0fbcf, 0xe9b5dba5, 0x3956c25b, 0x59f111f1, 0x923f82a4, 0xab1c5ed5,
   0xd807aa98, 0x12835b01, 0x243185be, 0x550c7dc3, 0x72be5d74, 0x80deb1fe, 0x9bdc06a7, 0xc19bf174,
   0xe49b69c1, 0xefbe4786, 0x0fc19dc6, 0x240ca1cc, 0x2de92c6f, 0x4a7484aa, 0x5cb0a9dc, 0x76f988da,
   0x983e5152, 0xa831c66d, 0xb00327c8, 0xbf597fc7, 0xc6e00bf3, 0xd5a79147, 0x06ca6351, 0x14292967,
   0x27b70a85, 0x2e1b2138, 0x4d2c6dfc, 0x53380d13, 0x650a7354, 0x766a0abb, 0x81c2c92e, 0x92722c85,
   0xa2bfe8a1, 0xa81a664b, 0xc24b8b70, 0xc76c51a3, 0xd192e819, 0xd6990624, 0xf40e3585, 0x106aa070,
   0x19a4c116, 0x1e376c08, 0x2748774c, 0x34b0bcb5, 0x391c0cb3, 0x4ed8aa4a, 0x5b9cca4f, 0x682e6ff3,
   0x748f82ee, 0x78a5636f, 0x84c87814, 0x8cc70208, 0x90befffa, 0xa4506ceb, 0xbef9a3f7, 0xc67178f2]

/-- The eight working words of SHA-256. -/
structure HashState where
  a : Nat
  b : Nat
  c : Nat
  d : Nat
  e : Nat
  f : Nat
  g : Nat
  h : Nat
deriving DecidableEq, Repr

/-- The initial hash value of SHA-256 (FIPS 180-4, 5.3.3). -/
def sha256Init : HashState :=
  ⟨0x6a09e667, 0xbb67ae85, 0x3c6ef372, 0xa54ff53a, 0x510e527f, 0x9b05688c, 0x1f83d9ab, 0x5be0cd19⟩

/-- One of the 64 rounds of the compression function, for a round constant and
a word of the message schedule. -/
def sha256Round (s : HashState) (kw : Nat × Nat) : HashState :=
  let s1 := rotr s.e 6 ^^^ rotr s.e 11 ^^^ rotr s.e 25
  let ch := (s.e &&& s.f) ^^^ ((s.e ^^^ 0xffffffff) &&& s.g)
  let t1 := (s.h + s1 + ch + kw.1 + kw.2) % 2 ^ 32
  let s0 := rotr s.a 2 ^^^ rotr s.a 13 ^^^ rotr s.a 22
  let maj := (s.a &&& s.b) ^^^ (s.a &&& s.c) ^^^ (s.b &&& s.c)
  let t2 := (s0 + maj) % 2 ^ 32
  ⟨(t1 + t2) % 2 ^ 32, s.a, s.b, s.c, (s.d + t1) % 2 ^ 32, s.e, s.f, s.g⟩

/-- The message schedule, latest word first: `n` more words are put in front of
the words so far. -/
def sha256Extend : Nat → List Nat → List Nat
  | 0, ws => ws
  | n + 1, ws =>
    let w2 := ws.getD 1 0
    let w7 := ws.getD 6 0
    let w15 := ws.getD 14 0
    let w16 := ws.getD 15 0
    let s0 := rotr w15 7 ^^^ rotr w15 18 ^^^ (w15 >>> 3)
    let s1 := rotr w2 17 ^^^ rotr w2 19 ^^^ (w2 >>> 10)
    sha256Extend n (((s1 + w7 + s0 + w16) % 2 ^ 32) :: ws)

/-- The first `n` big-endian 32-bit words of a list of bytes. -/
def beWords : Nat → List Nat → List Nat
  | 0, _ => []
  | n + 1, bs =>
    (bs.getD 0 0 * 16777216 + bs.getD 1 0 * 65536 + bs.getD 2 0 * 256 + bs.getD 3 0) ::
      beWords n (bs.drop 4)

/-- The compression function of SHA-256 on one block of 64 bytes. -/
def sha256Block (s : HashState) (block : List Nat) : HashState :=
  let w := (sha256Extend 48 (beWords 16 block).reverse).reverse
  let r := (sha256K.zip w).foldl sha256Round s
  ⟨(s.a + r.a) % 2 ^ 32, (s.b + r.b) % 2 ^ 32, (s.c + r.c) % 2 ^ 32, (s.d + r.d) % 2 ^ 32,
    (s.e + r.e) % 2 ^ 32, (s.f + r.f) % 2 ^ 32, (s.g + r.g) % 2 ^ 32, (s.h + r.h) % 2 ^ 32⟩

/-- The first `n` blocks of 64 bytes of a list of bytes. -/
def blocks64 : Nat → List Nat → List (List Nat)
  | 0, _ => []
  | n + 1, bs => bs.take 64 :: blocks64 n (bs.drop 64)

/-- The bytes of a 64-bit value, most significant first. -/
def beBytes64 (n : Nat) : List Nat :=
  [n / 2 ^ 56 % 256, n / 2 ^ 48 % 256, n / 2 ^ 40 % 256, n / 2 ^ 32 % 256,
   n / 2 ^ 24 % 256, n / 2 ^ 16 % 256, n / 2 ^ 8 % 256, n % 256]

/-- The padding of SHA-256: a bit 1, zero bits up to 56 bytes modulo 64, and
the length of the message in bits as a 64-bit value. -/
def sha256Pad (msg : List Nat) : List Nat :=
  msg ++ [128] ++ List.replicate ((64 - (msg.length + 9) % 64) % 64) 0 ++
    beBytes64 (8 * msg.length % 2 ^ 64)

/-- The 32 bytes of a hash value, each word most significant byte first. -/
def digestBytes (s : HashState) : List Nat :=
  [s.a / 16777216 % 256, s.a / 65536 % 256, s.a / 256 % 256, s.a % 256,
   s.b / 16777216 % 256, s.b / 65536 % 256, s.b / 256 % 256, s.b % 256,
   s.c / 16777216 % 256, s.c / 65536 % 256, s.c / 256 % 256, s.c % 256,
   s.d / 16777216 % 256, s.d / 65536 % 256, s.d / 256 % 256, s.d % 256,
   s.e / 16777216 % 256, s.e / 65536 % 256, s.e / 256 % 256, s.e % 256,
   s.f / 16777216 % 256, s.f / 65536 % 256, s.f / 256 % 256, s.f % 256,
   s.g / 16777216 % 256, s.g / 65536 % 256, s.g / 256 % 256, s.g % 256,
   s.h / 16777216 % 256, s.h / 65536 % 256, s.h / 256 % 256, s.h % 256]

/-- SHA-256 of a list of bytes (`sha256.Sum256`, FIPS 180-4). -/
def sha256 (msg : List Nat) : List Nat :=
  let padded := sha256Pad msg
  digestBytes ((blocks64 (padded.length / 64) padded).foldl sha256Block sha256Init)

/-- HMAC-SHA256 of a message under a key (`hmac.New(sha256.New, key)`, RFC
2104): a key longer than the block of 64 bytes is hashed first, then padded
with zeros to the block. -/
def hmacSHA256 (key msg : List Nat) : List Nat :=
  let key := if key.length > 64 then sha256 key else key
  let key := key ++ List.replicate (64 - key.length) 0
  sha256 (key.map (fun b => b ^^^ 0x5c) ++ sha256 (key.map (fun b => b ^^^ 0x36) ++ msg))

/-- The digit of `encoding/hex` for a value below 16. -/
def hexDigit (n : Nat) : Char := "0123456789abcdef".toList.getD n '0'

/-- The function `hex.EncodeToString`: two lowercase digits per byte. -/
def hexEncode (bs : List Nat) : String :=
  ⟨(bs.map (fun b => [hexDigit (b / 16 % 16), hexDigit (b % 16)])).flatten⟩

/-! ## Webhook dispatcher (`webhook.go`) -/

/-- The data of an event with its pointer followed in the current heap. -/
def EventData.view (w : World) : EventData → DataView
  | .subscription a => .subscription (deref w a)
  | .transaction t => .transaction t
  | .json raw => .json raw

/-- The method `Notifier.send`: the request is signed and, when it can be
built, handed to the HTTP client; the outcome of the POST is only logged. -/
def Notifier.send (env : Env) (w : World) (url payload : String) : World :=
  let (t, w) := timeNow env w
  let ts := toString t.Unix
  let signedPayload := ts ++ ":" ++ payload
  let h1 := hexEncode (hmacSHA256 (utf8 env.signingSecret) (utf8 signedPayload))
  let signature := "ts=" ++ ts ++ ";h1=" ++ h1
  if env.requestOk url then
    { w with posts := w.posts ++ [{ url := url, body := payload, signature := signature }] }
  else w

/-- The delivery loop of `Notifier.Fire` over the listed settings. -/
def deliver (env : Env) (payload : String) (w : World) (settings : List NotificationSetting) :
    World :=
  settings.foldl (fun w ns => if ns.Active then Notifier.send env w ns.Destination payload else w) w

/-- The method `Notifier.Fire`. -/
def Notifier.Fire (env : Env) (w : World) (eventType : String) (data : EventData) : World :=
  let (id, w) := NextID w "evt"
  let (now, w) := timeNow env w
  let event : Event := { EventID := id, EventType := eventType, OccurredAt := now, Data := data }
  let w := AddEvent w event
  match env.marshal event.EventID event.EventType event.OccurredAt (data.view w) with
  | none => w
  | some payload => deliver env payload w (ListNotificationSettings env w)

/-! ## Transaction factory (`subscriptions.go`, `admin.go`) -/

/-- The loop shared by the three transaction builders: one transaction item per
subscription item, and the running total in machine arithmetic. -/
def transactionLoop (items : List SubscriptionItem) : List TransactionItem × Int :=
  items.foldl
    (fun acc item =>
      (acc.1 ++ [{ PriceID := item.Price.ID, Quantity := item.Quantity, Price := item.Price,
                   Product := item.Product }],
       wrapInt (acc.2 + wrapInt (parseAmount item.Price.UnitPrice.Amount * item.Quantity))))
    ([], 0)

/-- The totals block written by every transaction builder. -/
def totalsOf (totalAmount : Int) (currency : String) : TransactionTotals :=
  let total := formatAmount totalAmount
  { Subtotal := total, Tax := "0", Total := total, GrandTotal := total, CurrencyCode := currency }

/-- The method `SubscriptionsHandler.createTransaction`. -/
def SubscriptionsHandler.createTransaction (env : Env) (w : World) (sub : Subscription)
    (origin : String) : World :=
  let (now, w) := timeNow env w
  let (id, w) := NextID w "txn"
  let (items, totalAmount) := transactionLoop sub.Items
  SetTransaction w
    { ID := id, Status := "completed", CustomerID := sub.CustomerID,
      SubscriptionID := some sub.ID, CurrencyCode := sub.CurrencyCode,
      CollectionMode := sub.CollectionMode, Origin := origin, Items := items,
      Totals := totalsOf totalAmount sub.CurrencyCode, BilledAt := some now,
      CreatedAt := now, UpdatedAt := now, CustomData := [] }

/-- The method `AdminHandler.createTransaction` (the same text as the one of
the subscriptions handler). -/
def AdminHandler.createTransaction (env : Env) (w : World) (sub : Subscription)
    (origin : String) : World :=
  let (now, w) := timeNow env w
  let (id, w) := NextID w "txn"
  let (items, totalAmount) := transactionLoop sub.Items
  SetTransaction w
    { ID := id, Status := "completed", CustomerID := sub.CustomerID,
      SubscriptionID := some sub.ID, CurrencyCode := sub.CurrencyCode,
      CollectionMode := sub.CollectionMode, Origin := origin, Items := items,
      Totals := totalsOf totalAmount sub.CurrencyCode, BilledAt := some now,
      CreatedAt := now, UpdatedAt := now, CustomData := [] }

/-- The method `AdminHandler.createFailedTransaction`. -/
def AdminHandler.createFailedTransaction (env : Env) (w : World) (sub : Subscription) :
    Transaction × World :=
  let (now, w) := timeNow env w
  let (id, w) := NextID w "txn"
  let (items, totalAmount) := transactionLoop sub.Items
  let txn : Transaction :=
    { ID := id, Status := "failed", CustomerID := sub.CustomerID,
      SubscriptionID := some sub.ID, CurrencyCode := sub.CurrencyCode,
      CollectionMode := sub.CollectionMode, Origin := "subscription_recurring", Items := items,
      Totals := totalsOf totalAmount sub.CurrencyCode, BilledAt := none,
      CreatedAt := now, UpdatedAt := now, CustomData := [] }
  (txn, SetTransaction w txn)

/-! ## Lifecycle engine (`subscriptions.go`, `admin.go`) -/

/-- What a handler does with the request: `respond` with a subscription,
`respondError`, or a runtime panic (recovered by the HTTP server; the writes
made before it stay). -/
inductive Result where
  | ok (status : Nat) (sub : Subscription)
  | error (status : Nat) (errType code detail : String)
  | fault (what : String)
deriving DecidableEq, Repr, Inhabited

/-- The validation failure for an unresolved price id. -/
def priceNotFound (priceID : String) : Result :=
  .error 400 "request_error" "validation_error" ("Price not found: " ++ priceID)

/-- The quantity defaulting of the item loops. -/
def defaultQty (q : Int) : Int := if q = 0 then 1 else q

/-- One iteration of the item loop of `SubscriptionsHandler.create`, on the
subscription under construction. -/
def createItem (w : World) (now : Time) (sub : Subscription) (item : CreateSubItemReq) :
    Except Result Subscription :=
  match GetPrice w item.PriceID with
  | none => .error (priceNotFound item.PriceID)
  | some price =>
    let subItem : SubscriptionItem :=
      { Status := "trialing", Quantity := defaultQty item.Quantity, Recurring := true,
        CreatedAt := now, UpdatedAt := now, PreviouslyBilledAt := none, NextBilledAt := none,
        TrialDates := none, Price := price, Product := none }
    let sub : Subscription :=
      match price.BillingCycle with
      | some bc => { sub with BillingCycle := bc }
      | none => sub
    match price.TrialPeriod with
    | some tp =>
      let trialEnd := addPeriod now tp.Interval tp.Frequency
      let subItem := { subItem with
        TrialDates := some { StartsAt := now, EndsAt := trialEnd }
        NextBilledAt := some trialEnd
        Product := GetProduct w price.ProductID }
      .ok { sub with
        NextBilledAt := some trialEnd
        CurrentBillingPeriod := some { StartsAt := now, EndsAt := trialEnd }
        Items := sub.Items ++ [subItem] }
    | none =>
      match price.BillingCycle with
      | none => .error (.fault "nil pointer dereference: price.BillingCycle")
      | some bc =>
        let nextBill := addPeriod now bc.Interval bc.Frequency
        let subItem := { subItem with
          Status := "active"
          NextBilledAt := some nextBill
          Product := GetProduct w price.ProductID }
        .ok { sub with
          Status := "active"
          NextBilledAt := some nextBill
          FirstBilledAt := some now
          CurrentBillingPeriod := some { StartsAt := now, EndsAt := nextBill }
          Items := sub.Items ++ [subItem] }

/-- The item loop of `SubscriptionsHandler.create`: it stops at the first item
that is rejected or faults. -/
def createItems (w : World) (now : Time) (sub : Subscription) :
    List CreateSubItemReq → Except Result Subscription
  | [] => .ok sub
  | item :: rest =>
    match createItem w now sub item with
    | .error r => .error r
    | .ok sub => createItems w now sub rest

/-- The method `SubscriptionsHandler.create`. -/
def SubscriptionsHandler.create (env : Env) (w : World) (req : CreateSubscriptionRequest) :
    World × Result :=
  if req.CustomerID = "" ∨ req.Items.length = 0 then
    (w, .error 400 "request_error" "validation_error" "customer_id and items are required")
  else
    match GetCustomer w req.CustomerID with
    | none => (w, .error 400 "request_error" "validation_error" "Customer not found")
    | some _ =>
      let (now, w) := timeNow env w
      let currency := if req.CurrencyCode = "" then "USD" else req.CurrencyCode
      let collectionMode := if req.CollectionMode = "" then "automatic" else req.CollectionMode
      let (id, w) := NextID w "sub"
      let sub : Subscription :=
        { ID := id, Status := "trialing", CustomerID := req.CustomerID, CurrencyCode := currency,
          CreatedAt := now, UpdatedAt := now, StartedAt := some now, FirstBilledAt := none,
          NextBilledAt := none, PausedAt := none, CanceledAt := none,
          CollectionMode := collectionMode, CurrentBillingPeriod := none,
          BillingCycle := { Interval := "", Frequency := 0 }, ScheduledChange := none,
          Items := [], CustomData := req.CustomData.getD [] }
      match createItems w now sub req.Items with
      | .error r => (w, r)
      | .ok sub =>
        let (a, w) := allocSub w sub
        let w := SetSubscription w a sub
        let w := SubscriptionsHandler.createTransaction env w sub "subscription_recurring"
        let w := Notifier.Fire env w "subscription.created" (.subscription a)
        (w, .ok 201 sub)

/-- A write of some fields through a subscription pointer. -/
def modifySub (w : World) (a : Nat) (f : Subscription → Subscription) : World :=
  match deref w a with
  | some sub => writeSub w a (f sub)
  | none => w

/-- The `effective_at` of a scheduled cancel or pause: the clock is read first
and the end of the current billing period, when there is one, replaces it. -/
def effectiveAt (now : Time) (sub : Subscription) : Time :=
  match sub.CurrentBillingPeriod with
  | some p => p.EndsAt
  | none => now

/-- The `scheduled_change` switch of `SubscriptionsHandler.update`, written
through the pointer `a`. -/
def applyScheduledChange (env : Env) (w : World) (a : Nat) (sc : ScheduledChangeReq) : World :=
  if sc.Action = "cancel" then
    let (now, w) := timeNow env w
    modifySub w a (fun sub =>
      { sub with ScheduledChange := some { Action := "cancel", EffectiveAt := effectiveAt now sub } })
  else if sc.Action = "pause" then
    let (now, w) := timeNow env w
    modifySub w a (fun sub =>
      { sub with ScheduledChange := some { Action := "pause", EffectiveAt := effectiveAt now sub } })
  else if sc.Action = "resume" then
    modifySub w a (fun sub =>
      let sub := { sub with ScheduledChange := none }
      if sub.Status = "paused" then { sub with Status := "active", PausedAt := none } else sub)
  else w

/-- The item loop of `SubscriptionsHandler.update`, building the replacement
list at the given status; it stops at the first unresolved price. -/
def updateItems (w : World) (now : Time) (status : String) (newItems : List SubscriptionItem) :
    List CreateSubItemReq → Except Result (List SubscriptionItem)
  | [] => .ok newItems
  | item :: rest =>
    match GetPrice w item.PriceID with
    | none => .error (priceNotFound item.PriceID)
    | some price =>
      updateItems w now status
        (newItems ++ [{ Status := status, Quantity := defaultQty item.Quantity, Recurring := true,
                        CreatedAt := now, UpdatedAt := now, PreviouslyBilledAt := none,
                        NextBilledAt := none, TrialDates := none, Price := price,
                        Product := GetProduct w price.ProductID }])
        rest

/-- The tail of `SubscriptionsHandler.update` after the item replacement. -/
def finishUpdate (env : Env) (w : World) (a : Nat) : World × Result :=
  let (t, w) := timeNow env w
  let w := modifySub w a (fun sub => { sub with UpdatedAt := t })
  match deref w a with
  | none => (w, .fault "nil pointer dereference: sub")
  | some sub =>
    let w := SetSubscription w a sub
    let w := Notifier.Fire env w "subscription.updated" (.subscription a)
    (w, .ok 200 sub)

/-- The method `SubscriptionsHandler.update`. Every assignment to a field of
`sub` is a write to the stored object, since `sub` is the stored pointer. -/
def SubscriptionsHandler.update (env : Env) (w : World) (id : String)
    (req : UpdateSubscriptionRequest) : World × Result :=
  match GetSubscription w id with
  | none => (w, .error 404 "request_error" "not_found" "Subscription not found")
  | some a =>
    match deref w a with
    | none => (w, .fault "nil pointer dereference: sub")
    | some _ =>
      let w := match req.ScheduledChange with
        | some sc => applyScheduledChange env w a sc
        | none => w
      let w := match req.CustomData with
        | some cd => modifySub w a (fun sub => { sub with CustomData := cd })
        | none => w
      if req.Items.length > 0 then
        let (now, w) := timeNow env w
        let status := match deref w a with
          | some sub => sub.Status
          | none => ""
        match updateItems w now status [] req.Items with
        | .error r => (w, r)
        | .ok newItems =>
          finishUpdate env (modifySub w a (fun sub => { sub with Items := newItems })) a
      else finishUpdate env w a

/-- The method `SubscriptionsHandler.activate`. -/
def SubscriptionsHandler.activate (env : Env) (w : World) (id : String) : World × Result :=
  match GetSubscription w id with
  | none => (w, .error 404 "request_error" "not_found" "Subscription not found")
  | some a =>
    match deref w a with
    | none => (w, .fault "nil pointer dereference: sub")
    | some sub =>
      if sub.Status ≠ "trialing" then
        (w, .error 409 "request_error" "conflict" "Subscription is not trialing")
      else
        let (now, w) := timeNow env w
        let nextBill := addPeriod now sub.BillingCycle.Interval sub.BillingCycle.Frequency
        let sub := { sub with
          Status := "active"
          FirstBilledAt := some now
          UpdatedAt := now
          NextBilledAt := some nextBill
          CurrentBillingPeriod := some { StartsAt := now, EndsAt := nextBill }
          Items := sub.Items.map (fun it => { it with
            Status := "active"
            TrialDates := none
            NextBilledAt := some nextBill
            UpdatedAt := now }) }
        let w := writeSub w a sub
        let w := SetSubscription w a sub
        let w := SubscriptionsHandler.createTransaction env w sub "subscription_recurring"
        let w := Notifier.Fire env w "subscription.activated" (.subscription a)
        (w, .ok 200 sub)

/-- The item loop of `SubscriptionsHandler.charge`. -/
def chargeItems (w : World) (acc : List TransactionItem × Int) :
    List CreateSubItemReq → Except Result (List TransactionItem × Int)
  | [] => .ok acc
  | item :: rest =>
    match GetPrice w item.PriceID with
    | none => .error (priceNotFound item.PriceID)
    | some price =>
      let qty := defaultQty item.Quantity
      chargeItems w
        (acc.1 ++ [{ PriceID := price.ID, Quantity := qty, Price := price,
                     Product := GetProduct w price.ProductID }],
         wrapInt (acc.2 + wrapInt (parseAmount price.UnitPrice.Amount * qty)))
        rest

/-- The method `SubscriptionsHandler.charge`. -/
def SubscriptionsHandler.charge (env : Env) (w : World) (id : String) (req : ChargeRequest) :
    World × Result :=
  match GetSubscription w id with
  | none => (w, .error 404 "request_error" "not_found" "Subscription not found")
  | some a =>
    match deref w a with
    | none => (w, .fault "nil pointer dereference: sub")
    | some sub =>
      let (now, w) := timeNow env w
      let (txnID, w) := NextID w "txn"
      match chargeItems w ([], 0) req.Items with
      | .error r => (w, r)
      | .ok (items, totalAmount) =>
        let txn : Transaction :=
          { ID := txnID, Status := "completed", CustomerID := sub.CustomerID,
            SubscriptionID := some sub.ID, CurrencyCode := sub.CurrencyCode,
            CollectionMode := sub.CollectionMode, Origin := "subscription_charge",
            Items := items, Totals := totalsOf totalAmount sub.CurrencyCode,
            BilledAt := some now, CreatedAt := now, UpdatedAt := now, CustomData := [] }
        let w := SetTransaction w txn
        let w := Notifier.Fire env w "transaction.completed" (.transaction txn)
        (w, .ok 201 sub)

/-- The expression `ListTransactions()[len(ListTransactions())-1]` followed by
the firing of `transaction.completed` on it; an empty listing is an index out
of range. -/
def fireLastTransaction (env : Env) (w : World) (sub : Subscription) : World × Result :=
  match (ListTransactions env w).getLast? with
  | none => (w, .fault "index out of range [-1]")
  | some txn =>
    (Notifier.Fire env w "transaction.completed" (.transaction txn), .ok 200 sub)

/-- The method `AdminHandler.advanceTime`; `failParam` is the value of the
query parameter `fail` (empty when absent). -/
def AdminHandler.advanceTime (env : Env) (w : World) (subID : String) (failParam : String) :
    World × Result :=
  match GetSubscription w subID with
  | none => (w, .error 404 "request_error" "not_found" "Subscription not found")
  | some a =>
    match deref w a with
    | none => (w, .fault "nil pointer dereference: sub")
    | some sub =>
      let (now, w) := timeNow env w
      if sub.Status = "trialing" then
        let nextBill := addPeriod now sub.BillingCycle.Interval sub.BillingCycle.Frequency
        let sub := { sub with
          Status := "active"
          FirstBilledAt := some now
          UpdatedAt := now
          NextBilledAt := some nextBill
          CurrentBillingPeriod := some { StartsAt := now, EndsAt := nextBill }
          Items := sub.Items.map (fun it => { it with
            Status := "active"
            TrialDates := none
            PreviouslyBilledAt := some now
            NextBilledAt := some nextBill
            UpdatedAt := now }) }
        let w := writeSub w a sub
        let w := SetSubscription w a sub
        let w := AdminHandler.createTransaction env w sub "subscription_recurring"
        let w := Notifier.Fire env w "subscription.activated" (.subscription a)
        fireLastTransaction env w sub
      else if sub.Status = "active" then
        if failParam = "true" then
          let sub := { sub with Status := "past_due", UpdatedAt := now }
          let w := writeSub w a sub
          let w := SetSubscription w a sub
          let (txn, w) := AdminHandler.createFailedTransaction env w sub
          let w := Notifier.Fire env w "subscription.past_due" (.subscription a)
          let w := Notifier.Fire env w "transaction.payment_failed" (.transaction txn)
          (w, .ok 200 sub)
        else
          let prevEnd := match sub.CurrentBillingPeriod with
            | some p => p.EndsAt
            | none => now
          let nextBill := addPeriod prevEnd sub.BillingCycle.Interval sub.BillingCycle.Frequency
          let sub := { sub with
            NextBilledAt := some nextBill
            CurrentBillingPeriod := some { StartsAt := prevEnd, EndsAt := nextBill }
            UpdatedAt := now
            Items := sub.Items.map (fun it => { it with
              PreviouslyBilledAt := some prevEnd
              NextBilledAt := some nextBill
              UpdatedAt := now }) }
          let w := writeSub w a sub
          let w := SetSubscription w a sub
          let w := AdminHandler.createTransaction env w sub "subscription_recurring"
          let w := Notifier.Fire env w "subscription.updated" (.subscription a)
          fireLastTransaction env w sub
      else if sub.Status = "past_due" then
        let sub := { sub with
          Status := "canceled"
          CanceledAt := some now
          UpdatedAt := now
          ScheduledChange := none }
        let w := writeSub w a sub
        let w := SetSubscription w a sub
        let w := Notifier.Fire env w "subscription.canceled" (.subscription a)
        (w, .ok 200 sub)
      else if sub.Status = "paused" then
        let nextBill := addPeriod now sub.BillingCycle.Interval sub.BillingCycle.Frequency
        let sub := { sub with
          Status := "active"
          PausedAt := none
          UpdatedAt := now
          NextBilledAt := some nextBill
          CurrentBillingPeriod := some { StartsAt := now, EndsAt := nextBill } }
        let w := writeSub w a sub
        let w := SetSubscription w a sub
        let w := Notifier.Fire env w "subscription.updated" (.subscription a)
        (w, .ok 200 sub)
      else
        (w, .error 409 "request_error" "conflict"
          ("Cannot advance subscription in status: " ++ sub.Status))

/-! ## Observations used by the statements -/

/-- The subscription a client reads under an id: the object the store's map
points to. -/
def storedSub (w : World) (id : String) : Option Subscription :=
  match GetSubscription w id with
  | some a => deref w a
  | none => none

/-- The event that `Notifier.Fire` logs when it is called in the world `w`. -/
def firedEvent (env : Env) (w : World) (eventType : String) (data : EventData) : Event :=
  { EventID := (NextID w "evt").1, EventType := eventType,
    OccurredAt := env.clock w.clockReads, Data := data }

/-- The transaction that `createTransaction` stores when it is called in the
world `w`. -/
def builtTransaction (env : Env) (w : World) (sub : Subscription) (origin : String) :
    Transaction :=
  { ID := (NextID w "txn").1, Status := "completed", CustomerID := sub.CustomerID,
    SubscriptionID := some sub.ID, CurrencyCode := sub.CurrencyCode,
    CollectionMode := sub.CollectionMode, Origin := origin,
    Items := (transactionLoop sub.Items).1,
    Totals := totalsOf (transactionLoop sub.Items).2 sub.CurrencyCode,
    BilledAt := some (env.clock w.clockReads),
    CreatedAt := env.clock w.clockReads, UpdatedAt := env.clock w.clockReads, CustomData := [] }

/-- The event types of a list of events, in order. -/
def eventTypes (es : List Event) : List String := es.map (fun e => e.EventType)

/-- The subscription `AdminHandler.advanceTime` writes for a trialing one. -/
def trialEnded (now : Time) (sub : Subscription) : Subscription :=
  let nextBill := addPeriod now sub.BillingCycle.Interval sub.BillingCycle.Frequency
  { sub with
    Status := "active"
    FirstBilledAt := some now
    UpdatedAt := now
    NextBilledAt := some nextBill
    CurrentBillingPeriod := some { StartsAt := now, EndsAt := nextBill }
    Items := sub.Items.map (fun it => { it with
      Status := "active"
      TrialDates := none
      PreviouslyBilledAt := some now
      NextBilledAt := some nextBill
      UpdatedAt := now }) }

/-- The subscription `AdminHandler.advanceTime` writes for an active one whose
payment fails. -/
def paymentFailed (now : Time) (sub : Subscription) : Subscription :=
  { sub with Status := "past_due", UpdatedAt := now }

/-- The end of the period a renewal starts from. -/
def prevEndOf (now : Time) (sub : Subscription) : Time :=
  match sub.CurrentBillingPeriod with
  | some p => p.EndsAt
  | none => now

/-- The subscription `AdminHandler.advanceTime` writes for an active one whose
payment succeeds. -/
def renewed (now : Time) (sub : Subscription) : Subscription :=
  let prevEnd := prevEndOf now sub
  let nextBill := addPeriod prevEnd sub.BillingCycle.Interval sub.BillingCycle.Frequency
  { sub with
    NextBilledAt := some nextBill
    CurrentBillingPeriod := some { StartsAt := prevEnd, EndsAt := nextBill }
    UpdatedAt := now
    Items := sub.Items.map (fun it => { it with
      PreviouslyBilledAt := some prevEnd
      NextBilledAt := some nextBill
      UpdatedAt := now }) }

/-- The subscription `AdminHandler.advanceTime` writes for a past-due one. -/
def canceledAfterPastDue (now : Time) (sub : Subscription) : Subscription :=
  { sub with
    Status := "canceled"
    CanceledAt := some now
    UpdatedAt := now
    ScheduledChange := none }

/-- The subscription `AdminHandler.advanceTime` writes for a paused one. -/
def resumed (now : Time) (sub : Subscription) : Subscription :=
  let nextBill := addPeriod now sub.BillingCycle.Interval sub.BillingCycle.Frequency
  { sub with
    Status := "active"
    PausedAt := none
    UpdatedAt := now
    NextBilledAt := some nextBill
    CurrentBillingPeriod := some { StartsAt := now, EndsAt := nextBill } }

/-- The subscription `SubscriptionsHandler.activate` writes. -/
def activated (now : Time) (sub : Subscription) : Subscription :=
  let nextBill := addPeriod now sub.BillingCycle.Interval sub.BillingCycle.Frequency
  { sub with
    Status := "active"
    FirstBilledAt := some now
    UpdatedAt := now
    NextBilledAt := some nextBill
    CurrentBillingPeriod := some { StartsAt := now, EndsAt := nextBill }
    Items := sub.Items.map (fun it => { it with
      Status := "active"
      TrialDates := none
      NextBilledAt := some nextBill
      UpdatedAt := now }) }

/-- The world after the stored object at `a` has been overwritten and set. -/
def committed (env : Env) (w : World) (a : Nat) (sub : Subscription) : World :=
  SetSubscription (writeSub (timeNow env w).2 a sub) a sub

/-- The failed transaction that `createFailedTransaction` stores when it is
called in the world `w`. -/
def builtFailedTransaction (env : Env) (w : World) (sub : Subscription) : Transaction :=
  { ID := (NextID w "txn").1, Status := "failed", CustomerID := sub.CustomerID,
    SubscriptionID := some sub.ID, CurrencyCode := sub.CurrencyCode,
    CollectionMode := sub.CollectionMode, Origin := "subscription_recurring",
    Items := (transactionLoop sub.Items).1,
    Totals := totalsOf (transactionLoop sub.Items).2 sub.CurrencyCode,
    BilledAt := none,
    CreatedAt := env.clock w.clockReads, UpdatedAt := env.clock w.clockReads, CustomData := [] }

/-! ## Concrete inputs -/

/-- A sample instant: 2024-01-31T12:00:00Z. -/
def sampleTime : Time := ⟨1706702400000000000⟩

/-- A sample environment: the clock advances by one second per reading. -/
def sampleEnv : Env :=
  { clock := fun n => ⟨1706702400000000000 + 1000000000 * n⟩
    mapSeed := 0
    signingSecret := "secret"
    marshal := fun id ty _ _ => some (id ++ ":" ++ ty)
    requestOk := fun _ => true }

/-- A monthly price with a fourteen-day trial. -/
def trialPrice : Price :=
  { ID := "pri_trial", ProductID := "prod_base", BillingCycle := some ⟨"month", 1⟩,
    TrialPeriod := some ⟨"day", 14⟩, UnitPrice := ⟨"500", "USD"⟩, Status := "active" }

/-- A yearly price without a trial. -/
def plainPrice : Price :=
  { ID := "pri_plain", ProductID := "prod_base", BillingCycle := some ⟨"year", 1⟩,
    TrialPeriod := none, UnitPrice := ⟨"4800", "USD"⟩, Status := "active" }

/-- A one-time price: neither a billing cycle nor a trial period. -/
def oneTimePrice : Price :=
  { ID := "pri_once", ProductID := "prod_base", BillingCycle := none,
    TrialPeriod := none, UnitPrice := ⟨"900", "USD"⟩, Status := "active" }

/-- A subscription in the given status, with one item and a current period. -/
def sampleSub (status : String) : Subscription :=
  { ID := "sub_a", Status := status, CustomerID := "ctm_a", CurrencyCode := "USD",
    CreatedAt := sampleTime, UpdatedAt := sampleTime, StartedAt := some sampleTime,
    FirstBilledAt := none, NextBilledAt := some ⟨1707912000000000000⟩,
    PausedAt := if status = "paused" then some sampleTime else none, CanceledAt := none,
    CollectionMode := "automatic",
    CurrentBillingPeriod := some ⟨sampleTime, ⟨1707912000000000000⟩⟩,
    BillingCycle := ⟨"month", 1⟩, ScheduledChange := none,
    Items := [{ Status := status, Quantity := 2, Recurring := true, CreatedAt := sampleTime,
                UpdatedAt := sampleTime, PreviouslyBilledAt := none,
                NextBilledAt := some ⟨1707912000000000000⟩,
                TrialDates := some ⟨sampleTime, ⟨1707912000000000000⟩⟩,
                Price := trialPrice, Product := some ⟨"prod_base", "Base", "active"⟩ }],
    CustomData := [("plan", "old")] }

/-- A store with one product, three prices and one customer, and one
subscription in the given status held under the id `sub_a`. -/
def sampleWorld (status : String) : World :=
  { store :=
      { Products := [("prod_base", ⟨"prod_base", "Base", "active"⟩)]
        Prices := [("pri_trial", trialPrice), ("pri_plain", plainPrice),
                   ("pri_once", oneTimePrice)]
        Customers := [("ctm_a", ⟨"ctm_a", "a@example.com", "active"⟩)]
        Subscriptions := [("sub_a", 0)]
        Transactions := []
        Events := []
        NotificationSettings := [("ntfset_a", ⟨"ntfset_a", "http://localhost/hook", true, []⟩)] }
    heap := [sampleSub status]
    idCounter := 0
    clockReads := 0
    posts := [] }

/-- The id that the call of `NextID` after `k` further calls returns for a
prefix. -/
def comingID (w : World) (pfx : String) : Nat → String
  | 0 => (NextID w pfx).1
  | k + 1 => comingID (NextID w pfx).2 pfx k

/-- The subscription object `SubscriptionsHandler.create` starts its item loop
with. -/
def initialSubscription (env : Env) (w : World) (req : CreateSubscriptionRequest) :
    Subscription :=
  { ID := (NextID w "sub").1, Status := "trialing", CustomerID := req.CustomerID,
    CurrencyCode := if req.CurrencyCode = "" then "USD" else req.CurrencyCode,
    CreatedAt := env.clock w.clockReads, UpdatedAt := env.clock w.clockReads,
    StartedAt := some (env.clock w.clockReads), FirstBilledAt := none,
    NextBilledAt := none, PausedAt := none, CanceledAt := none,
    CollectionMode := if req.CollectionMode = "" then "automatic" else req.CollectionMode,
    CurrentBillingPeriod := none,
    BillingCycle := { Interval := "", Frequency := 0 }, ScheduledChange := none,
    Items := [], CustomData := req.CustomData.getD [] }

/-- The world in which `SubscriptionsHandler.create` stores the subscription:
the clock has been read once and one id has been drawn. -/
def createStart (env : Env) (w : World) : World := (NextID (timeNow env w).2 "sub").2

/-- The world after `SubscriptionsHandler.create` has allocated and stored the
subscription. -/
def createStored (env : Env) (w : World) (sub : Subscription) : World :=
  SetSubscription (allocSub (createStart env w) sub).2 w.heap.length sub

/-- The statuses of a subscription and of its items, in order. -/
def statusView (sub : Subscription) : String × List String :=
  (sub.Status, sub.Items.map (fun it => it.Status))

/-- Every item carries the status of the subscription. -/
def Mirrors (sub : Subscription) : Prop := ∀ it ∈ sub.Items, it.Status = sub.Status

instance (sub : Subscription) : Decidable (Mirrors sub) :=
  inferInstanceAs (Decidable (∀ it ∈ sub.Items, it.Status = sub.Status))

/-- The relation between a transaction item built by `Charge` and the request
item it is built from: the price is the one the store resolves the requested
id to, the quantity is the requested one with 0 replaced by 1. -/
def ChargedFrom (w : World) (ti : TransactionItem) (ri : CreateSubItemReq) : Prop :=
  GetPrice w ri.PriceID = some ti.Price ∧ ti.PriceID = ti.Price.ID ∧
    ti.Quantity = defaultQty ri.Quantity ∧ ti.Product = GetProduct w ti.Price.ProductID

/-- The subscription after the `scheduled_change` switch of
`SubscriptionsHandler.update`, `now` being the clock reading the switch takes
for a cancel or a pause. -/
def scheduledChangeApplied (now : Time) (sc : ScheduledChangeReq) (sub : Subscription) :
    Subscription :=
  if sc.Action = "cancel" then
    { sub with ScheduledChange := some { Action := "cancel", EffectiveAt := effectiveAt now sub } }
  else if sc.Action = "pause" then
    { sub with ScheduledChange := some { Action := "pause", EffectiveAt := effectiveAt now sub } }
  else if sc.Action = "resume" then
    if sub.Status = "paused" then
      { sub with ScheduledChange := none, Status := "active", PausedAt := none }
    else { sub with ScheduledChange := none }
  else sub

/-- Two subscription values agree on the fields that the custom-data, item and
timestamp writes of `SubscriptionsHandler.update` leave alone. -/
def SameLifecycle (s s' : Subscription) : Prop :=
  s'.ID = s.ID ∧ s'.Status = s.Status ∧ s'.ScheduledChange = s.ScheduledChange ∧
    s'.PausedAt = s.PausedAt ∧ s'.CanceledAt = s.CanceledAt ∧
    s'.CurrentBillingPeriod = s.CurrentBillingPeriod ∧ s'.NextBilledAt = s.NextBilledAt ∧
    s'.FirstBilledAt = s.FirstBilledAt ∧ s'.BillingCycle = s.BillingCycle

/-- The sample environment with another iteration order of the maps. -/
def rotatedEnv : Env := { sampleEnv with mapSeed := 1 }

/-- A create request for one unit of the trial price of the sample store. -/
def trialRequest : CreateSubscriptionRequest :=
  { CustomerID := "ctm_a", Items := [⟨"pri_trial", 1⟩], CurrencyCode := "", CollectionMode := "",
    CustomData := none }

/-- The id of the transaction an event carries, if it carries one. -/
def eventTransactionID (e : Event) : Option String :=
  match e.Data with
  | .transaction t => some t.ID
  | _ => none

/-- The status of the subscription that the data of an event shows in the
world `w`, if the event carries a subscription. -/
def eventSubscriptionStatus (w : World) (e : Event) : Option String :=
  match e.Data.view w with
  | .subscription (some sub) => some sub.Status
  | _ => none

/-- The event log of the second world extends the one of the first. -/
def LogExtends (w w' : World) : Prop := ∃ added, w'.store.Events = w.store.Events ++ added

/-- The sum over the items of a transaction of `parseAmount(price amount)` times
the quantity, as an unbounded integer. -/
def lineSum (items : List TransactionItem) : Int :=
  (items.map (fun ti => parseAmount ti.Price.UnitPrice.Amount * ti.Quantity)).sum

/-- The transaction item the transaction builders make of a subscription
item. -/
def lineOf (item : SubscriptionItem) : TransactionItem :=
  { PriceID := item.Price.ID, Quantity := item.Quantity, Price := item.Price,
    Product := item.Product }

/-- A subscription with one item: two units at the largest amount a machine
integer holds. -/
def overflowSub : Subscription :=
  { sampleSub "active" with
    Items := [{ Status := "active", Quantity := 2, Recurring := true, CreatedAt := sampleTime,
                UpdatedAt := sampleTime, PreviouslyBilledAt := none, NextBilledAt := none,
                TrialDates := none,
                Price := { plainPrice with UnitPrice := ⟨"9223372036854775807", "USD"⟩ },
                Product := none }] }

/-- The digit test of the loop of `parseAmount`. -/
def isDigitChar (c : Char) : Bool := decide ('0' ≤ c ∧ c ≤ '9')

/-- A string with every character that is not a decimal digit removed. -/
def digitsOnly (s : String) : String := ⟨s.toList.filter isDigitChar⟩

/-- The number a list of decimal digits denotes in base ten, as an unbounded
natural number. -/
def decimalValue (cs : List Char) : Nat :=
  cs.foldl (fun n c => 10 * n + (c.toNat - 48)) 0

/-- The instant reached from `t` by moving its civil date by whole calendar
years, months and days and keeping the time of day, in exact arithmetic over
the proleptic Gregorian calendar: a month count outside the year carries into
the year, and a day of the month the target month does not have carries into
the following month. -/
def calendarShift (t : Time) (years months days : Int) : Time :=
  let n := t.unixNano / nanosPerDay + unixEpochDays
  let rest := t.unixNano % nanosPerDay
  let (year, month, day) := civil n
  let d := dateDays (year + years) (month - 1 + months) (day + days)
  ⟨(d - unixEpochDays) * nanosPerDay + rest⟩

/-- The reference definition of the period calculator, written from the words
of the specification: `day` advances the instant by `frequency` days, `week`
by `7 × frequency` days, `year` by `frequency` calendar years, and `month` and
every other interval by `frequency` calendar months. Days are exact multiples
of 24 hours, the product `7 × frequency` is the mathematical one, and calendar
months and years are moved in exact arithmetic. -/
def addPeriodRef (t : Time) (interval : String) (frequency : Int) : Time :=
  if interval = "day" then ⟨t.unixNano + frequency * nanosPerDay⟩
  else if interval = "week" then ⟨t.unixNano + 7 * frequency * nanosPerDay⟩
  else if interval = "year" then calendarShift t frequency 0 0
  else calendarShift t 0 frequency 0

/-- The period calculator is exact at a start instant, an interval and a
frequency: the start instant is in the range of the date arithmetic, the
frequency is a Go `int`, and the end the reference definition gives is in that
range too. -/
def PeriodFits (t : Time) (interval : String) (frequency : Int) : Prop :=
  t.InRange ∧ (-2 ^ 63 ≤ frequency ∧ frequency < 2 ^ 63) ∧
    (addPeriodRef t interval frequency).InRange

instance (t : Time) (interval : String) (frequency : Int) :
    Decidable (PeriodFits t interval frequency) :=
  inferInstanceAs (Decidable (_ ∧ _ ∧ _))

/-- The invariant of the specification on one subscription: when the current
billing period is set, it does not end before it starts. -/
def PeriodOrdered (sub : Subscription) : Prop :=
  match sub.CurrentBillingPeriod with
  | some p => p.StartsAt ≤ p.EndsAt
  | none => True

instance (sub : Subscription) : Decidable (PeriodOrdered sub) := by
  unfold PeriodOrdered
  split <;> infer_instance

/-- The billing cycle and the trial period of a price, where it has them, carry
frequencies that are not negative. -/
def PriceOk (price : Price) : Prop :=
  (∀ bc, price.BillingCycle = some bc → 0 ≤ bc.Frequency) ∧
    (∀ tp, price.TrialPeriod = some tp → 0 ≤ tp.Frequency)

/-- The billing cycle of a subscription carries such a frequency, and its
current billing period is ordered. -/
def SubOk (sub : Subscription) : Prop :=
  0 ≤ sub.BillingCycle.Frequency ∧ PeriodOrdered sub

/-- The period end `Create` computes for a requested item at the instant `now`
fits: that of the trial period of its price, or, when the price has none, that
of its billing cycle. -/
def ItemFits (w : World) (now : Time) (item : CreateSubItemReq) : Prop :=
  ∀ price, GetPrice w item.PriceID = some price →
    (∀ tp, price.TrialPeriod = some tp → PeriodFits now tp.Interval tp.Frequency) ∧
      (price.TrialPeriod = none →
        ∀ bc, price.BillingCycle = some bc → PeriodFits now bc.Interval bc.Frequency)

/-- The period ends `AdvanceTime` may compute for a subscription at the instant
`now` fit: one billing cycle from now, and one billing cycle from the end of
the current billing period. -/
def SubFits (now : Time) (sub : Subscription) : Prop :=
  PeriodFits now sub.BillingCycle.Interval sub.BillingCycle.Frequency ∧
    PeriodFits (prevEndOf now sub) sub.BillingCycle.Interval sub.BillingCycle.Frequency

instance (now : Time) (sub : Subscription) : Decidable (SubFits now sub) :=
  inferInstanceAs (Decidable (_ ∧ _))

/-- The state invariant: every price of the catalogue and every stored
subscription is in order. -/
def Invariant (w : World) : Prop :=
  (∀ id price, GetPrice w id = some price → PriceOk price) ∧
    (∀ id sub, storedSub w id = some sub → SubOk sub)

/-- Every billing-cycle and trial-period frequency of the state is a positive
integer. -/
def FrequenciesPositive (w : World) : Prop :=
  (∀ id price, GetPrice w id = some price →
      (∀ bc, price.BillingCycle = some bc → 0 < bc.Frequency) ∧
        (∀ tp, price.TrialPeriod = some tp → 0 < tp.Frequency)) ∧
    (∀ id sub, storedSub w id = some sub → 0 < sub.BillingCycle.Frequency)

/-- The sample store with its subscription trialing and billed by the given
cycle. -/
def cycleWorld (bc : BillingCycle) : World :=
  { sampleWorld "trialing" with heap := [{ sampleSub "trialing" with BillingCycle := bc }] }

/-- The quantities of the items of a subscription, in order. -/
def itemQuantities (sub : Subscription) : List Int := sub.Items.map (fun it => it.Quantity)

/-- The quantities the item loops give to a list of requested items: the
requested quantity, with 0 replaced by 1. -/
def requestedQuantities (items : List CreateSubItemReq) : List Int :=
  items.map (fun item => defaultQty item.Quantity)

/-- A create request for minus three units of the trial price of the sample
store. -/
def negativeRequest : CreateSubscriptionRequest :=
  { CustomerID := "ctm_a", Items := [⟨"pri_trial", -3⟩], CurrencyCode := "", CollectionMode := "",
    CustomData := none }

/-- The payload `Notifier.Fire` hands to the delivery loop when it is called in
the world `w`: `json.Marshal` of the event it has just logged. -/
def firedPayload (env : Env) (w : World) (eventType : String) (data : EventData) :
    Option String :=
  env.marshal (firedEvent env w eventType data).EventID eventType
    (firedEvent env w eventType data).OccurredAt (data.view w)

/-- The world in which `Notifier.Fire`, called in the world `w`, starts its
delivery loop: an id has been drawn, the clock read and the event logged. -/
def firedWorld (env : Env) (w : World) (eventType : String) (data : EventData) : World :=
  AddEvent (timeNow env (NextID w "evt").2).2 (firedEvent env w eventType data)

/-- The requests handed to the HTTP client during one call of `Notifier.Fire`,
in order. -/
def firedPosts (env : Env) (w : World) (eventType : String) (data : EventData) :
    List Delivery :=
  (Notifier.Fire env w eventType data).posts.drop w.posts.length

/-- The URLs of a list of requests, in order. -/
def postedURLs (ds : List Delivery) : List String := ds.map (fun d => d.url)

/-- The destinations of the notification settings with `active = true`, in the
order of the listing. -/
def activeDestinations (env : Env) (w : World) : List String :=
  ((ListNotificationSettings env w).filter (fun ns => ns.Active)).map (fun ns => ns.Destination)

/-- The world with the `subscribed_events` of every notification setting
replaced. -/
def withSubscribedEvents (f : NotificationSetting → List String) (w : World) : World :=
  { w with store := { w.store with
      NotificationSettings :=
        w.store.NotificationSettings.map (fun kv => (kv.1, { kv.2 with SubscribedEvents := f kv.2 })) } }

/-- The value of the `Paddle-Signature` header as the specification words it:
`ts=<unix-seconds>;h1=<hex>`, the hex being the lowercase hex encoding of
HMAC-SHA256, keyed by the secret, of `<ts>:<payload>`. -/
def paddleSignature (secret : String) (ts : Int) (payload : String) : String :=
  "ts=" ++ toString ts ++ ";h1=" ++
    hexEncode (hmacSHA256 (utf8 secret) (utf8 (toString ts ++ ":" ++ payload)))

/-- The sample store with three notification settings: two active ones that
share a destination and differ in their subscribed events, and an inactive
one. -/
def hookWorld : World :=
  { sampleWorld "active" with
    store := { (sampleWorld "active").store with
      NotificationSettings :=
        [("ntfset_a", ⟨"ntfset_a", "http://localhost/hook", true, []⟩),
         ("ntfset_b", ⟨"ntfset_b", "http://localhost/other", false, ["subscription.created"]⟩),
         ("ntfset_c", ⟨"ntfset_c", "http://localhost/hook", true, ["transaction.completed"]⟩)] } }

/-! ## Middleware (`middleware.go`)

Strings are taken as sequences of characters; the prefixes the middleware tests
are ASCII. -/

/-- Go's `strings.HasPrefix`. -/
def HasPrefix (s pre : String) : Bool := pre.toList.isPrefixOf s.toList

/-- Go's `strings.TrimPrefix`: the string without the leading prefix, or the
string itself when it does not start with it. -/
def TrimPrefix (s pre : String) : String :=
  if HasPrefix s pre then ⟨s.toList.drop pre.toList.length⟩ else s

/-- What the middleware reads of a request: the URL path, the value of
`r.Header.Get("Authorization")` (empty when the header is absent) and the
request id held by the context, if any. -/
structure Request where
  Path : String
  Authorization : String
  ContextRequestID : Option String
deriving DecidableEq, Repr, Inhabited

/-- What the handler returned by `Auth` does with a request: it calls the next
handler, or it answers with `http.Error` (a status and a body). -/
inductive AuthOutcome where
  | next
  | httpError (body : String) (status : Nat)
deriving DecidableEq, Repr, Inhabited

/-- The function `middleware.NextRequestID`, on the global `requestCounter` (a
`uint64`). -/
def NextRequestID (requestCounter : Nat) : String × Nat :=
  let n := (requestCounter + 1) % 2 ^ 64
  ("req_" ++ pad8 n, n)

/-- The function `middleware.GetRequestID`. -/
def GetRequestID (requestCounter : Nat) (r : Request) : String × Nat :=
  match r.ContextRequestID with
  | some v => (v, requestCounter)
  | none => NextRequestID requestCounter

/-- The body of the 401 answers of `Auth`. -/
def unauthorizedBody (detail rid : String) : String :=
  "\x7b\"error\":\x7b\"type\":\"authentication_error\",\"code\":\"unauthorized\",\"detail\":\"" ++
    detail ++ "\"\x7d,\"meta\":\x7b\"request_id\":\"" ++ rid ++ "\"\x7d\x7d"

/-- The handler returned by `middleware.Auth(apiKey, noAuth)`, with the state
of the request counter threaded through. -/
def Auth (apiKey : String) (noAuth : Bool) (requestCounter : Nat) (r : Request) :
    AuthOutcome × Nat :=
  if noAuth || !HasPrefix r.Path "/v1/" then (.next, requestCounter)
  else
    let auth := r.Authorization
    if auth = "" then
      let (rid, requestCounter) := GetRequestID requestCounter r
      (.httpError (unauthorizedBody "Missing Authorization header" rid) 401, requestCounter)
    else
      let token := TrimPrefix auth "Bearer "
      if token = auth ∨ token ≠ apiKey then
        let (rid, requestCounter) := GetRequestID requestCounter r
        (.httpError (unauthorizedBody "Invalid API key" rid) 401, requestCounter)
      else (.next, requestCounter)

/-! ## Start-up and reset (`main.go`, `seed.go`, `admin.go`) -/

/-- The function `store.New`: a store with empty maps. -/
def New : Store :=
  { Products := [], Prices := [], Customers := [], Subscriptions := [], Transactions := [],
    Events := [], NotificationSettings := [] }

/-- The method `Store.Reset`: every map is replaced by an empty one (the
objects of the heap and the id counter are not touched). -/
def Reset (w : World) : World := { w with store := New }

/-- The method `Store.SetProduct`. -/
def SetProduct (w : World) (p : Product) : World :=
  { w with store := { w.store with Products := mapSet w.store.Products p.ID p } }

/-- The method `Store.SetPrice`. -/
def SetPrice (w : World) (p : Price) : World :=
  { w with store := { w.store with Prices := mapSet w.store.Prices p.ID p } }

/-- The method `Store.SetCustomer`. -/
def SetCustomer (w : World) (c : Customer) : World :=
  { w with store := { w.store with Customers := mapSet w.store.Customers c.ID c } }

/-- The method `Store.SetNotificationSetting`. -/
def SetNotificationSetting (w : World) (ns : NotificationSetting) : World :=
  { w with store := { w.store with
      NotificationSettings := mapSet w.store.NotificationSettings ns.ID ns } }

/-- The event types the default notification setting subscribes to. -/
def defaultSubscribedEvents : List String :=
  ["subscription.created", "subscription.updated", "subscription.activated",
   "subscription.canceled", "subscription.past_due", "transaction.completed",
   "transaction.payment_failed"]

/-- The function `seed.Load`: one product, one price, two customers and one
trialing subscription whose trial ends 90 days after the clock reading. -/
def Load (env : Env) (w : World) : World :=
  let (now, w) := timeNow env w
  let w := SetProduct w { ID := "prod_yieldly_base", Name := "Yieldly Base Plan", Status := "active" }
  let w := SetPrice w
    { ID := "pri_yieldly_monthly", ProductID := "prod_yieldly_base",
      BillingCycle := some { Interval := "month", Frequency := 1 },
      TrialPeriod := some { Interval := "month", Frequency := 3 },
      UnitPrice := { Amount := "500", CurrencyCode := "USD" }, Status := "active" }
  let w := SetCustomer w { ID := "ctm_test_alice", Email := "alice@test.com", Status := "active" }
  let w := SetCustomer w { ID := "ctm_test_bob", Email := "bob@test.com", Status := "active" }
  let trialEnd : Time := ⟨now.unixNano + 90 * 24 * 3600000000000⟩
  let product := GetProduct w "prod_yieldly_base"
  match GetPrice w "pri_yieldly_monthly" with
  | none => w
  | some price =>
    let sub : Subscription :=
      { ID := "sub_test_alice", Status := "trialing", CustomerID := "ctm_test_alice",
        CurrencyCode := "USD", CreatedAt := now, UpdatedAt := now, StartedAt := some now,
        FirstBilledAt := none, NextBilledAt := some trialEnd, PausedAt := none,
        CanceledAt := none, CollectionMode := "automatic",
        CurrentBillingPeriod := some { StartsAt := now, EndsAt := trialEnd },
        BillingCycle := { Interval := "month", Frequency := 1 }, ScheduledChange := none,
        Items := [{ Status := "trialing", Quantity := 1, Recurring := true, CreatedAt := now,
                    UpdatedAt := now, PreviouslyBilledAt := none, NextBilledAt := some trialEnd,
                    TrialDates := some { StartsAt := now, EndsAt := trialEnd },
                    Price := price, Product := product }],
        CustomData := [] }
    let (a, w) := allocSub w sub
    SetSubscription w a sub

/-- The registration of a default webhook URL, as `main` and
`AdminHandler.reset` both write it. -/
def registerDefaultWebhook (env : Env) (w : World) (url : String) : World :=
  let (_, w) := timeNow env w
  let (id, w) := NextID w "ntfset"
  SetNotificationSetting w
    { ID := id, Destination := url, Active := true, SubscribedEvents := defaultSubscribedEvents }

/-- The command-line flags `main` reads (the port aside). -/
structure Flags where
  noAuth : Bool
  noSeed : Bool
  webhookURL : String
  signingSecret : String
  apiKey : String
deriving DecidableEq, Repr, Inhabited

/-- The fields of the struct `handlers.AdminHandler` that `reset` reads. -/
structure AdminHandler where
  SeedEnabled : Bool
  DefaultWebhookURL : String
deriving DecidableEq, Repr, Inhabited

/-- The start-up of `main`: the state of the process when the server begins to
listen, and the admin handler as `main` builds it. The struct literal of the
handler names the store, the notifier and `SeedEnabled` only, so
`DefaultWebhookURL` keeps the zero value of its type. -/
def serverStart (env : Env) (flags : Flags) : World × AdminHandler :=
  let w : World := { store := New, heap := [], idCounter := 0, clockReads := 0, posts := [] }
  let w := if !flags.noSeed then Load env w else w
  let w := if flags.webhookURL ≠ "" then registerDefaultWebhook env w flags.webhookURL else w
  (w, { SeedEnabled := !flags.noSeed, DefaultWebhookURL := "" })

/-- The method `AdminHandler.reset` (its answer is always status 200 with the
body `status: reset`). -/
def AdminHandler.reset (h : AdminHandler) (env : Env) (w : World) : World :=
  let w := Reset w
  let w := if h.SeedEnabled then Load env w else w
  if h.DefaultWebhookURL ≠ "" then registerDefaultWebhook env w h.DefaultWebhookURL else w

/-- The flags of a server started with a default webhook URL. -/
def hookFlags : Flags :=
  { noAuth := false, noSeed := false, webhookURL := "http://localhost/hook",
    signingSecret := "pdl_test_signing_secret", apiKey := "test_paddle_api_key" }

/-- A subscription with its scheduled change left out of consideration. -/
def forgetScheduledChange (sub : Subscription) : Subscription :=
  { sub with ScheduledChange := none }

/-- The answer of a handler with the scheduled change of the subscription it
carries left out of consideration. -/
def Result.forgetScheduledChange : Result → Result
  | .ok status sub => .ok status (PaddleMock.forgetScheduledChange sub)
  | r => r

/-- The id, the type and the data of an event. -/
def eventKey (e : Event) : String × String × EventData := (e.EventID, e.EventType, e.Data)

/-- Two states agree up to the scheduled changes of their subscription objects
(and the time stamps of their logged events). -/
def AgreeUpToScheduledChange (w w' : World) : Prop :=
  w'.store.Subscriptions = w.store.Subscriptions ∧
    w'.store.Transactions = w.store.Transactions ∧
    w'.store.Events.map eventKey = w.store.Events.map eventKey ∧
    w'.idCounter = w.idCounter ∧
    w'.heap.map forgetScheduledChange = w.heap.map forgetScheduledChange

/-! ## Sequences of operations -/

/-- One request to the lifecycle engine. -/
inductive Op where
  | create (req : CreateSubscriptionRequest)
  | activate (id : String)
  | update (id : String) (req : UpdateSubscriptionRequest)
  | charge (id : String) (req : ChargeRequest)
  | advanceTime (id : String) (failParam : String)
deriving DecidableEq, Repr, Inhabited

/-- Whether the request is a `Create`. -/
def Op.isCreate : Op → Bool
  | .create _ => true
  | _ => false

/-- The state after the handler of a request has run (accepted, rejected or
faulted). -/
def step (env : Env) (w : World) : Op → World
  | .create req => (SubscriptionsHandler.create env w req).1
  | .activate id => (SubscriptionsHandler.activate env w id).1
  | .update id req => (SubscriptionsHandler.update env w id req).1
  | .charge id req => (SubscriptionsHandler.charge env w id req).1
  | .advanceTime id failParam => (AdminHandler.advanceTime env w id failParam).1

/-- The state after a sequence of requests, served in order. -/
def run (env : Env) (w : World) (ops : List Op) : World := ops.foldl (step env) w

/-- What every write of the lifecycle engine to a subscription object keeps:
the id stays, a canceled status stays canceled, the status does not become
paused, and `paused_at` is cleared or left alone. -/
def Evolves (s0 s1 : Subscription) : Prop :=
  s1.ID = s0.ID ∧ (s0.Status = "canceled" → s1.Status = "canceled") ∧
    (s1.Status = "paused" → s0.Status = "paused") ∧
    (s1.PausedAt = none ∨ s1.PausedAt = s0.PausedAt)

/-- A subscription that is not paused and has no `paused_at`. -/
def Unpaused (s : Subscription) : Prop := s.Status ≠ "paused" ∧ s.PausedAt = none

/-- The effect of one request on the subscription objects and on the
subscription map: nothing, or a write to the object of a stored subscription
(with or without the following `SetSubscription`), or the allocation and
registration of a new object. -/
def Effect (w w' : World) : Prop :=
  (w'.heap = w.heap ∧ w'.store.Subscriptions = w.store.Subscriptions) ∨
  (∃ id a s0 x, GetSubscription w id = some a ∧ deref w a = some s0 ∧ Evolves s0 x ∧
      w'.heap = w.heap.set a x ∧
      (w'.store.Subscriptions = w.store.Subscriptions ∨
        w'.store.Subscriptions = mapSet w.store.Subscriptions x.ID a)) ∨
  (∃ x, Unpaused x ∧ w'.heap = w.heap ++ [x] ∧
      w'.store.Subscriptions = mapSet w.store.Subscriptions x.ID w.heap.length)

/-- The effect of a request that is not a `Create`: nothing, or a write to the
object of a stored subscription. -/
def WriteEffect (w w' : World) : Prop :=
  (w'.heap = w.heap ∧ w'.store.Subscriptions = w.store.Subscriptions) ∨
  (∃ id a s0 x, GetSubscription w id = some a ∧ deref w a = some s0 ∧ Evolves s0 x ∧
      w'.heap = w.heap.set a x ∧
      (w'.store.Subscriptions = w.store.Subscriptions ∨
        w'.store.Subscriptions = mapSet w.store.Subscriptions x.ID a))

/-- The subscription map is keyed by the ids of the objects it points to. -/
def WellKeyed (w : World) : Prop :=
  ∀ id a s, GetSubscription w id = some a → deref w a = some s → s.ID = id

/-- The state after the seeded start-up of the server. -/
def seededWorld : World := (serverStart sampleEnv hookFlags).1

/-! # Theorems -/

/-! ## Maps -/

theorem mapGet_mapSet_same {V : Type} (m : List (String × V)) (k : String) (v : V) :
    mapGet (mapSet m k v) k = some v := by
  induction m with
  | nil => simp [mapSet, mapGet]
  | cons hd tl ih =>
    obtain ⟨k', v'⟩ := hd
    by_cases h : k' = k
    · simp [mapSet, mapGet, h]
    · simp [mapSet, mapGet, h, ih]

theorem mapGet_mapSet_keep {V : Type} (m : List (String × V)) (k id : String) (v : V)
    (h : mapGet m id = some v) : mapGet (mapSet m k v) id = some v := by
  by_cases hk : k = id
  · subst hk; exact mapGet_mapSet_same m k v
  · induction m with
    | nil => simp [mapGet] at h
    | cons hd tl ih =>
      obtain ⟨k', v'⟩ := hd
      by_cases h1 : k' = k
      · subst h1
        simp [mapGet, hk] at h
        simp [mapSet, mapGet, hk, h]
      · by_cases h2 : k' = id
        · subst h2
          simp [mapGet] at h
          simp [mapSet, mapGet, h1, h]
        · simp [mapGet, h2] at h
          simp [mapSet, mapGet, h1, h2, ih h]

theorem mapSet_fresh {V : Type} (m : List (String × V)) (k : String) (v : V)
    (h : mapGet m k = none) : mapSet m k v = m ++ [(k, v)] := by
  induction m with
  | nil => rfl
  | cons hd tl ih =>
    obtain ⟨k', v'⟩ := hd
    by_cases h1 : k' = k
    · simp [mapGet, h1] at h
    · simp [mapGet, h1] at h
      simp [mapSet, h1, ih h]

/-! ## Heap -/

theorem deref_writeSub (w : World) (a : Nat) (old sub : Subscription)
    (h : deref w a = some old) : deref (writeSub w a sub) a = some sub := by
  unfold deref at h
  have hlt : a < w.heap.length := by
    rcases Nat.lt_or_ge a w.heap.length with h1 | h1
    · exact h1
    · rw [List.get?_eq_none.mpr h1] at h; cases h
  simp [deref, writeSub, List.get?_eq_getElem?, hlt]

/-! ## Frame of the webhook dispatcher -/

theorem send_store (env : Env) (w : World) (u p : String) :
    (Notifier.send env w u p).store = w.store := by
  unfold Notifier.send timeNow
  dsimp only
  split <;> rfl

theorem send_heap (env : Env) (w : World) (u p : String) :
    (Notifier.send env w u p).heap = w.heap := by
  unfold Notifier.send timeNow
  dsimp only
  split <;> rfl

theorem send_idCounter (env : Env) (w : World) (u p : String) :
    (Notifier.send env w u p).idCounter = w.idCounter := by
  unfold Notifier.send timeNow
  dsimp only
  split <;> rfl

theorem deliver_store (env : Env) (p : String) (l : List NotificationSetting) (w : World) :
    (deliver env p w l).store = w.store := by
  induction l generalizing w with
  | nil => rfl
  | cons ns tl ih =>
    simp only [deliver, List.foldl_cons] at ih ⊢
    rw [ih]
    split
    · exact send_store env w _ _
    · rfl

theorem deliver_heap (env : Env) (p : String) (l : List NotificationSetting) (w : World) :
    (deliver env p w l).heap = w.heap := by
  induction l generalizing w with
  | nil => rfl
  | cons ns tl ih =>
    simp only [deliver, List.foldl_cons] at ih ⊢
    rw [ih]
    split
    · exact send_heap env w _ _
    · rfl

theorem deliver_idCounter (env : Env) (p : String) (l : List NotificationSetting) (w : World) :
    (deliver env p w l).idCounter = w.idCounter := by
  induction l generalizing w with
  | nil => rfl
  | cons ns tl ih =>
    simp only [deliver, List.foldl_cons] at ih ⊢
    rw [ih]
    split
    · exact send_idCounter env w _ _
    · rfl

theorem Fire_store (env : Env) (w : World) (ty : String) (d : EventData) :
    (Notifier.Fire env w ty d).store =
      { w.store with Events := w.store.Events ++ [firedEvent env w ty d] } := by
  unfold Notifier.Fire
  simp only [NextID, timeNow, AddEvent, firedEvent]
  split
  · rfl
  · rw [deliver_store]

theorem Fire_heap (env : Env) (w : World) (ty : String) (d : EventData) :
    (Notifier.Fire env w ty d).heap = w.heap := by
  unfold Notifier.Fire
  simp only [NextID, timeNow, AddEvent]
  split
  · rfl
  · rw [deliver_heap]

theorem Fire_idCounter (env : Env) (w : World) (ty : String) (d : EventData) :
    (Notifier.Fire env w ty d).idCounter = (w.idCounter + 1) % 2 ^ 64 := by
  unfold Notifier.Fire
  simp only [NextID, timeNow, AddEvent]
  split
  · rfl
  · rw [deliver_idCounter]

/-! ## Frame of the transaction factory -/

theorem createTransaction_eq (env : Env) (w : World) (sub : Subscription) (origin : String) :
    AdminHandler.createTransaction env w sub origin =
      SubscriptionsHandler.createTransaction env w sub origin := rfl

theorem createTransaction_store (env : Env) (w : World) (sub : Subscription) (origin : String) :
    (SubscriptionsHandler.createTransaction env w sub origin).store =
      { w.store with
        Transactions := mapSet w.store.Transactions (builtTransaction env w sub origin).ID
          (builtTransaction env w sub origin) } := rfl

theorem createTransaction_heap (env : Env) (w : World) (sub : Subscription) (origin : String) :
    (SubscriptionsHandler.createTransaction env w sub origin).heap = w.heap := rfl

theorem createTransaction_idCounter (env : Env) (w : World) (sub : Subscription)
    (origin : String) :
    (SubscriptionsHandler.createTransaction env w sub origin).idCounter =
      (w.idCounter + 1) % 2 ^ 64 := rfl

theorem createTransaction_clockReads (env : Env) (w : World) (sub : Subscription)
    (origin : String) :
    (SubscriptionsHandler.createTransaction env w sub origin).clockReads = w.clockReads + 1 := rfl

theorem storedSub_congr (w w' : World) (id : String) (hh : w'.heap = w.heap)
    (hs : w'.store.Subscriptions = w.store.Subscriptions) : storedSub w' id = storedSub w id := by
  simp only [storedSub, GetSubscription, deref, hh, hs]

theorem storedSub_split (w : World) (id : String) (sub : Subscription)
    (h : storedSub w id = some sub) :
    ∃ a, GetSubscription w id = some a ∧ deref w a = some sub := by
  unfold storedSub at h
  cases hg : GetSubscription w id with
  | none => rw [hg] at h; cases h
  | some a => rw [hg] at h; exact ⟨a, rfl, h⟩

theorem mapSet_ne_nil {V : Type} (m : List (String × V)) (k : String) (v : V) :
    mapSet m k v ≠ [] := by
  cases m with
  | nil => simp [mapSet]
  | cons hd tl =>
    obtain ⟨k', v'⟩ := hd
    simp only [mapSet]
    split <;> simp

theorem mapValues_getLast (V : Type) (m : List (String × V)) (seed : Nat) (h : m ≠ []) :
    ∃ v, (mapValues m seed).getLast? = some v ∧ ∃ k, (k, v) ∈ m := by
  have hne : mapValues m seed ≠ [] := by
    unfold mapValues
    intro hc
    rw [List.rotate_eq_nil_iff] at hc
    simp at hc
    exact h hc
  obtain ⟨v, hv⟩ : ∃ v, (mapValues m seed).getLast? = some v := by
    cases hl : (mapValues m seed).getLast? with
    | none => rw [List.getLast?_eq_none_iff] at hl; exact absurd hl hne
    | some v => exact ⟨v, rfl⟩
  refine ⟨v, hv, ?_⟩
  have hmem : v ∈ mapValues m seed := List.mem_of_getLast?_eq_some hv
  unfold mapValues at hmem
  rw [List.mem_rotate] at hmem
  simp at hmem
  obtain ⟨k, hk⟩ := hmem
  exact ⟨k, hk⟩

theorem fireLast_of_nonempty (env : Env) (w : World) (sub : Subscription)
    (h : w.store.Transactions ≠ []) :
    ∃ txn, (∃ k, (k, txn) ∈ w.store.Transactions) ∧
      fireLastTransaction env w sub =
        (Notifier.Fire env w "transaction.completed" (.transaction txn), .ok 200 sub) := by
  obtain ⟨v, hv, hk⟩ := mapValues_getLast Transaction w.store.Transactions env.mapSeed h
  refine ⟨v, hk, ?_⟩
  unfold fireLastTransaction ListTransactions
  rw [hv]

theorem storedSub_committed (env : Env) (w : World) (id : String) (a : Nat)
    (old sub : Subscription)
    (hget : GetSubscription w id = some a) (hsub : deref w a = some old) :
    storedSub (committed env w a sub) id = some sub := by
  have h1 : GetSubscription (committed env w a sub) id = some a := by
    unfold GetSubscription committed SetSubscription writeSub timeNow
    exact mapGet_mapSet_keep _ _ _ _ hget
  have h2 : deref (committed env w a sub) a = some sub :=
    deref_writeSub (timeNow env w).2 a old sub hsub
  simp only [storedSub, h1, h2]

/-! ## The branches of `AdminHandler.advanceTime` -/

theorem advanceTime_trialing_run (env : Env) (w : World) (subID failParam : String) (a : Nat)
    (sub : Subscription) (hget : GetSubscription w subID = some a) (hsub : deref w a = some sub)
    (hst : sub.Status = "trialing") :
    AdminHandler.advanceTime env w subID failParam =
      fireLastTransaction env
        (Notifier.Fire env
          (AdminHandler.createTransaction env
            (committed env w a (trialEnded (env.clock w.clockReads) sub))
            (trialEnded (env.clock w.clockReads) sub) "subscription_recurring")
          "subscription.activated" (.subscription a))
        (trialEnded (env.clock w.clockReads) sub) := by
  simp only [AdminHandler.advanceTime, hget, hsub, hst, if_true]
  rfl

theorem advanceTime_failed_run (env : Env) (w : World) (subID failParam : String) (a : Nat)
    (sub : Subscription) (hget : GetSubscription w subID = some a) (hsub : deref w a = some sub)
    (hst : sub.Status = "active") (hf : failParam = "true") :
    AdminHandler.advanceTime env w subID failParam =
      (Notifier.Fire env
        (Notifier.Fire env
          (AdminHandler.createFailedTransaction env
            (committed env w a (paymentFailed (env.clock w.clockReads) sub))
            (paymentFailed (env.clock w.clockReads) sub)).2
          "subscription.past_due" (.subscription a))
        "transaction.payment_failed"
        (.transaction (AdminHandler.createFailedTransaction env
            (committed env w a (paymentFailed (env.clock w.clockReads) sub))
            (paymentFailed (env.clock w.clockReads) sub)).1),
       .ok 200 (paymentFailed (env.clock w.clockReads) sub)) := by
  simp [AdminHandler.advanceTime, hget, hsub, hst, hf]
  constructor <;> rfl

theorem advanceTime_renew_run (env : Env) (w : World) (subID failParam : String) (a : Nat)
    (sub : Subscription) (hget : GetSubscription w subID = some a) (hsub : deref w a = some sub)
    (hst : sub.Status = "active") (hf : failParam ≠ "true") :
    AdminHandler.advanceTime env w subID failParam =
      fireLastTransaction env
        (Notifier.Fire env
          (AdminHandler.createTransaction env
            (committed env w a (renewed (env.clock w.clockReads) sub))
            (renewed (env.clock w.clockReads) sub) "subscription_recurring")
          "subscription.updated" (.subscription a))
        (renewed (env.clock w.clockReads) sub) := by
  have hn : ¬ sub.Status = "trialing" := by rw [hst]; decide
  simp only [AdminHandler.advanceTime, hget, hsub]
  rw [if_neg hn, if_pos hst, if_neg hf]
  rfl

theorem advanceTime_pastDue_run (env : Env) (w : World) (subID failParam : String) (a : Nat)
    (sub : Subscription) (hget : GetSubscription w subID = some a) (hsub : deref w a = some sub)
    (hst : sub.Status = "past_due") :
    AdminHandler.advanceTime env w subID failParam =
      (Notifier.Fire env (committed env w a (canceledAfterPastDue (env.clock w.clockReads) sub))
          "subscription.canceled" (.subscription a),
       .ok 200 (canceledAfterPastDue (env.clock w.clockReads) sub)) := by
  simp [AdminHandler.advanceTime, hget, hsub, hst]
  constructor <;> rfl

theorem advanceTime_paused_run (env : Env) (w : World) (subID failParam : String) (a : Nat)
    (sub : Subscription) (hget : GetSubscription w subID = some a) (hsub : deref w a = some sub)
    (hst : sub.Status = "paused") :
    AdminHandler.advanceTime env w subID failParam =
      (Notifier.Fire env (committed env w a (resumed (env.clock w.clockReads) sub))
          "subscription.updated" (.subscription a),
       .ok 200 (resumed (env.clock w.clockReads) sub)) := by
  simp [AdminHandler.advanceTime, hget, hsub, hst]
  constructor <;> rfl

theorem advanceTime_other_run (env : Env) (w : World) (subID failParam : String) (a : Nat)
    (sub : Subscription) (hget : GetSubscription w subID = some a) (hsub : deref w a = some sub)
    (h1 : sub.Status ≠ "trialing") (h2 : sub.Status ≠ "active") (h3 : sub.Status ≠ "past_due")
    (h4 : sub.Status ≠ "paused") :
    AdminHandler.advanceTime env w subID failParam =
      ((timeNow env w).2, .error 409 "request_error" "conflict"
          ("Cannot advance subscription in status: " ++ sub.Status)) := by
  simp [AdminHandler.advanceTime, hget, hsub, h1, h2, h3, h4]

theorem storedSub_Fire (env : Env) (w : World) (ty : String) (d : EventData) (id : String) :
    storedSub (Notifier.Fire env w ty d) id = storedSub w id :=
  storedSub_congr _ _ _ (Fire_heap env w ty d) (by rw [Fire_store])

theorem storedSub_createTransaction (env : Env) (w : World) (sub : Subscription)
    (origin id : String) :
    storedSub (AdminHandler.createTransaction env w sub origin) id = storedSub w id :=
  storedSub_congr _ _ _ rfl rfl

theorem storedSub_createFailedTransaction (env : Env) (w : World) (sub : Subscription)
    (id : String) :
    storedSub (AdminHandler.createFailedTransaction env w sub).2 id = storedSub w id :=
  storedSub_congr _ _ _ rfl rfl

theorem storedSub_fireLast (env : Env) (w : World) (sub : Subscription) (id : String) :
    storedSub (fireLastTransaction env w sub).1 id = storedSub w id := by
  unfold fireLastTransaction
  split
  · rfl
  · exact storedSub_Fire env w _ _ id

theorem createTransaction_nonempty (env : Env) (w : World) (sub : Subscription)
    (origin : String) :
    (AdminHandler.createTransaction env w sub origin).store.Transactions ≠ [] :=
  mapSet_ne_nil _ _ _

theorem fireLast_result (env : Env) (w : World) (sub : Subscription)
    (h : w.store.Transactions ≠ []) : (fireLastTransaction env w sub).2 = .ok 200 sub := by
  obtain ⟨txn, _, he⟩ := fireLast_of_nonempty env w sub h
  rw [he]

/-- C1: the status after `AdvanceTime` is a function of the current status and
of the `fail` parameter alone: trialing becomes active; active becomes past_due
when the parameter is the string true and stays active for any other value;
past_due becomes canceled; paused becomes active; every other status is
answered with the conflict error. -/
theorem advanceTime_status_table (env : Env) (w : World) (subID failParam : String)
    (sub : Subscription) (h : storedSub w subID = some sub) :
    (sub.Status = "trialing" →
      ((storedSub (AdminHandler.advanceTime env w subID failParam).1 subID).map
          (fun s => s.Status) = some "active" ∧
        ∃ s, (AdminHandler.advanceTime env w subID failParam).2 = .ok 200 s ∧
          s.Status = "active")) ∧
    (sub.Status = "active" → failParam = "true" →
      ((storedSub (AdminHandler.advanceTime env w subID failParam).1 subID).map
          (fun s => s.Status) = some "past_due" ∧
        ∃ s, (AdminHandler.advanceTime env w subID failParam).2 = .ok 200 s ∧
          s.Status = "past_due")) ∧
    (sub.Status = "active" → failParam ≠ "true" →
      ((storedSub (AdminHandler.advanceTime env w subID failParam).1 subID).map
          (fun s => s.Status) = some "active" ∧
        ∃ s, (AdminHandler.advanceTime env w subID failParam).2 = .ok 200 s ∧
          s.Status = "active")) ∧
    (sub.Status = "past_due" →
      ((storedSub (AdminHandler.advanceTime env w subID failParam).1 subID).map
          (fun s => s.Status) = some "canceled" ∧
        ∃ s, (AdminHandler.advanceTime env w subID failParam).2 = .ok 200 s ∧
          s.Status = "canceled")) ∧
    (sub.Status = "paused" →
      ((storedSub (AdminHandler.advanceTime env w subID failParam).1 subID).map
          (fun s => s.Status) = some "active" ∧
        ∃ s, (AdminHandler.advanceTime env w subID failParam).2 = .ok 200 s ∧
          s.Status = "active")) ∧
    (sub.Status ≠ "trialing" → sub.Status ≠ "active" → sub.Status ≠ "past_due" →
      sub.Status ≠ "paused" →
      ((AdminHandler.advanceTime env w subID failParam).2 =
          .error 409 "request_error" "conflict"
            ("Cannot advance subscription in status: " ++ sub.Status) ∧
        storedSub (AdminHandler.advanceTime env w subID failParam).1 subID = some sub)) := by
  obtain ⟨a, hget, hsub⟩ := storedSub_split w subID sub h
  refine ⟨?_, ?_, ?_, ?_, ?_, ?_⟩
  · intro hst
    rw [advanceTime_trialing_run env w subID failParam a sub hget hsub hst]
    rw [storedSub_fireLast, storedSub_Fire, storedSub_createTransaction,
      storedSub_committed env w subID a sub _ hget hsub]
    refine ⟨rfl, _, fireLast_result env _ _ ?_, rfl⟩
    rw [Fire_store]
    exact createTransaction_nonempty _ _ _ _
  · intro hst hf
    rw [advanceTime_failed_run env w subID failParam a sub hget hsub hst hf]
    refine ⟨?_, _, rfl, rfl⟩
    show Option.map _ (storedSub (Notifier.Fire _ _ _ _) _) = _
    rw [storedSub_Fire, storedSub_Fire, storedSub_createFailedTransaction,
      storedSub_committed env w subID a sub _ hget hsub]
    rfl
  · intro hst hf
    rw [advanceTime_renew_run env w subID failParam a sub hget hsub hst hf]
    rw [storedSub_fireLast, storedSub_Fire, storedSub_createTransaction,
      storedSub_committed env w subID a sub _ hget hsub]
    refine ⟨?_, _, fireLast_result env _ _ ?_, ?_⟩
    · simp only [Option.map, renewed, hst]
    · rw [Fire_store]
      exact createTransaction_nonempty _ _ _ _
    · simp only [renewed, hst]
  · intro hst
    rw [advanceTime_pastDue_run env w subID failParam a sub hget hsub hst]
    refine ⟨?_, _, rfl, rfl⟩
    show Option.map _ (storedSub (Notifier.Fire _ _ _ _) _) = _
    rw [storedSub_Fire, storedSub_committed env w subID a sub _ hget hsub]
    rfl
  · intro hst
    rw [advanceTime_paused_run env w subID failParam a sub hget hsub hst]
    refine ⟨?_, _, rfl, rfl⟩
    show Option.map _ (storedSub (Notifier.Fire _ _ _ _) _) = _
    rw [storedSub_Fire, storedSub_committed env w subID a sub _ hget hsub]
    rfl
  · intro h1 h2 h3 h4
    rw [advanceTime_other_run env w subID failParam a sub hget hsub h1 h2 h3 h4]
    refine ⟨rfl, ?_⟩
    show storedSub (timeNow env w).2 subID = some sub
    exact (storedSub_congr (timeNow env w).2 w subID rfl rfl).trans h

/-- A witness of C1: the trialing subscription of the sample store becomes
active. -/
theorem advanceTime_status_table_witness :
    (storedSub (AdminHandler.advanceTime sampleEnv (sampleWorld "trialing") "sub_a" "").1
        "sub_a").map (fun s => s.Status) = some "active" :=
  ((advanceTime_status_table sampleEnv (sampleWorld "trialing") "sub_a" ""
      (sampleSub "trialing") rfl).1 rfl).1

/-! ## Conflict guard -/

/-- C2: `Activate` on a subscription that is not trialing, and `AdvanceTime` on
a canceled one, answer with the conflict error and leave the store (the
subscription map, the transactions, the event log), the stored subscription
object and the sent webhooks as they were. -/
theorem conflict_guard (env : Env) (w : World) (id failParam : String) (sub : Subscription)
    (h : storedSub w id = some sub) :
    (sub.Status ≠ "trialing" →
      SubscriptionsHandler.activate env w id =
        (w, .error 409 "request_error" "conflict" "Subscription is not trialing")) ∧
    (sub.Status = "canceled" →
      (AdminHandler.advanceTime env w id failParam).2 =
          .error 409 "request_error" "conflict" "Cannot advance subscription in status: canceled" ∧
        (AdminHandler.advanceTime env w id failParam).1.store = w.store ∧
        (AdminHandler.advanceTime env w id failParam).1.heap = w.heap ∧
        (AdminHandler.advanceTime env w id failParam).1.posts = w.posts ∧
        storedSub (AdminHandler.advanceTime env w id failParam).1 id = some sub) := by
  obtain ⟨a, hget, hsub⟩ := storedSub_split w id sub h
  constructor
  · intro hst
    simp only [SubscriptionsHandler.activate, hget, hsub]
    rw [if_pos hst]
  · intro hst
    have h1 : sub.Status ≠ "trialing" := by rw [hst]; decide
    have h2 : sub.Status ≠ "active" := by rw [hst]; decide
    have h3 : sub.Status ≠ "past_due" := by rw [hst]; decide
    have h4 : sub.Status ≠ "paused" := by rw [hst]; decide
    rw [advanceTime_other_run env w id failParam a sub hget hsub h1 h2 h3 h4, hst]
    exact ⟨rfl, rfl, rfl, rfl, (storedSub_congr (timeNow env w).2 w id rfl rfl).trans h⟩

/-- A witness of C2: a canceled subscription in the sample store. -/
theorem conflict_guard_witness :
    SubscriptionsHandler.activate sampleEnv (sampleWorld "canceled") "sub_a" =
        (sampleWorld "canceled",
          .error 409 "request_error" "conflict" "Subscription is not trialing") ∧
      (AdminHandler.advanceTime sampleEnv (sampleWorld "canceled") "sub_a" "").1.store =
        (sampleWorld "canceled").store :=
  ⟨(conflict_guard sampleEnv (sampleWorld "canceled") "sub_a" "" (sampleSub "canceled") rfl).1
      (by decide),
   ((conflict_guard sampleEnv (sampleWorld "canceled") "sub_a" "" (sampleSub "canceled") rfl).2
      rfl).2.1⟩

/-! ## Rejected requests -/

theorem create_rejected_frame (env : Env) (w : World) (req : CreateSubscriptionRequest)
    (h : ∀ sub, (SubscriptionsHandler.create env w req).2 ≠ .ok 201 sub) :
    (SubscriptionsHandler.create env w req).1.store = w.store ∧
      (SubscriptionsHandler.create env w req).1.heap = w.heap ∧
      (SubscriptionsHandler.create env w req).1.posts = w.posts := by
  unfold SubscriptionsHandler.create at h ⊢
  by_cases hc : req.CustomerID = "" ∨ req.Items.length = 0
  · rw [if_pos hc]
    exact ⟨rfl, rfl, rfl⟩
  · rw [if_neg hc] at h ⊢
    cases hg : GetCustomer w req.CustomerID with
    | none => exact ⟨rfl, rfl, rfl⟩
    | some c =>
      simp only [hg] at h ⊢
      split
      · exact ⟨rfl, rfl, rfl⟩
      · rename_i sub hs
        simp only [hs] at h
        exact absurd rfl (h sub)

theorem createItem_ok_of_cycle_or_trial (w : World) (now : Time) (sub : Subscription)
    (item : CreateSubItemReq) (p : Price) (hp : GetPrice w item.PriceID = some p)
    (h : p.TrialPeriod ≠ none ∨ p.BillingCycle ≠ none) :
    ∃ sub', createItem w now sub item = .ok sub' := by
  unfold createItem
  simp only [hp]
  cases ht : p.TrialPeriod with
  | some tp => exact ⟨_, rfl⟩
  | none =>
    cases hb : p.BillingCycle with
    | some bc => exact ⟨_, rfl⟩
    | none =>
      rw [ht, hb] at h
      rcases h with h | h <;> exact absurd rfl h

theorem createItems_unresolved (w : World) (now : Time) (pre : List CreateSubItemReq) :
    ∀ (sub : Subscription) (item : CreateSubItemReq) (post : List CreateSubItemReq),
      GetPrice w item.PriceID = none →
      (∀ it ∈ pre, ∃ p, GetPrice w it.PriceID = some p ∧
        (p.TrialPeriod ≠ none ∨ p.BillingCycle ≠ none)) →
      createItems w now sub (pre ++ item :: post) = .error (priceNotFound item.PriceID) := by
  induction pre with
  | nil =>
    intro sub item post hnone _
    simp only [List.nil_append, createItems, createItem, hnone]
  | cons it rest ih =>
    intro sub item post hnone hpre
    obtain ⟨p, hp, hcase⟩ := hpre it (List.mem_cons_self _ _)
    obtain ⟨sub1, h1⟩ := createItem_ok_of_cycle_or_trial w now sub it p hp hcase
    simp only [List.cons_append, createItems, h1]
    exact ih sub1 item post hnone (fun x hx => hpre x (List.mem_cons_of_mem _ hx))

theorem create_error_run (env : Env) (w : World) (req : CreateSubscriptionRequest)
    (c : Customer) (r : Result)
    (hne : ¬ (req.CustomerID = "" ∨ req.Items.length = 0))
    (hcust : GetCustomer w req.CustomerID = some c)
    (hitems : createItems (createStart env w) (env.clock w.clockReads)
      (initialSubscription env w req) req.Items = .error r) :
    SubscriptionsHandler.create env w req = (createStart env w, r) := by
  unfold SubscriptionsHandler.create
  rw [if_neg hne]
  simp only [hcust]
  have h : createItems (NextID (timeNow env w).2 "sub").2 (timeNow env w).1
      { ID := (NextID (timeNow env w).2 "sub").1, Status := "trialing",
        CustomerID := req.CustomerID,
        CurrencyCode := if req.CurrencyCode = "" then "USD" else req.CurrencyCode,
        CreatedAt := (timeNow env w).1, UpdatedAt := (timeNow env w).1,
        StartedAt := some (timeNow env w).1, FirstBilledAt := none,
        NextBilledAt := none, PausedAt := none, CanceledAt := none,
        CollectionMode := if req.CollectionMode = "" then "automatic" else req.CollectionMode,
        CurrentBillingPeriod := none,
        BillingCycle := { Interval := "", Frequency := 0 }, ScheduledChange := none,
        Items := [], CustomData := req.CustomData.getD [] } req.Items = .error r := hitems
  rw [h]
  rfl

/-- The part of C3 that the code does satisfy: an empty customer id, an empty
item list, an unknown customer, and an unresolved price id behind items that
all declare a trial period or a billing cycle, are answered with the validation
error, and nothing is added to the store. -/
theorem create_rejects_invalid (env : Env) (w : World) (req : CreateSubscriptionRequest) :
    (req.CustomerID = "" ∨ req.Items = [] ∨ GetCustomer w req.CustomerID = none ∨
      (∃ pre item post, req.Items = pre ++ item :: post ∧ GetPrice w item.PriceID = none ∧
        ∀ it ∈ pre, ∃ p, GetPrice w it.PriceID = some p ∧
          (p.TrialPeriod ≠ none ∨ p.BillingCycle ≠ none))) →
    (∃ detail, (SubscriptionsHandler.create env w req).2 =
        .error 400 "request_error" "validation_error" detail) ∧
      (SubscriptionsHandler.create env w req).1.store = w.store ∧
      (SubscriptionsHandler.create env w req).1.heap = w.heap := by
  intro h
  have hres : ∃ detail, (SubscriptionsHandler.create env w req).2 =
      .error 400 "request_error" "validation_error" detail := by
    by_cases hc : req.CustomerID = "" ∨ req.Items.length = 0
    · unfold SubscriptionsHandler.create
      rw [if_pos hc]
      exact ⟨_, rfl⟩
    · cases hg : GetCustomer w req.CustomerID with
      | none =>
        unfold SubscriptionsHandler.create
        rw [if_neg hc]
        simp only [hg]
        exact ⟨_, rfl⟩
      | some c =>
        rcases h with h | h | h | ⟨pre, item, post, hitems, hnone, hpre⟩
        · exact absurd (Or.inl h) hc
        · exact absurd (Or.inr (by rw [h]; rfl)) hc
        · rw [hg] at h
          cases h
        · have hi : createItems (createStart env w) (env.clock w.clockReads)
              (initialSubscription env w req) req.Items =
              .error (priceNotFound item.PriceID) := by
            rw [hitems]
            exact createItems_unresolved (createStart env w) _ pre _ item post hnone hpre
          rw [create_error_run env w req c _ hc hg hi]
          exact ⟨_, rfl⟩
  obtain ⟨detail, hd⟩ := hres
  have hframe := create_rejected_frame env w req (fun sub hs => by rw [hd] at hs; cases hs)
  exact ⟨⟨detail, hd⟩, hframe.1, hframe.2.1⟩

/-- C3 (the code departs from the claim): a request for a known customer whose
second item names an unresolved price id, behind a first item whose price
declares neither a trial period nor a billing cycle, is not answered with the
validation error: the handler faults on the nil billing cycle of the first
price before it reaches the unresolved one. The store is left unchanged. -/
theorem create_unresolved_price_behind_one_time_price :
    GetPrice (sampleWorld "active") "pri_missing" = none ∧
      (SubscriptionsHandler.create sampleEnv (sampleWorld "active")
          ⟨"ctm_a", [⟨"pri_once", 1⟩, ⟨"pri_missing", 1⟩], "", "", none⟩).2 =
        .fault "nil pointer dereference: price.BillingCycle" ∧
      (SubscriptionsHandler.create sampleEnv (sampleWorld "active")
          ⟨"ctm_a", [⟨"pri_once", 1⟩, ⟨"pri_missing", 1⟩], "", "", none⟩).1.store =
        (sampleWorld "active").store := by
  decide

theorem modifySub_store (w : World) (a : Nat) (f : Subscription → Subscription) :
    (modifySub w a f).store = w.store := by
  unfold modifySub
  split <;> rfl

theorem applyScheduledChange_store (env : Env) (w : World) (a : Nat) (sc : ScheduledChangeReq) :
    (applyScheduledChange env w a sc).store = w.store := by
  unfold applyScheduledChange
  split
  · exact modifySub_store _ _ _
  · split
    · exact modifySub_store _ _ _
    · split
      · exact modifySub_store _ _ _
      · rfl

/-- The part of C4 that the code does satisfy: an update that is not answered
with the updated subscription leaves the store's maps and the event log as they
were (the writes through the stored pointer are in the heap). -/
theorem update_rejected_store (env : Env) (w : World) (id : String)
    (req : UpdateSubscriptionRequest)
    (h : ∀ sub, (SubscriptionsHandler.update env w id req).2 ≠ .ok 200 sub) :
    (SubscriptionsHandler.update env w id req).1.store = w.store := by
  have hfin : ∀ w1 : World, w1.store = w.store → ∀ a,
      (∀ sub, (finishUpdate env w1 a).2 ≠ .ok 200 sub) →
      (finishUpdate env w1 a).1.store = w.store := by
    intro w1 hw1 a hno
    unfold finishUpdate at hno ⊢
    dsimp only at hno ⊢
    split
    · rw [modifySub_store]
      exact hw1
    · rename_i sub hs
      simp only [hs] at hno
      exact absurd rfl (hno sub)
  unfold SubscriptionsHandler.update at h ⊢
  cases hg : GetSubscription w id with
  | none => rfl
  | some a =>
    simp only [hg] at h ⊢
    cases hd : deref w a with
    | none => rfl
    | some sub0 =>
      simp only [hd] at h ⊢
      have hw2 : (match req.CustomData with
          | some cd => modifySub (match req.ScheduledChange with
              | some sc => applyScheduledChange env w a sc
              | none => w) a (fun sub => { sub with CustomData := cd })
          | none => (match req.ScheduledChange with
              | some sc => applyScheduledChange env w a sc
              | none => w)).store = w.store := by
        have h1 : (match req.ScheduledChange with
            | some sc => applyScheduledChange env w a sc
            | none => w).store = w.store := by
          split
          · exact applyScheduledChange_store _ _ _ _
          · rfl
        split
        · rw [modifySub_store]
          exact h1
        · exact h1
      split
      · rename_i hlen
        rw [if_pos hlen] at h
        split
        · exact hw2
        · rename_i newItems hitems
          simp only [hitems] at h
          exact hfin _ (by rw [modifySub_store]; exact hw2) a h
      · rename_i hlen
        rw [if_neg hlen] at h
        exact hfin _ hw2 a h

/-- C4 (the code departs from the claim): an update that is rejected for an
unresolved price id has already written its scheduled change and custom data
through the stored pointer. On a paused subscription, a rejected request
carrying `resume` leaves the stored subscription active with `paused_at`
cleared and the custom data replaced; a rejected request carrying `cancel`
leaves a scheduled change behind. No event is logged in either case. -/
theorem update_rejected_keeps_earlier_writes :
    (storedSub (sampleWorld "paused") "sub_a").map
        (fun s => (s.Status, s.PausedAt, s.ScheduledChange, s.CustomData)) =
      some ("paused", some sampleTime, none, [("plan", "old")]) ∧
    (SubscriptionsHandler.update sampleEnv (sampleWorld "paused") "sub_a"
        ⟨some ⟨"resume"⟩, [⟨"pri_missing", 1⟩], some [("plan", "new")]⟩).2 =
      priceNotFound "pri_missing" ∧
    (storedSub (SubscriptionsHandler.update sampleEnv (sampleWorld "paused") "sub_a"
        ⟨some ⟨"resume"⟩, [⟨"pri_missing", 1⟩], some [("plan", "new")]⟩).1 "sub_a").map
        (fun s => (s.Status, s.PausedAt, s.ScheduledChange, s.CustomData)) =
      some ("active", none, none, [("plan", "new")]) ∧
    (SubscriptionsHandler.update sampleEnv (sampleWorld "paused") "sub_a"
        ⟨some ⟨"resume"⟩, [⟨"pri_missing", 1⟩], some [("plan", "new")]⟩).1.store.Events = [] ∧
    (SubscriptionsHandler.update sampleEnv (sampleWorld "paused") "sub_a"
        ⟨some ⟨"cancel"⟩, [⟨"pri_missing", 1⟩], none⟩).2 =
      priceNotFound "pri_missing" ∧
    (storedSub (SubscriptionsHandler.update sampleEnv (sampleWorld "paused") "sub_a"
        ⟨some ⟨"cancel"⟩, [⟨"pri_missing", 1⟩], none⟩).1 "sub_a").map
        (fun s => s.ScheduledChange) =
      some (some ⟨"cancel", ⟨1707912000000000000⟩⟩) :=
  ⟨rfl, rfl, rfl, rfl, rfl, rfl⟩

/-! ## Create -/

theorem createItem_trial (w : World) (now : Time) (sub : Subscription) (item : CreateSubItemReq)
    (price : Price) (tp : TrialPeriod) (hp : GetPrice w item.PriceID = some price)
    (htp : price.TrialPeriod = some tp) :
    ∃ sub', createItem w now sub item = .ok sub' ∧ sub'.Status = sub.Status ∧
      sub'.ID = sub.ID ∧
      sub'.CurrentBillingPeriod =
        some ⟨now, addPeriod now tp.Interval tp.Frequency⟩ ∧
      sub'.NextBilledAt = some (addPeriod now tp.Interval tp.Frequency) := by
  unfold createItem
  simp only [hp, htp]
  cases price.BillingCycle <;> exact ⟨_, rfl, rfl, rfl, rfl, rfl⟩

theorem createItems_trial (w : World) (now : Time) (items : List CreateSubItemReq) :
    ∀ sub : Subscription,
      (∀ item ∈ items, ∃ p t, GetPrice w item.PriceID = some p ∧ p.TrialPeriod = some t) →
      ∃ sub', createItems w now sub items = .ok sub' ∧ sub'.Status = sub.Status ∧
        sub'.ID = sub.ID ∧
        ∀ last price tp, items.getLast? = some last → GetPrice w last.PriceID = some price →
          price.TrialPeriod = some tp →
          sub'.CurrentBillingPeriod = some ⟨now, addPeriod now tp.Interval tp.Frequency⟩ ∧
          sub'.NextBilledAt = some (addPeriod now tp.Interval tp.Frequency) := by
  induction items with
  | nil =>
    intro sub _
    exact ⟨sub, rfl, rfl, rfl, fun _ _ _ h => by simp at h⟩
  | cons item rest ih =>
    intro sub hall
    obtain ⟨p, t, hp, ht⟩ := hall item (List.mem_cons_self _ _)
    obtain ⟨sub1, h1, hs1, hid1, hper1, hnb1⟩ := createItem_trial w now sub item p t hp ht
    obtain ⟨sub', h2, hs2, hid2, hlast2⟩ :=
      ih sub1 (fun it hit => hall it (List.mem_cons_of_mem _ hit))
    refine ⟨sub', ?_, hs2.trans hs1, hid2.trans hid1, ?_⟩
    · simp only [createItems, h1, h2]
    · intro last price tp hl hpl htl
      cases rest with
      | nil =>
        simp only [List.getLast?_singleton, Option.some.injEq] at hl
        subst hl
        rw [hp] at hpl
        cases hpl
        rw [ht] at htl
        cases htl
        simp only [createItems] at h2
        cases h2
        exact ⟨hper1, hnb1⟩
      | cons r rs =>
        rw [List.getLast?_cons_cons] at hl
        exact hlast2 last price tp hl hpl htl

theorem create_ok_run (env : Env) (w : World) (req : CreateSubscriptionRequest) (c : Customer)
    (sub : Subscription)
    (hne : ¬ (req.CustomerID = "" ∨ req.Items.length = 0))
    (hcust : GetCustomer w req.CustomerID = some c)
    (hitems : createItems (createStart env w) (env.clock w.clockReads)
      (initialSubscription env w req) req.Items = .ok sub) :
    SubscriptionsHandler.create env w req =
      (Notifier.Fire env
        (SubscriptionsHandler.createTransaction env (createStored env w sub) sub
          "subscription_recurring")
        "subscription.created" (.subscription w.heap.length),
       .ok 201 sub) := by
  unfold SubscriptionsHandler.create
  rw [if_neg hne]
  simp only [hcust]
  have h : createItems (NextID (timeNow env w).2 "sub").2 (timeNow env w).1
      { ID := (NextID (timeNow env w).2 "sub").1, Status := "trialing",
        CustomerID := req.CustomerID,
        CurrencyCode := if req.CurrencyCode = "" then "USD" else req.CurrencyCode,
        CreatedAt := (timeNow env w).1, UpdatedAt := (timeNow env w).1,
        StartedAt := some (timeNow env w).1, FirstBilledAt := none,
        NextBilledAt := none, PausedAt := none, CanceledAt := none,
        CollectionMode := if req.CollectionMode = "" then "automatic" else req.CollectionMode,
        CurrentBillingPeriod := none,
        BillingCycle := { Interval := "", Frequency := 0 }, ScheduledChange := none,
        Items := [], CustomData := req.CustomData.getD [] } req.Items = .ok sub := hitems
  rw [h]
  rfl

theorem storedSub_createStored (env : Env) (w : World) (sub : Subscription) :
    storedSub (createStored env w sub) sub.ID = some sub := by
  have h1 : GetSubscription (createStored env w sub) sub.ID = some w.heap.length := by
    unfold GetSubscription createStored SetSubscription
    exact mapGet_mapSet_same _ _ _
  have h2 : deref (createStored env w sub) w.heap.length = some sub := by
    simp [deref, createStored, SetSubscription, allocSub, createStart, NextID, timeNow]
  simp only [storedSub, h1, h2]

theorem storedSub_subCreateTransaction (env : Env) (w : World) (sub : Subscription)
    (origin id : String) :
    storedSub (SubscriptionsHandler.createTransaction env w sub origin) id = storedSub w id :=
  storedSub_congr _ _ _ rfl rfl

/-- C5: a valid create request all of whose item prices declare a trial period
yields a trialing subscription whose current billing period runs from now to
`addPeriod(now, trial.interval, trial.frequency)` (the trial of the last item)
with `next_billed_at` at that end; exactly one transaction is added to the
store and exactly one event, of type `subscription.created` and pointing to the
new subscription, is appended to the log. The id drawn for the transaction is
assumed not to be in use. -/
theorem create_with_trial (env : Env) (w : World) (req : CreateSubscriptionRequest)
    (c : Customer) (last : CreateSubItemReq) (price : Price) (tp : TrialPeriod)
    (hcid : req.CustomerID ≠ "") (hcust : GetCustomer w req.CustomerID = some c)
    (hall : ∀ item ∈ req.Items, ∃ p t, GetPrice w item.PriceID = some p ∧ p.TrialPeriod = some t)
    (hlast : req.Items.getLast? = some last) (hp : GetPrice w last.PriceID = some price)
    (htp : price.TrialPeriod = some tp)
    (hfresh : mapGet w.store.Transactions (comingID w "txn" 1) = none) :
    ∃ sub txn ev,
      (SubscriptionsHandler.create env w req).2 = .ok 201 sub ∧
      storedSub (SubscriptionsHandler.create env w req).1 sub.ID = some sub ∧
      sub.Status = "trialing" ∧
      sub.CurrentBillingPeriod =
        some ⟨env.clock w.clockReads,
          addPeriod (env.clock w.clockReads) tp.Interval tp.Frequency⟩ ∧
      sub.NextBilledAt = some (addPeriod (env.clock w.clockReads) tp.Interval tp.Frequency) ∧
      (SubscriptionsHandler.create env w req).1.store.Transactions =
        w.store.Transactions ++ [(txn.ID, txn)] ∧
      txn.SubscriptionID = some sub.ID ∧
      (SubscriptionsHandler.create env w req).1.store.Events = w.store.Events ++ [ev] ∧
      ev.EventType = "subscription.created" ∧
      ∃ a, ev.Data = .subscription a ∧
        deref (SubscriptionsHandler.create env w req).1 a = some sub := by
  have hne : ¬ (req.CustomerID = "" ∨ req.Items.length = 0) := by
    rintro (h | h)
    · exact hcid h
    · rw [List.length_eq_zero.mp h] at hlast
      simp at hlast
  obtain ⟨sub, hok, hst, hid, hper⟩ :=
    createItems_trial (createStart env w) (env.clock w.clockReads) req.Items
      (initialSubscription env w req) hall
  obtain ⟨hcbp, hnb⟩ := hper last price tp hlast hp htp
  have hrun := create_ok_run env w req c sub hne hcust hok
  refine ⟨sub, builtTransaction env (createStored env w sub) sub "subscription_recurring",
    firedEvent env (SubscriptionsHandler.createTransaction env (createStored env w sub) sub
      "subscription_recurring") "subscription.created" (.subscription w.heap.length), ?_⟩
  rw [hrun]
  refine ⟨rfl, ?_, hst, hcbp, hnb, ?_, rfl, ?_, rfl, w.heap.length, rfl, ?_⟩
  · show storedSub (Notifier.Fire _ _ _ _) _ = _
    rw [storedSub_Fire, storedSub_subCreateTransaction, storedSub_createStored]
  · show (Notifier.Fire _ _ _ _).store.Transactions = _
    rw [Fire_store, createTransaction_store]
    exact mapSet_fresh _ _ _ hfresh
  · show (Notifier.Fire _ _ _ _).store.Events = _
    rw [Fire_store]
    rfl
  · show deref (Notifier.Fire _ _ _ _) _ = _
    unfold deref
    rw [Fire_heap, createTransaction_heap]
    simp [createStored, SetSubscription, allocSub, createStart, NextID, timeNow]

/-- A witness of C5: one item at the trial price of the sample store. -/
theorem create_with_trial_witness :
    ∃ sub txn ev,
      (SubscriptionsHandler.create sampleEnv (sampleWorld "active")
        ⟨"ctm_a", [⟨"pri_trial", 1⟩], "", "", none⟩).2 = .ok 201 sub ∧
      storedSub (SubscriptionsHandler.create sampleEnv (sampleWorld "active")
        ⟨"ctm_a", [⟨"pri_trial", 1⟩], "", "", none⟩).1 sub.ID = some sub ∧
      sub.Status = "trialing" ∧
      sub.CurrentBillingPeriod =
        some ⟨sampleEnv.clock (sampleWorld "active").clockReads,
          addPeriod (sampleEnv.clock (sampleWorld "active").clockReads) "day" 14⟩ ∧
      sub.NextBilledAt =
        some (addPeriod (sampleEnv.clock (sampleWorld "active").clockReads) "day" 14) ∧
      (SubscriptionsHandler.create sampleEnv (sampleWorld "active")
        ⟨"ctm_a", [⟨"pri_trial", 1⟩], "", "", none⟩).1.store.Transactions =
        (sampleWorld "active").store.Transactions ++ [(txn.ID, txn)] ∧
      txn.SubscriptionID = some sub.ID ∧
      (SubscriptionsHandler.create sampleEnv (sampleWorld "active")
        ⟨"ctm_a", [⟨"pri_trial", 1⟩], "", "", none⟩).1.store.Events =
        (sampleWorld "active").store.Events ++ [ev] ∧
      ev.EventType = "subscription.created" ∧
      ∃ a, ev.Data = .subscription a ∧
        deref (SubscriptionsHandler.create sampleEnv (sampleWorld "active")
          ⟨"ctm_a", [⟨"pri_trial", 1⟩], "", "", none⟩).1 a = some sub :=
  create_with_trial sampleEnv (sampleWorld "active") ⟨"ctm_a", [⟨"pri_trial", 1⟩], "", "", none⟩
    ⟨"ctm_a", "a@example.com", "active"⟩ ⟨"pri_trial", 1⟩ trialPrice ⟨"day", 14⟩
    (by decide) rfl
    (by
      intro item hi
      simp only [List.mem_singleton] at hi
      subst hi
      exact ⟨trialPrice, ⟨"day", 14⟩, rfl, rfl⟩)
    rfl rfl rfl rfl

theorem createItem_plain (w : World) (now : Time) (sub : Subscription) (item : CreateSubItemReq)
    (price : Price) (bc : BillingCycle) (hp : GetPrice w item.PriceID = some price)
    (htp : price.TrialPeriod = none) (hbc : price.BillingCycle = some bc) :
    ∃ sub' it, createItem w now sub item = .ok sub' ∧ sub'.Status = "active" ∧
      sub'.ID = sub.ID ∧ sub'.FirstBilledAt = some now ∧ sub'.BillingCycle = bc ∧
      sub'.CurrentBillingPeriod = some ⟨now, addPeriod now bc.Interval bc.Frequency⟩ ∧
      sub'.NextBilledAt = some (addPeriod now bc.Interval bc.Frequency) ∧
      sub'.Items = sub.Items ++ [it] ∧ it.Status = "active" := by
  unfold createItem
  simp only [hp, htp, hbc]
  exact ⟨_, _, rfl, rfl, rfl, rfl, rfl, rfl, rfl, rfl, rfl⟩

theorem createItems_plain (w : World) (now : Time) (items : List CreateSubItemReq) :
    ∀ sub : Subscription,
      (∀ item ∈ items, ∃ p b, GetPrice w item.PriceID = some p ∧ p.TrialPeriod = none ∧
        p.BillingCycle = some b) →
      ∃ sub', createItems w now sub items = .ok sub' ∧ sub'.ID = sub.ID ∧
        (sub.Status = "active" ∧ sub.FirstBilledAt = some now →
          sub'.Status = "active" ∧ sub'.FirstBilledAt = some now) ∧
        (items ≠ [] → sub'.Status = "active" ∧ sub'.FirstBilledAt = some now) ∧
        (∀ it ∈ sub'.Items, it ∈ sub.Items ∨ it.Status = "active") ∧
        sub'.Items.length = sub.Items.length + items.length ∧
        ∀ last price bc, items.getLast? = some last → GetPrice w last.PriceID = some price →
          price.BillingCycle = some bc →
          sub'.BillingCycle = bc ∧
          sub'.CurrentBillingPeriod = some ⟨now, addPeriod now bc.Interval bc.Frequency⟩ ∧
          sub'.NextBilledAt = some (addPeriod now bc.Interval bc.Frequency) := by
  induction items with
  | nil =>
    intro sub _
    exact ⟨sub, rfl, rfl, id, fun h => absurd rfl h, fun it h => Or.inl h, rfl,
      fun _ _ _ h => by simp at h⟩
  | cons item rest ih =>
    intro sub hall
    obtain ⟨p, b, hp, ht, hb⟩ := hall item (List.mem_cons_self _ _)
    obtain ⟨sub1, it1, h1, hs1, hid1, hf1, hbc1, hper1, hnb1, hit1, hst1⟩ :=
      createItem_plain w now sub item p b hp ht hb
    obtain ⟨sub', h2, hid2, hkeep2, _, hitems2, hlen2, hlast2⟩ :=
      ih sub1 (fun it hit => hall it (List.mem_cons_of_mem _ hit))
    have hact := hkeep2 ⟨hs1, hf1⟩
    refine ⟨sub', ?_, hid2.trans hid1, fun _ => hact, fun _ => hact, ?_, ?_, ?_⟩
    · simp only [createItems, h1, h2]
    · intro it hit
      rcases hitems2 it hit with h | h
      · rw [hit1, List.mem_append, List.mem_singleton] at h
        rcases h with h | h
        · exact Or.inl h
        · exact Or.inr (h ▸ hst1)
      · exact Or.inr h
    · rw [hlen2, hit1]
      simp only [List.length_append, List.length_cons, List.length_nil]
      omega
    · intro last price bc hl hpl hbl
      cases rest with
      | nil =>
        simp only [List.getLast?_singleton, Option.some.injEq] at hl
        subst hl
        rw [hp] at hpl
        cases hpl
        rw [hb] at hbl
        cases hbl
        simp only [createItems] at h2
        cases h2
        exact ⟨hbc1, hper1, hnb1⟩
      | cons r rs =>
        rw [List.getLast?_cons_cons] at hl
        exact hlast2 last price bc hl hpl hbl

/-- The part of C6 the code satisfies: a valid create request all of whose item
prices declare a billing cycle and no trial period yields a subscription that
is active, as is each of its items, with `first_billed_at = now`, the billing
cycle `billing` of the last item, the current billing period from now to
`addPeriod(now, billing.interval, billing.frequency)` and `next_billed_at` at
that end; exactly one transaction is added, completed and of origin
`subscription_recurring`. The id drawn for the transaction is assumed not to be
in use. -/
theorem create_without_trial (env : Env) (w : World) (req : CreateSubscriptionRequest)
    (c : Customer) (last : CreateSubItemReq) (price : Price) (bc : BillingCycle)
    (hcid : req.CustomerID ≠ "") (hcust : GetCustomer w req.CustomerID = some c)
    (hall : ∀ item ∈ req.Items, ∃ p b, GetPrice w item.PriceID = some p ∧
      p.TrialPeriod = none ∧ p.BillingCycle = some b)
    (hlast : req.Items.getLast? = some last) (hp : GetPrice w last.PriceID = some price)
    (hbc : price.BillingCycle = some bc)
    (hfresh : mapGet w.store.Transactions (comingID w "txn" 1) = none) :
    ∃ sub txn,
      (SubscriptionsHandler.create env w req).2 = .ok 201 sub ∧
      storedSub (SubscriptionsHandler.create env w req).1 sub.ID = some sub ∧
      sub.Status = "active" ∧
      (∀ it ∈ sub.Items, it.Status = "active") ∧
      sub.Items.length = req.Items.length ∧
      sub.FirstBilledAt = some (env.clock w.clockReads) ∧
      sub.BillingCycle = bc ∧
      sub.CurrentBillingPeriod =
        some ⟨env.clock w.clockReads,
          addPeriod (env.clock w.clockReads) bc.Interval bc.Frequency⟩ ∧
      sub.NextBilledAt = some (addPeriod (env.clock w.clockReads) bc.Interval bc.Frequency) ∧
      (SubscriptionsHandler.create env w req).1.store.Transactions =
        w.store.Transactions ++ [(txn.ID, txn)] ∧
      txn.Origin = "subscription_recurring" ∧ txn.Status = "completed" ∧
      txn.SubscriptionID = some sub.ID := by
  have hnil : req.Items ≠ [] := by
    intro h
    rw [h] at hlast
    simp at hlast
  have hne : ¬ (req.CustomerID = "" ∨ req.Items.length = 0) := by
    rintro (h | h)
    · exact hcid h
    · exact hnil (List.length_eq_zero.mp h)
  obtain ⟨sub, hok, hid, _, hact, hitems, hlen, hper⟩ :=
    createItems_plain (createStart env w) (env.clock w.clockReads) req.Items
      (initialSubscription env w req) hall
  obtain ⟨hcyc, hcbp, hnb⟩ := hper last price bc hlast hp hbc
  obtain ⟨hst, hfb⟩ := hact hnil
  have hrun := create_ok_run env w req c sub hne hcust hok
  refine ⟨sub, builtTransaction env (createStored env w sub) sub "subscription_recurring", ?_⟩
  rw [hrun]
  refine ⟨rfl, ?_, hst, ?_, ?_, hfb, hcyc, hcbp, hnb, ?_, rfl, rfl, rfl⟩
  · show storedSub (Notifier.Fire _ _ _ _) _ = _
    rw [storedSub_Fire, storedSub_subCreateTransaction, storedSub_createStored]
  · intro it hit
    rcases hitems it hit with h | h
    · simp [initialSubscription] at h
    · exact h
  · rw [hlen]
    simp [initialSubscription]
  · show (Notifier.Fire _ _ _ _).store.Transactions = _
    rw [Fire_store, createTransaction_store]
    exact mapSet_fresh _ _ _ hfresh

/-- The same at a concrete input: one item at the yearly price of the sample
store. -/
theorem create_without_trial_witness :
    ∃ sub txn,
      (SubscriptionsHandler.create sampleEnv (sampleWorld "active")
        ⟨"ctm_a", [⟨"pri_plain", 1⟩], "", "", none⟩).2 = .ok 201 sub ∧
      storedSub (SubscriptionsHandler.create sampleEnv (sampleWorld "active")
        ⟨"ctm_a", [⟨"pri_plain", 1⟩], "", "", none⟩).1 sub.ID = some sub ∧
      sub.Status = "active" ∧
      (∀ it ∈ sub.Items, it.Status = "active") ∧
      sub.Items.length = 1 ∧
      sub.FirstBilledAt = some (sampleEnv.clock 0) ∧
      sub.BillingCycle = ⟨"year", 1⟩ ∧
      sub.CurrentBillingPeriod =
        some ⟨sampleEnv.clock 0, addPeriod (sampleEnv.clock 0) "year" 1⟩ ∧
      sub.NextBilledAt = some (addPeriod (sampleEnv.clock 0) "year" 1) ∧
      (SubscriptionsHandler.create sampleEnv (sampleWorld "active")
        ⟨"ctm_a", [⟨"pri_plain", 1⟩], "", "", none⟩).1.store.Transactions =
        (sampleWorld "active").store.Transactions ++ [(txn.ID, txn)] ∧
      txn.Origin = "subscription_recurring" ∧ txn.Status = "completed" ∧
      txn.SubscriptionID = some sub.ID :=
  create_without_trial sampleEnv (sampleWorld "active")
    ⟨"ctm_a", [⟨"pri_plain", 1⟩], "", "", none⟩
    ⟨"ctm_a", "a@example.com", "active"⟩ ⟨"pri_plain", 1⟩ plainPrice ⟨"year", 1⟩
    (by decide) rfl
    (by
      intro item hi
      simp only [List.mem_singleton] at hi
      subst hi
      exact ⟨plainPrice, ⟨"year", 1⟩, rfl, rfl, rfl⟩)
    rfl rfl rfl rfl

/-- C6 (the code departs from the claim): a valid create request whose item
prices declare no trial period, the second of them no billing cycle either,
does not yield an active subscription with one transaction: the handler faults
on the nil billing cycle in the branch without trial, after the first item has
been taken, and neither a subscription nor a transaction is stored. -/
theorem create_without_trial_faults_without_billing_cycle :
    GetPrice (sampleWorld "active") "pri_plain" = some plainPrice ∧
      GetPrice (sampleWorld "active") "pri_once" = some oneTimePrice ∧
      plainPrice.TrialPeriod = none ∧ oneTimePrice.TrialPeriod = none ∧
      oneTimePrice.BillingCycle = none ∧
      (SubscriptionsHandler.create sampleEnv (sampleWorld "active")
          ⟨"ctm_a", [⟨"pri_plain", 1⟩, ⟨"pri_once", 2⟩], "", "", none⟩).2 =
        .fault "nil pointer dereference: price.BillingCycle" ∧
      (SubscriptionsHandler.create sampleEnv (sampleWorld "active")
          ⟨"ctm_a", [⟨"pri_plain", 1⟩, ⟨"pri_once", 2⟩], "", "", none⟩).1.store.Subscriptions =
        (sampleWorld "active").store.Subscriptions ∧
      (SubscriptionsHandler.create sampleEnv (sampleWorld "active")
          ⟨"ctm_a", [⟨"pri_plain", 1⟩, ⟨"pri_once", 2⟩], "", "", none⟩).1.store.Transactions =
        (sampleWorld "active").store.Transactions := by
  decide

/-! ## Activate -/

theorem activate_trialing_run (env : Env) (w : World) (id : String) (a : Nat)
    (sub : Subscription) (hget : GetSubscription w id = some a) (hsub : deref w a = some sub)
    (hst : sub.Status = "trialing") :
    SubscriptionsHandler.activate env w id =
      (Notifier.Fire env
        (SubscriptionsHandler.createTransaction env
          (committed env w a (activated (env.clock w.clockReads) sub))
          (activated (env.clock w.clockReads) sub) "subscription_recurring")
        "subscription.activated" (.subscription a),
       .ok 200 (activated (env.clock w.clockReads) sub)) := by
  have hn : ¬ sub.Status ≠ "trialing" := fun h => h hst
  simp only [SubscriptionsHandler.activate, hget, hsub]
  rw [if_neg hn]
  rfl

theorem deref_committed (env : Env) (w : World) (a : Nat) (old sub : Subscription)
    (hsub : deref w a = some old) : deref (committed env w a sub) a = some sub :=
  deref_writeSub (timeNow env w).2 a old sub hsub

theorem deref_Fire (env : Env) (w : World) (ty : String) (d : EventData) (a : Nat) :
    deref (Notifier.Fire env w ty d) a = deref w a := by
  unfold deref
  rw [Fire_heap]

/-- C7: `Activate` on a trialing subscription makes it active with
`first_billed_at = now`, the current billing period from now to
`addPeriod(now, billing_cycle.interval, billing_cycle.frequency)` and
`next_billed_at` at that end; every item is active with its trial dates
cleared; exactly one transaction, completed, is added and exactly one event, of
type `subscription.activated` and pointing to the subscription, is appended.
The id drawn for the transaction is assumed not to be in use. -/
theorem activate_trialing (env : Env) (w : World) (id : String) (sub : Subscription)
    (h : storedSub w id = some sub) (hst : sub.Status = "trialing")
    (hfresh : mapGet w.store.Transactions (comingID w "txn" 0) = none) :
    ∃ s txn ev,
      (SubscriptionsHandler.activate env w id).2 = .ok 200 s ∧
      storedSub (SubscriptionsHandler.activate env w id).1 id = some s ∧
      s.Status = "active" ∧
      s.FirstBilledAt = some (env.clock w.clockReads) ∧
      s.BillingCycle = sub.BillingCycle ∧
      s.CurrentBillingPeriod =
        some ⟨env.clock w.clockReads,
          addPeriod (env.clock w.clockReads) sub.BillingCycle.Interval
            sub.BillingCycle.Frequency⟩ ∧
      s.NextBilledAt =
        some (addPeriod (env.clock w.clockReads) sub.BillingCycle.Interval
          sub.BillingCycle.Frequency) ∧
      (∀ it ∈ s.Items, it.Status = "active" ∧ it.TrialDates = none) ∧
      s.Items.length = sub.Items.length ∧
      (SubscriptionsHandler.activate env w id).1.store.Transactions =
        w.store.Transactions ++ [(txn.ID, txn)] ∧
      txn.Status = "completed" ∧ txn.SubscriptionID = some s.ID ∧
      (SubscriptionsHandler.activate env w id).1.store.Events = w.store.Events ++ [ev] ∧
      ev.EventType = "subscription.activated" ∧
      ∃ a, ev.Data = .subscription a ∧
        deref (SubscriptionsHandler.activate env w id).1 a = some s := by
  obtain ⟨a, hget, hsub⟩ := storedSub_split w id sub h
  rw [activate_trialing_run env w id a sub hget hsub hst]
  refine ⟨activated (env.clock w.clockReads) sub,
    builtTransaction env (committed env w a (activated (env.clock w.clockReads) sub))
      (activated (env.clock w.clockReads) sub) "subscription_recurring",
    firedEvent env (SubscriptionsHandler.createTransaction env
      (committed env w a (activated (env.clock w.clockReads) sub))
      (activated (env.clock w.clockReads) sub) "subscription_recurring")
      "subscription.activated" (.subscription a), ?_⟩
  refine ⟨rfl, ?_, rfl, rfl, rfl, rfl, rfl, ?_, ?_, ?_, rfl, rfl, ?_, rfl, a, rfl, ?_⟩
  · show storedSub (Notifier.Fire _ _ _ _) _ = _
    rw [storedSub_Fire, storedSub_subCreateTransaction,
      storedSub_committed env w id a sub _ hget hsub]
  · intro it hit
    simp only [activated, List.mem_map] at hit
    obtain ⟨it0, _, rfl⟩ := hit
    exact ⟨rfl, rfl⟩
  · simp only [activated, List.length_map]
  · show (Notifier.Fire _ _ _ _).store.Transactions = _
    rw [Fire_store, createTransaction_store]
    exact mapSet_fresh _ _ _ hfresh
  · show (Notifier.Fire _ _ _ _).store.Events = _
    rw [Fire_store]
    rfl
  · show deref (Notifier.Fire _ _ _ _) _ = _
    rw [deref_Fire]
    exact deref_committed env w a sub _ hsub

/-- A witness of C7: the trialing subscription of the sample store. -/
theorem activate_trialing_witness :
    ∃ s txn ev,
      (SubscriptionsHandler.activate sampleEnv (sampleWorld "trialing") "sub_a").2 = .ok 200 s ∧
      storedSub (SubscriptionsHandler.activate sampleEnv (sampleWorld "trialing") "sub_a").1
        "sub_a" = some s ∧
      s.Status = "active" ∧
      s.FirstBilledAt = some (sampleEnv.clock 0) ∧
      s.BillingCycle = ⟨"month", 1⟩ ∧
      s.CurrentBillingPeriod =
        some ⟨sampleEnv.clock 0, addPeriod (sampleEnv.clock 0) "month" 1⟩ ∧
      s.NextBilledAt = some (addPeriod (sampleEnv.clock 0) "month" 1) ∧
      (∀ it ∈ s.Items, it.Status = "active" ∧ it.TrialDates = none) ∧
      s.Items.length = 1 ∧
      (SubscriptionsHandler.activate sampleEnv (sampleWorld "trialing") "sub_a").1.store.Transactions
        = [] ++ [(txn.ID, txn)] ∧
      txn.Status = "completed" ∧ txn.SubscriptionID = some s.ID ∧
      (SubscriptionsHandler.activate sampleEnv (sampleWorld "trialing") "sub_a").1.store.Events =
        [] ++ [ev] ∧
      ev.EventType = "subscription.activated" ∧
      ∃ a, ev.Data = .subscription a ∧
        deref (SubscriptionsHandler.activate sampleEnv (sampleWorld "trialing") "sub_a").1 a =
          some s :=
  activate_trialing sampleEnv (sampleWorld "trialing") "sub_a" (sampleSub "trialing")
    rfl rfl rfl

/-! ## AdvanceTime -/

/-- C8: `AdvanceTime` on a trialing subscription (whatever the `fail`
parameter) makes it active, adds exactly one transaction to the store and
appends exactly two events to the log, `subscription.activated` and then
`transaction.completed`. The id drawn for the transaction is assumed not to be
in use. -/
theorem advanceTime_from_trialing (env : Env) (w : World) (id failParam : String)
    (sub : Subscription) (h : storedSub w id = some sub) (hst : sub.Status = "trialing")
    (hfresh : mapGet w.store.Transactions (comingID w "txn" 0) = none) :
    ∃ s txn e1 e2,
      (AdminHandler.advanceTime env w id failParam).2 = .ok 200 s ∧
      storedSub (AdminHandler.advanceTime env w id failParam).1 id = some s ∧
      s.Status = "active" ∧
      (AdminHandler.advanceTime env w id failParam).1.store.Transactions =
        w.store.Transactions ++ [(txn.ID, txn)] ∧
      txn.SubscriptionID = some s.ID ∧
      (AdminHandler.advanceTime env w id failParam).1.store.Events =
        w.store.Events ++ [e1, e2] ∧
      e1.EventType = "subscription.activated" ∧ e2.EventType = "transaction.completed" := by
  obtain ⟨a, hget, hsub⟩ := storedSub_split w id sub h
  rw [advanceTime_trialing_run env w id failParam a sub hget hsub hst]
  have hne : (Notifier.Fire env
      (AdminHandler.createTransaction env
        (committed env w a (trialEnded (env.clock w.clockReads) sub))
        (trialEnded (env.clock w.clockReads) sub) "subscription_recurring")
      "subscription.activated" (.subscription a)).store.Transactions ≠ [] := by
    rw [Fire_store]
    exact createTransaction_nonempty _ _ _ _
  obtain ⟨last, _, hlast⟩ := fireLast_of_nonempty env _ (trialEnded (env.clock w.clockReads) sub) hne
  rw [hlast]
  refine ⟨trialEnded (env.clock w.clockReads) sub,
    builtTransaction env (committed env w a (trialEnded (env.clock w.clockReads) sub))
      (trialEnded (env.clock w.clockReads) sub) "subscription_recurring",
    firedEvent env (AdminHandler.createTransaction env
        (committed env w a (trialEnded (env.clock w.clockReads) sub))
        (trialEnded (env.clock w.clockReads) sub) "subscription_recurring")
      "subscription.activated" (.subscription a),
    firedEvent env (Notifier.Fire env
      (AdminHandler.createTransaction env
        (committed env w a (trialEnded (env.clock w.clockReads) sub))
        (trialEnded (env.clock w.clockReads) sub) "subscription_recurring")
      "subscription.activated" (.subscription a)) "transaction.completed" (.transaction last),
    rfl, ?_, rfl, ?_, rfl, ?_, rfl, rfl⟩
  · show storedSub (Notifier.Fire _ _ _ _) _ = _
    rw [storedSub_Fire, storedSub_Fire, storedSub_createTransaction,
      storedSub_committed env w id a sub _ hget hsub]
  · show (Notifier.Fire _ _ _ _).store.Transactions = _
    rw [Fire_store]
    show (Notifier.Fire _ _ _ _).store.Transactions = _
    rw [Fire_store, createTransaction_eq, createTransaction_store]
    exact mapSet_fresh _ _ _ hfresh
  · show (Notifier.Fire _ _ _ _).store.Events = _
    rw [Fire_store]
    show (Notifier.Fire _ _ _ _).store.Events ++ _ = _
    rw [Fire_store]
    simp only [List.append_assoc, List.singleton_append]
    rfl

/-- A witness of C8: the trialing subscription of the sample store. -/
theorem advanceTime_from_trialing_witness :
    ∃ s txn e1 e2,
      (AdminHandler.advanceTime sampleEnv (sampleWorld "trialing") "sub_a" "").2 = .ok 200 s ∧
      storedSub (AdminHandler.advanceTime sampleEnv (sampleWorld "trialing") "sub_a" "").1
        "sub_a" = some s ∧
      s.Status = "active" ∧
      (AdminHandler.advanceTime sampleEnv (sampleWorld "trialing") "sub_a" "").1.store.Transactions
        = [] ++ [(txn.ID, txn)] ∧
      txn.SubscriptionID = some s.ID ∧
      (AdminHandler.advanceTime sampleEnv (sampleWorld "trialing") "sub_a" "").1.store.Events =
        [] ++ [e1, e2] ∧
      e1.EventType = "subscription.activated" ∧ e2.EventType = "transaction.completed" :=
  advanceTime_from_trialing sampleEnv (sampleWorld "trialing") "sub_a" ""
    (sampleSub "trialing") rfl rfl rfl

theorem createFailedTransaction_fst (env : Env) (w : World) (sub : Subscription) :
    (AdminHandler.createFailedTransaction env w sub).1 = builtFailedTransaction env w sub := rfl

theorem createFailedTransaction_store (env : Env) (w : World) (sub : Subscription) :
    (AdminHandler.createFailedTransaction env w sub).2.store =
      { w.store with
        Transactions := mapSet w.store.Transactions (builtFailedTransaction env w sub).ID
          (builtFailedTransaction env w sub) } := rfl

/-- C9: `AdvanceTime` with `fail=true` on an active subscription makes it
past_due, adds exactly one transaction, which is failed and has no `billed_at`
(so no completed transaction is added), and appends exactly two events,
`subscription.past_due` and then `transaction.payment_failed`, the second
carrying that failed transaction. The id drawn for the transaction is assumed
not to be in use. -/
theorem advanceTime_payment_failure (env : Env) (w : World) (id : String)
    (sub : Subscription) (h : storedSub w id = some sub) (hst : sub.Status = "active")
    (hfresh : mapGet w.store.Transactions (comingID w "txn" 0) = none) :
    ∃ s txn e1 e2,
      (AdminHandler.advanceTime env w id "true").2 = .ok 200 s ∧
      storedSub (AdminHandler.advanceTime env w id "true").1 id = some s ∧
      s.Status = "past_due" ∧
      (AdminHandler.advanceTime env w id "true").1.store.Transactions =
        w.store.Transactions ++ [(txn.ID, txn)] ∧
      txn.Status = "failed" ∧ txn.BilledAt = none ∧ txn.SubscriptionID = some s.ID ∧
      (AdminHandler.advanceTime env w id "true").1.store.Events = w.store.Events ++ [e1, e2] ∧
      e1.EventType = "subscription.past_due" ∧
      e2.EventType = "transaction.payment_failed" ∧
      e2.Data = .transaction txn := by
  obtain ⟨a, hget, hsub⟩ := storedSub_split w id sub h
  rw [advanceTime_failed_run env w id "true" a sub hget hsub hst rfl]
  refine ⟨paymentFailed (env.clock w.clockReads) sub,
    builtFailedTransaction env (committed env w a (paymentFailed (env.clock w.clockReads) sub))
      (paymentFailed (env.clock w.clockReads) sub),
    firedEvent env (AdminHandler.createFailedTransaction env
        (committed env w a (paymentFailed (env.clock w.clockReads) sub))
        (paymentFailed (env.clock w.clockReads) sub)).2
      "subscription.past_due" (.subscription a),
    firedEvent env (Notifier.Fire env (AdminHandler.createFailedTransaction env
        (committed env w a (paymentFailed (env.clock w.clockReads) sub))
        (paymentFailed (env.clock w.clockReads) sub)).2
      "subscription.past_due" (.subscription a)) "transaction.payment_failed"
      (.transaction (builtFailedTransaction env
        (committed env w a (paymentFailed (env.clock w.clockReads) sub))
        (paymentFailed (env.clock w.clockReads) sub))),
    rfl, ?_, rfl, ?_, rfl, rfl, rfl, ?_, rfl, rfl, rfl⟩
  · show storedSub (Notifier.Fire _ _ _ _) _ = _
    rw [storedSub_Fire, storedSub_Fire, storedSub_createFailedTransaction,
      storedSub_committed env w id a sub _ hget hsub]
  · show (Notifier.Fire _ _ _ _).store.Transactions = _
    rw [Fire_store]
    show (Notifier.Fire _ _ _ _).store.Transactions = _
    rw [Fire_store, createFailedTransaction_store]
    exact mapSet_fresh _ _ _ hfresh
  · show (Notifier.Fire _ _ _ _).store.Events = _
    rw [Fire_store]
    show (Notifier.Fire _ _ _ _).store.Events ++ _ = _
    rw [Fire_store]
    simp only [List.append_assoc, List.singleton_append]
    rfl

/-- A witness of C9: the active subscription of the sample store. -/
theorem advanceTime_payment_failure_witness :
    ∃ s txn e1 e2,
      (AdminHandler.advanceTime sampleEnv (sampleWorld "active") "sub_a" "true").2 = .ok 200 s ∧
      storedSub (AdminHandler.advanceTime sampleEnv (sampleWorld "active") "sub_a" "true").1
        "sub_a" = some s ∧
      s.Status = "past_due" ∧
      (AdminHandler.advanceTime sampleEnv (sampleWorld "active") "sub_a" "true").1.store.Transactions
        = [] ++ [(txn.ID, txn)] ∧
      txn.Status = "failed" ∧ txn.BilledAt = none ∧ txn.SubscriptionID = some s.ID ∧
      (AdminHandler.advanceTime sampleEnv (sampleWorld "active") "sub_a" "true").1.store.Events =
        [] ++ [e1, e2] ∧
      e1.EventType = "subscription.past_due" ∧
      e2.EventType = "transaction.payment_failed" ∧
      e2.Data = .transaction txn :=
  advanceTime_payment_failure sampleEnv (sampleWorld "active") "sub_a" (sampleSub "active")
    rfl rfl rfl

theorem advanceTime_renew_stored (env : Env) (w : World) (id failParam : String)
    (sub : Subscription) (h : storedSub w id = some sub) (hst : sub.Status = "active")
    (hf : failParam ≠ "true") :
    storedSub (AdminHandler.advanceTime env w id failParam).1 id =
      some (renewed (env.clock w.clockReads) sub) := by
  obtain ⟨a, hget, hsub⟩ := storedSub_split w id sub h
  rw [advanceTime_renew_run env w id failParam a sub hget hsub hst hf]
  rw [storedSub_fireLast, storedSub_Fire, storedSub_createTransaction,
    storedSub_committed env w id a sub _ hget hsub]

/-- C10: a successful `AdvanceTime` on an active subscription with a current
billing period keeps it active and rolls the period forward from the previous
period end, not from now: the new period starts at the old `ends_at` and ends,
as does `next_billed_at`, at
`addPeriod(old ends_at, billing_cycle.interval, billing_cycle.frequency)`;
every item has `previously_billed_at` at the old end and `next_billed_at` at
the new one. A second successful `AdvanceTime` starts its period at the end of
the first: successive renewals are contiguous. -/
theorem advanceTime_renewal (env : Env) (w : World) (id failParam : String)
    (sub : Subscription) (p : BillingPeriodDates)
    (h : storedSub w id = some sub) (hst : sub.Status = "active")
    (hp : sub.CurrentBillingPeriod = some p) (hf : failParam ≠ "true") :
    ∃ s,
      storedSub (AdminHandler.advanceTime env w id failParam).1 id = some s ∧
      (AdminHandler.advanceTime env w id failParam).2 = .ok 200 s ∧
      s.Status = "active" ∧
      s.BillingCycle = sub.BillingCycle ∧
      s.CurrentBillingPeriod =
        some ⟨p.EndsAt,
          addPeriod p.EndsAt sub.BillingCycle.Interval sub.BillingCycle.Frequency⟩ ∧
      s.NextBilledAt =
        some (addPeriod p.EndsAt sub.BillingCycle.Interval sub.BillingCycle.Frequency) ∧
      (∀ it ∈ s.Items, it.PreviouslyBilledAt = some p.EndsAt ∧
        it.NextBilledAt =
          some (addPeriod p.EndsAt sub.BillingCycle.Interval sub.BillingCycle.Frequency)) ∧
      s.Items.length = sub.Items.length ∧
      ∀ failParam2, failParam2 ≠ "true" →
        ∃ s2,
          storedSub (AdminHandler.advanceTime env
            (AdminHandler.advanceTime env w id failParam).1 id failParam2).1 id = some s2 ∧
          s2.Status = "active" ∧
          s2.CurrentBillingPeriod =
            some ⟨addPeriod p.EndsAt sub.BillingCycle.Interval sub.BillingCycle.Frequency,
              addPeriod
                (addPeriod p.EndsAt sub.BillingCycle.Interval sub.BillingCycle.Frequency)
                sub.BillingCycle.Interval sub.BillingCycle.Frequency⟩ := by
  have h1 := advanceTime_renew_stored env w id failParam sub h hst hf
  have hs1 : (renewed (env.clock w.clockReads) sub).Status = "active" := hst
  have hpe : prevEndOf (env.clock w.clockReads) sub = p.EndsAt := by
    simp only [prevEndOf, hp]
  have hper1 : (renewed (env.clock w.clockReads) sub).CurrentBillingPeriod =
      some ⟨p.EndsAt,
        addPeriod p.EndsAt sub.BillingCycle.Interval sub.BillingCycle.Frequency⟩ := by
    simp only [renewed, hpe]
  refine ⟨renewed (env.clock w.clockReads) sub, h1, ?_, hs1, rfl, hper1, ?_, ?_, ?_, ?_⟩
  · obtain ⟨a, hget, hsub⟩ := storedSub_split w id sub h
    rw [advanceTime_renew_run env w id failParam a sub hget hsub hst hf]
    refine fireLast_result env _ _ ?_
    rw [Fire_store]
    exact createTransaction_nonempty _ _ _ _
  · simp only [renewed, hpe]
  · intro it hit
    simp only [renewed, List.mem_map, hpe] at hit
    obtain ⟨it0, _, rfl⟩ := hit
    exact ⟨rfl, rfl⟩
  · simp only [renewed, List.length_map]
  · intro failParam2 hf2
    have h2 := advanceTime_renew_stored env (AdminHandler.advanceTime env w id failParam).1 id
      failParam2 (renewed (env.clock w.clockReads) sub) h1 hs1 hf2
    refine ⟨_, h2, hs1, ?_⟩
    simp only [renewed, prevEndOf, hp]

/-- A witness of C10: the active subscription of the sample store. -/
theorem advanceTime_renewal_witness :
    ∃ s,
      storedSub (AdminHandler.advanceTime sampleEnv (sampleWorld "active") "sub_a" "").1 "sub_a" =
        some s ∧
      s.Status = "active" ∧
      s.CurrentBillingPeriod =
        some ⟨⟨1707912000000000000⟩, addPeriod ⟨1707912000000000000⟩ "month" 1⟩ :=
  match advanceTime_renewal sampleEnv (sampleWorld "active") "sub_a" "" (sampleSub "active")
      ⟨sampleTime, ⟨1707912000000000000⟩⟩ rfl rfl rfl (by decide) with
  | ⟨s, h1, _, h3, _, h5, _⟩ => ⟨s, h1, h3, h5⟩

/-! ## Item statuses -/

theorem mirrors_activated (now : Time) (sub : Subscription) : Mirrors (activated now sub) := by
  intro it hit
  simp only [activated, List.mem_map] at hit
  obtain ⟨it0, _, rfl⟩ := hit
  rfl

theorem mirrors_trialEnded (now : Time) (sub : Subscription) : Mirrors (trialEnded now sub) := by
  intro it hit
  simp only [trialEnded, List.mem_map] at hit
  obtain ⟨it0, _, rfl⟩ := hit
  rfl

theorem mirrors_renewed (now : Time) (sub : Subscription) (h : Mirrors sub) :
    Mirrors (renewed now sub) := by
  intro it hit
  simp only [renewed, List.mem_map] at hit
  obtain ⟨it0, h0, rfl⟩ := hit
  exact h it0 h0

/-- C11 (the code departs from the claim): the items do not always mirror the
parent. On a subscription whose single item mirrors it, `AdvanceTime` with
`fail=true` stores past_due over an active item, `AdvanceTime` from past_due
stores canceled over a past_due item, `AdvanceTime` from paused and `Update`
with `resume` store active over a paused item; and `Create` over a price
without a trial followed by a price with one stores an active subscription
whose second item is trialing. -/
theorem item_status_diverges :
    (storedSub (sampleWorld "active") "sub_a").map statusView = some ("active", ["active"]) ∧
    (storedSub (AdminHandler.advanceTime sampleEnv (sampleWorld "active") "sub_a" "true").1
        "sub_a").map statusView = some ("past_due", ["active"]) ∧
    (storedSub (AdminHandler.advanceTime sampleEnv (sampleWorld "past_due") "sub_a" "").1
        "sub_a").map statusView = some ("canceled", ["past_due"]) ∧
    (storedSub (AdminHandler.advanceTime sampleEnv (sampleWorld "paused") "sub_a" "").1
        "sub_a").map statusView = some ("active", ["paused"]) ∧
    (storedSub (SubscriptionsHandler.update sampleEnv (sampleWorld "paused") "sub_a"
        ⟨some ⟨"resume"⟩, [], none⟩).1 "sub_a").map statusView = some ("active", ["paused"]) ∧
    (storedSub (SubscriptionsHandler.create sampleEnv (sampleWorld "active")
        ⟨"ctm_a", [⟨"pri_plain", 1⟩, ⟨"pri_trial", 1⟩], "", "", none⟩).1
        "sub_00000001").map statusView = some ("active", ["active", "trialing"]) :=
  ⟨rfl, rfl, rfl, rfl, rfl, rfl⟩

/-! ## Charge -/

theorem chargeItems_resolved (w : World) (items : List CreateSubItemReq) :
    ∀ acc : List TransactionItem × Int,
      (∀ item ∈ items, ∃ p, GetPrice w item.PriceID = some p) →
      ∃ built total, chargeItems w acc items = .ok (acc.1 ++ built, total) ∧
        List.Forall₂ (ChargedFrom w) built items := by
  induction items with
  | nil =>
    intro acc _
    exact ⟨[], acc.2, by simp [chargeItems], List.Forall₂.nil⟩
  | cons item rest ih =>
    intro acc hall
    obtain ⟨p, hp⟩ := hall item (List.mem_cons_self _ _)
    obtain ⟨built, total, hrun, hrel⟩ :=
      ih (acc.1 ++ [{ PriceID := p.ID, Quantity := defaultQty item.Quantity, Price := p,
                      Product := GetProduct w p.ProductID }],
          wrapInt (acc.2 + wrapInt (parseAmount p.UnitPrice.Amount * defaultQty item.Quantity)))
        (fun it hit => hall it (List.mem_cons_of_mem _ hit))
    refine ⟨{ PriceID := p.ID, Quantity := defaultQty item.Quantity, Price := p,
              Product := GetProduct w p.ProductID } :: built, total, ?_, ?_⟩
    · simp only [chargeItems, hp]
      rw [hrun]
      simp only [List.append_assoc, List.singleton_append]
    · exact List.Forall₂.cons ⟨hp, rfl, rfl, rfl⟩ hrel

theorem charge_heap (env : Env) (w : World) (id : String) (req : ChargeRequest) :
    (SubscriptionsHandler.charge env w id req).1.heap = w.heap ∧
      (SubscriptionsHandler.charge env w id req).1.store.Subscriptions =
        w.store.Subscriptions := by
  unfold SubscriptionsHandler.charge
  split
  · exact ⟨rfl, rfl⟩
  · split
    · exact ⟨rfl, rfl⟩
    · dsimp only
      split
      · exact ⟨rfl, rfl⟩
      · refine ⟨?_, ?_⟩
        · show (Notifier.Fire _ _ _ _).heap = _
          rw [Fire_heap]
          rfl
        · show (Notifier.Fire _ _ _ _).store.Subscriptions = _
          rw [Fire_store]
          rfl

/-- C17: `Charge` leaves every subscription object and the subscription map as
they were, whatever the status and the request, so the stored subscription
keeps its items, status, billing period and every other field. When every
requested price resolves, the subscription is returned with status 201, exactly
one transaction is added, of origin `subscription_charge` and with one item per
request item (built from the request, not from the subscription's items), and
exactly one event, `transaction.completed` carrying that transaction, is
appended. The id drawn for the transaction is assumed not to be in use. -/
theorem charge_frame (env : Env) (w : World) (id : String) (req : ChargeRequest)
    (sub : Subscription) (h : storedSub w id = some sub) :
    (SubscriptionsHandler.charge env w id req).1.heap = w.heap ∧
    (SubscriptionsHandler.charge env w id req).1.store.Subscriptions = w.store.Subscriptions ∧
    storedSub (SubscriptionsHandler.charge env w id req).1 id = some sub ∧
    ((∀ item ∈ req.Items, ∃ p, GetPrice w item.PriceID = some p) →
      mapGet w.store.Transactions (comingID w "txn" 0) = none →
      ∃ txn ev,
        (SubscriptionsHandler.charge env w id req).2 = .ok 201 sub ∧
        (SubscriptionsHandler.charge env w id req).1.store.Transactions =
          w.store.Transactions ++ [(txn.ID, txn)] ∧
        txn.Origin = "subscription_charge" ∧ txn.Status = "completed" ∧
        txn.SubscriptionID = some sub.ID ∧
        List.Forall₂ (ChargedFrom w) txn.Items req.Items ∧
        (SubscriptionsHandler.charge env w id req).1.store.Events = w.store.Events ++ [ev] ∧
        ev.EventType = "transaction.completed" ∧ ev.Data = .transaction txn) := by
  obtain ⟨hheap, hsubs⟩ := charge_heap env w id req
  refine ⟨hheap, hsubs, (storedSub_congr w _ id hheap hsubs).trans h, ?_⟩
  intro hall hfresh
  obtain ⟨a, hget, hsub⟩ := storedSub_split w id sub h
  obtain ⟨built, total, hrun, hrel⟩ :=
    chargeItems_resolved (NextID (timeNow env w).2 "txn").2 req.Items ([], 0) hall
  have hcharge : ∃ txn : Transaction, txn.ID = comingID w "txn" 0 ∧
      txn.Origin = "subscription_charge" ∧ txn.Status = "completed" ∧
      txn.SubscriptionID = some sub.ID ∧ txn.Items = built ∧
      SubscriptionsHandler.charge env w id req =
        (Notifier.Fire env (SetTransaction (NextID (timeNow env w).2 "txn").2 txn)
          "transaction.completed" (.transaction txn), .ok 201 sub) := by
    refine ⟨{ ID := (NextID (timeNow env w).2 "txn").1, Status := "completed",
              CustomerID := sub.CustomerID, SubscriptionID := some sub.ID,
              CurrencyCode := sub.CurrencyCode, CollectionMode := sub.CollectionMode,
              Origin := "subscription_charge", Items := built,
              Totals := totalsOf total sub.CurrencyCode,
              BilledAt := some (timeNow env w).1, CreatedAt := (timeNow env w).1,
              UpdatedAt := (timeNow env w).1, CustomData := [] }, rfl, rfl, rfl, rfl, rfl, ?_⟩
    simp only [SubscriptionsHandler.charge, hget, hsub, hrun, List.nil_append]
  obtain ⟨txn, hid, horigin, hstatus, hsid, hitems, hcharge⟩ := hcharge
  rw [hcharge]
  refine ⟨txn, firedEvent env (SetTransaction (NextID (timeNow env w).2 "txn").2 txn)
    "transaction.completed" (.transaction txn), rfl, ?_, horigin, hstatus, hsid, ?_, ?_,
    rfl, rfl⟩
  · show (Notifier.Fire _ _ _ _).store.Transactions = _
    rw [Fire_store]
    refine mapSet_fresh _ _ _ ?_
    rw [hid]
    exact hfresh
  · rw [hitems]
    exact hrel
  · show (Notifier.Fire _ _ _ _).store.Events = _
    rw [Fire_store]
    rfl

/-- A witness of C17: one unit of the yearly price charged on the sample
subscription. -/
theorem charge_frame_witness :
    (SubscriptionsHandler.charge sampleEnv (sampleWorld "active") "sub_a"
      ⟨[⟨"pri_plain", 0⟩]⟩).1.heap = (sampleWorld "active").heap ∧
    ∃ txn ev,
      (SubscriptionsHandler.charge sampleEnv (sampleWorld "active") "sub_a"
        ⟨[⟨"pri_plain", 0⟩]⟩).2 = .ok 201 (sampleSub "active") ∧
      (SubscriptionsHandler.charge sampleEnv (sampleWorld "active") "sub_a"
        ⟨[⟨"pri_plain", 0⟩]⟩).1.store.Transactions =
        (sampleWorld "active").store.Transactions ++ [(txn.ID, txn)] ∧
      txn.Origin = "subscription_charge" ∧ txn.Status = "completed" ∧
      txn.SubscriptionID = some (sampleSub "active").ID ∧
      List.Forall₂ (ChargedFrom (sampleWorld "active")) txn.Items [⟨"pri_plain", 0⟩] ∧
      (SubscriptionsHandler.charge sampleEnv (sampleWorld "active") "sub_a"
        ⟨[⟨"pri_plain", 0⟩]⟩).1.store.Events = (sampleWorld "active").store.Events ++ [ev] ∧
      ev.EventType = "transaction.completed" ∧ ev.Data = .transaction txn :=
  ⟨(charge_frame sampleEnv (sampleWorld "active") "sub_a" ⟨[⟨"pri_plain", 0⟩]⟩
      (sampleSub "active") rfl).1,
   (charge_frame sampleEnv (sampleWorld "active") "sub_a" ⟨[⟨"pri_plain", 0⟩]⟩
      (sampleSub "active") rfl).2.2.2
      (by
        intro item hi
        simp only [List.mem_singleton] at hi
        subst hi
        exact ⟨plainPrice, rfl⟩)
      rfl⟩

/-! ## Update -/

theorem deref_modifySub (w : World) (a : Nat) (f : Subscription → Subscription)
    (sub : Subscription) (h : deref w a = some sub) :
    deref (modifySub w a f) a = some (f sub) := by
  unfold modifySub
  rw [h]
  exact deref_writeSub w a sub (f sub) h

theorem deref_applyScheduledChange (env : Env) (w : World) (a : Nat) (sc : ScheduledChangeReq)
    (sub : Subscription) (h : deref w a = some sub) :
    deref (applyScheduledChange env w a sc) a =
      some (scheduledChangeApplied (env.clock w.clockReads) sc sub) := by
  have ht : deref (timeNow env w).2 a = some sub := h
  unfold applyScheduledChange scheduledChangeApplied
  split
  · exact deref_modifySub _ a _ sub ht
  · split
    · exact deref_modifySub _ a _ sub ht
    · split
      · rw [deref_modifySub w a _ sub h]
      · exact h

theorem SameLifecycle.refl (s : Subscription) : SameLifecycle s s :=
  ⟨rfl, rfl, rfl, rfl, rfl, rfl, rfl, rfl, rfl⟩

theorem SameLifecycle.trans {s t u : Subscription} (h1 : SameLifecycle s t)
    (h2 : SameLifecycle t u) : SameLifecycle s u := by
  obtain ⟨a1, a2, a3, a4, a5, a6, a7, a8, a9⟩ := h1
  obtain ⟨b1, b2, b3, b4, b5, b6, b7, b8, b9⟩ := h2
  exact ⟨b1.trans a1, b2.trans a2, b3.trans a3, b4.trans a4, b5.trans a5, b6.trans a6,
    b7.trans a7, b8.trans a8, b9.trans a9⟩

theorem finishUpdate_stored (env : Env) (w : World) (id : String) (a : Nat) (s : Subscription)
    (hget : GetSubscription w id = some a) (hs : deref w a = some s) :
    ∃ s', storedSub (finishUpdate env w a).1 id = some s' ∧ SameLifecycle s s' ∧
      s'.Items = s.Items ∧ s'.CustomData = s.CustomData ∧
      (finishUpdate env w a).2 = .ok 200 s' ∧
      ∃ ev, (finishUpdate env w a).1.store.Events = w.store.Events ++ [ev] ∧
        ev.EventType = "subscription.updated" ∧ ev.Data = .subscription a := by
  have h1 : deref (modifySub (timeNow env w).2 a
      (fun sub => { sub with UpdatedAt := (timeNow env w).1 })) a =
      some { s with UpdatedAt := (timeNow env w).1 } :=
    deref_modifySub (timeNow env w).2 a _ s hs
  refine ⟨{ s with UpdatedAt := (timeNow env w).1 }, ?_, SameLifecycle.refl _, rfl, rfl, ?_, ?_⟩
  · simp only [finishUpdate, h1]
    rw [storedSub_Fire]
    have hg : GetSubscription (SetSubscription (modifySub (timeNow env w).2 a
        (fun sub => { sub with UpdatedAt := (timeNow env w).1 })) a
        { s with UpdatedAt := (timeNow env w).1 }) id = some a := by
      unfold GetSubscription SetSubscription
      refine mapGet_mapSet_keep _ _ _ _ ?_
      rw [modifySub_store]
      exact hget
    have hd : deref (SetSubscription (modifySub (timeNow env w).2 a
        (fun sub => { sub with UpdatedAt := (timeNow env w).1 })) a
        { s with UpdatedAt := (timeNow env w).1 }) a =
        some { s with UpdatedAt := (timeNow env w).1 } := h1
    simp only [storedSub, hg, hd]
  · simp only [finishUpdate, h1]
  · simp only [finishUpdate, h1]
    refine ⟨firedEvent env (SetSubscription (modifySub (timeNow env w).2 a
        (fun sub => { sub with UpdatedAt := (timeNow env w).1 })) a
        { s with UpdatedAt := (timeNow env w).1 }) "subscription.updated" (.subscription a),
      ?_, rfl, rfl⟩
    rw [Fire_store]
    show (modifySub _ _ _).store.Events ++ _ = _
    rw [modifySub_store]
    rfl

/-- The subscription stored under the id after `SubscriptionsHandler.update`,
whether the request is accepted or rejected, agrees with the result of the
`scheduled_change` switch on every field the later writes leave alone. -/
theorem update_stored (env : Env) (w : World) (id : String) (req : UpdateSubscriptionRequest)
    (sub : Subscription) (h : storedSub w id = some sub) :
    ∃ s', storedSub (SubscriptionsHandler.update env w id req).1 id = some s' ∧
      SameLifecycle
        (match req.ScheduledChange with
          | some sc => scheduledChangeApplied (env.clock w.clockReads) sc sub
          | none => sub) s' := by
  obtain ⟨a, hget, hsub⟩ := storedSub_split w id sub h
  -- the world after the scheduled-change switch
  obtain ⟨w1, hw1, hst1, hd1⟩ : ∃ w1 : World,
      w1 = (match req.ScheduledChange with
        | some sc => applyScheduledChange env w a sc
        | none => w) ∧ w1.store = w.store ∧
      deref w1 a = some (match req.ScheduledChange with
        | some sc => scheduledChangeApplied (env.clock w.clockReads) sc sub
        | none => sub) := by
    refine ⟨_, rfl, ?_, ?_⟩
    · split
      · exact applyScheduledChange_store _ _ _ _
      · rfl
    · split
      · exact deref_applyScheduledChange env w a _ sub hsub
      · exact hsub
  generalize (match req.ScheduledChange with
    | some sc => scheduledChangeApplied (env.clock w.clockReads) sc sub
    | none => sub) = s1 at hd1 ⊢
  -- the world after the custom-data write
  obtain ⟨w2, hw2, hst2, s2, hd2, hl2⟩ : ∃ w2 : World,
      w2 = (match req.CustomData with
        | some cd => modifySub w1 a (fun sub => { sub with CustomData := cd })
        | none => w1) ∧ w2.store = w.store ∧
      ∃ s2, deref w2 a = some s2 ∧ SameLifecycle s1 s2 := by
    refine ⟨_, rfl, ?_, ?_⟩
    · split
      · rw [modifySub_store]
        exact hst1
      · exact hst1
    · split
      · exact ⟨_, deref_modifySub w1 a _ s1 hd1, SameLifecycle.refl _⟩
      · exact ⟨s1, hd1, SameLifecycle.refl _⟩
  have hget2 : GetSubscription w2 id = some a := by
    unfold GetSubscription
    rw [hst2]
    exact hget
  have hrun : SubscriptionsHandler.update env w id req =
      if req.Items.length > 0 then
        match updateItems (timeNow env w2).2 (timeNow env w2).1 s2.Status [] req.Items with
        | .error r => ((timeNow env w2).2, r)
        | .ok newItems =>
          finishUpdate env
            (modifySub (timeNow env w2).2 a (fun sub => { sub with Items := newItems })) a
      else finishUpdate env w2 a := by
    have hd2' : deref (timeNow env w2).2 a = some s2 := hd2
    simp only [SubscriptionsHandler.update, hget, hsub, ← hw1, ← hw2, hd2']
  rw [hrun]
  split
  · split
    · refine ⟨s2, ?_, hl2⟩
      have : storedSub (timeNow env w2).2 id = storedSub w2 id :=
        storedSub_congr w2 _ id rfl rfl
      rw [this]
      simp only [storedSub, hget2, hd2]
    · rename_i newItems _
      have hd3 : deref (modifySub (timeNow env w2).2 a
          (fun sub => { sub with Items := newItems })) a = some { s2 with Items := newItems } :=
        deref_modifySub (timeNow env w2).2 a _ s2 hd2
      have hget3 : GetSubscription (modifySub (timeNow env w2).2 a
          (fun sub => { sub with Items := newItems })) id = some a := by
        unfold GetSubscription
        rw [modifySub_store]
        exact hget2
      obtain ⟨s', hs', hl', _⟩ := finishUpdate_stored env _ id a _ hget3 hd3
      exact ⟨s', hs', hl2.trans (SameLifecycle.trans (SameLifecycle.refl _) hl')⟩
  · obtain ⟨s', hs', hl', _⟩ := finishUpdate_stored env w2 id a s2 hget2 hd2
    exact ⟨s', hs', hl2.trans hl'⟩

/-- C18: after `Update` with `scheduled_change.action` cancel or pause the
stored subscription carries a scheduled change with that action and with
`effective_at` at the end of the current billing period when there is one and
at now (the first clock reading of the call) otherwise, and its status and
billing period are what they were; with action resume the scheduled change is
cleared, the billing period and `next_billed_at` are kept, and the status
becomes active with `paused_at` cleared exactly when it was paused. This holds
whatever else the request carries. -/
theorem update_scheduled_change (env : Env) (w : World) (id : String)
    (req : UpdateSubscriptionRequest) (sc : ScheduledChangeReq) (sub : Subscription)
    (h : storedSub w id = some sub) (hsc : req.ScheduledChange = some sc) :
    ∃ s', storedSub (SubscriptionsHandler.update env w id req).1 id = some s' ∧
      (sc.Action = "cancel" ∨ sc.Action = "pause" →
        s'.ScheduledChange =
          some ⟨sc.Action,
            match sub.CurrentBillingPeriod with
            | some p => p.EndsAt
            | none => env.clock w.clockReads⟩ ∧
        s'.Status = sub.Status ∧ s'.PausedAt = sub.PausedAt ∧
        s'.CurrentBillingPeriod = sub.CurrentBillingPeriod ∧
        s'.NextBilledAt = sub.NextBilledAt) ∧
      (sc.Action = "resume" →
        s'.ScheduledChange = none ∧
        s'.CurrentBillingPeriod = sub.CurrentBillingPeriod ∧
        s'.NextBilledAt = sub.NextBilledAt ∧
        (sub.Status = "paused" → s'.Status = "active" ∧ s'.PausedAt = none) ∧
        (sub.Status ≠ "paused" → s'.Status = sub.Status ∧ s'.PausedAt = sub.PausedAt)) := by
  obtain ⟨s', hs', hl⟩ := update_stored env w id req sub h
  rw [hsc] at hl
  change SameLifecycle (scheduledChangeApplied (env.clock w.clockReads) sc sub) s' at hl
  refine ⟨s', hs', ?_, ?_⟩
  · intro hact
    rcases hact with hact | hact
    · simp [SameLifecycle, scheduledChangeApplied, hact] at hl
      obtain ⟨_, hst, hsch, hpa, _, hper, hnb, _, _⟩ := hl
      rw [hact]
      exact ⟨hsch, hst, hpa, hper, hnb⟩
    · simp [SameLifecycle, scheduledChangeApplied, hact] at hl
      obtain ⟨_, hst, hsch, hpa, _, hper, hnb, _, _⟩ := hl
      rw [hact]
      exact ⟨hsch, hst, hpa, hper, hnb⟩
  · intro hact
    by_cases hp : sub.Status = "paused"
    · simp [SameLifecycle, scheduledChangeApplied, hact, hp] at hl
      obtain ⟨_, hst, hsch, hpa, _, hper, hnb, _, _⟩ := hl
      exact ⟨hsch, hper, hnb, fun _ => ⟨hst, hpa⟩, fun hne => absurd hp hne⟩
    · simp [SameLifecycle, scheduledChangeApplied, hact, hp] at hl
      obtain ⟨_, hst, hsch, hpa, _, hper, hnb, _, _⟩ := hl
      exact ⟨hsch, hper, hnb, fun hpp => absurd hpp hp, fun _ => ⟨hst, hpa⟩⟩

/-- A witness of C18: a scheduled cancel recorded on the active subscription
of the sample store, at the end of its current period. -/
theorem update_scheduled_change_witness :
    ∃ s', storedSub (SubscriptionsHandler.update sampleEnv (sampleWorld "active") "sub_a"
        ⟨some ⟨"cancel"⟩, [], none⟩).1 "sub_a" = some s' ∧
      s'.ScheduledChange = some ⟨"cancel", ⟨1707912000000000000⟩⟩ ∧
      s'.Status = "active" :=
  match update_scheduled_change sampleEnv (sampleWorld "active") "sub_a"
      ⟨some ⟨"cancel"⟩, [], none⟩ ⟨"cancel"⟩ (sampleSub "active") rfl rfl with
  | ⟨s', h1, h2, _⟩ => ⟨s', h1, (h2 (Or.inl rfl)).1, (h2 (Or.inl rfl)).2.1⟩

/-! ## Event data -/

theorem mapValues_singleton_last {V : Type} (k : String) (v : V) (seed : Nat) :
    (mapValues [(k, v)] seed).getLast? = some v := by
  have h : mapValues [(k, v)] seed = [v] := by
    unfold mapValues
    simp only [List.map_cons, List.map_nil]
    exact List.rotate_singleton v seed
  rw [h]
  rfl

/-- The part of C19 that the code does satisfy: when the transaction collection
is empty before the call, the `transaction.completed` event fired by
`AdvanceTime` on a trialing subscription carries the transaction that the call
created. -/
theorem advanceTime_completed_event_of_empty (env : Env) (w : World) (id failParam : String)
    (sub : Subscription) (h : storedSub w id = some sub) (hst : sub.Status = "trialing")
    (hempty : w.store.Transactions = []) :
    ∃ txn ev, (AdminHandler.advanceTime env w id failParam).1.store.Transactions =
        [(txn.ID, txn)] ∧
      (AdminHandler.advanceTime env w id failParam).1.store.Events.getLast? = some ev ∧
      ev.EventType = "transaction.completed" ∧ ev.Data = .transaction txn := by
  obtain ⟨a, hget, hsub⟩ := storedSub_split w id sub h
  rw [advanceTime_trialing_run env w id failParam a sub hget hsub hst]
  have htx : (Notifier.Fire env
      (AdminHandler.createTransaction env
        (committed env w a (trialEnded (env.clock w.clockReads) sub))
        (trialEnded (env.clock w.clockReads) sub) "subscription_recurring")
      "subscription.activated" (.subscription a)).store.Transactions =
      [((builtTransaction env (committed env w a (trialEnded (env.clock w.clockReads) sub))
          (trialEnded (env.clock w.clockReads) sub) "subscription_recurring").ID,
        builtTransaction env (committed env w a (trialEnded (env.clock w.clockReads) sub))
          (trialEnded (env.clock w.clockReads) sub) "subscription_recurring")] := by
    rw [Fire_store, createTransaction_eq, createTransaction_store]
    show mapSet w.store.Transactions _ _ = _
    rw [hempty]
    rfl
  refine ⟨builtTransaction env (committed env w a (trialEnded (env.clock w.clockReads) sub))
    (trialEnded (env.clock w.clockReads) sub) "subscription_recurring", ?_⟩
  unfold fireLastTransaction ListTransactions
  rw [htx, mapValues_singleton_last]
  refine ⟨firedEvent env (Notifier.Fire env
      (AdminHandler.createTransaction env
        (committed env w a (trialEnded (env.clock w.clockReads) sub))
        (trialEnded (env.clock w.clockReads) sub) "subscription_recurring")
      "subscription.activated" (.subscription a)) "transaction.completed"
      (.transaction (builtTransaction env
        (committed env w a (trialEnded (env.clock w.clockReads) sub))
        (trialEnded (env.clock w.clockReads) sub) "subscription_recurring")), ?_, ?_, rfl, rfl⟩
  · show (Notifier.Fire _ _ _ _).store.Transactions = _
    rw [Fire_store]
    exact htx
  · show (Notifier.Fire _ _ _ _).store.Events.getLast? = _
    rw [Fire_store]
    simp

/-- C19 (the code departs from the claim): with a transaction already in the
collection, the `transaction.completed` event of `AdvanceTime` need not carry
the transaction the call created. After `Create` has stored `txn_00000002`,
`AdvanceTime` on the new subscription stores `txn_00000004`, and under an
iteration order of the transaction map that lists the older entry last, the
event it fires carries `txn_00000002`. -/
theorem advanceTime_completed_event_carries_older_transaction :
    ((SubscriptionsHandler.create rotatedEnv (sampleWorld "active")
        trialRequest).1.store.Transactions.map Prod.fst) = ["txn_00000002"] ∧
    ((AdminHandler.advanceTime rotatedEnv
        (SubscriptionsHandler.create rotatedEnv (sampleWorld "active") trialRequest).1
        "sub_00000001" "").1.store.Transactions.map Prod.fst) =
      ["txn_00000002", "txn_00000004"] ∧
    ((AdminHandler.advanceTime rotatedEnv
        (SubscriptionsHandler.create rotatedEnv (sampleWorld "active") trialRequest).1
        "sub_00000001" "").1.store.Events.getLast?.map
          (fun e => (e.EventType, eventTransactionID e))) =
      some ("transaction.completed", some "txn_00000002") := by
  decide

/-! ## The event log -/

theorem logExtends_of_eq {w w' : World} (h : w'.store.Events = w.store.Events) :
    LogExtends w w' := ⟨[], by rw [h, List.append_nil]⟩

theorem logExtends_trans {w1 w2 w3 : World} (h1 : LogExtends w1 w2) (h2 : LogExtends w2 w3) :
    LogExtends w1 w3 := by
  obtain ⟨a, ha⟩ := h1
  obtain ⟨b, hb⟩ := h2
  exact ⟨a ++ b, by rw [hb, ha, List.append_assoc]⟩

theorem logExtends_Fire (env : Env) (w : World) (ty : String) (d : EventData) :
    LogExtends w (Notifier.Fire env w ty d) :=
  ⟨[firedEvent env w ty d], by rw [Fire_store]⟩

theorem logExtends_fireLast (env : Env) (w : World) (sub : Subscription) :
    LogExtends w (fireLastTransaction env w sub).1 := by
  unfold fireLastTransaction
  split
  · exact logExtends_of_eq rfl
  · exact logExtends_Fire env w _ _

theorem logExtends_finishUpdate (env : Env) (w : World) (a : Nat) :
    LogExtends w (finishUpdate env w a).1 := by
  unfold finishUpdate
  dsimp only
  split
  · exact logExtends_of_eq (by rw [modifySub_store]; rfl)
  · refine logExtends_trans (logExtends_of_eq ?_) (logExtends_Fire env _ _ _)
    show (modifySub _ _ _).store.Events = _
    rw [modifySub_store]
    rfl

/-- The part of C20 that the code does satisfy: the log before `Create`,
`Update`, `Activate`, `Charge` or `AdvanceTime` is a prefix of the log after
it, so no logged event record (id, type, time, data pointer) is altered or
removed. -/
theorem event_log_append_only (env : Env) (w : World) :
    (∀ req, LogExtends w (SubscriptionsHandler.create env w req).1) ∧
    (∀ id req, LogExtends w (SubscriptionsHandler.update env w id req).1) ∧
    (∀ id, LogExtends w (SubscriptionsHandler.activate env w id).1) ∧
    (∀ id req, LogExtends w (SubscriptionsHandler.charge env w id req).1) ∧
    (∀ id failParam, LogExtends w (AdminHandler.advanceTime env w id failParam).1) := by
  refine ⟨?_, ?_, ?_, ?_, ?_⟩
  · intro req
    unfold SubscriptionsHandler.create
    split
    · exact logExtends_of_eq rfl
    · split
      · exact logExtends_of_eq rfl
      · dsimp only
        split
        · exact logExtends_of_eq rfl
        · exact logExtends_trans (logExtends_of_eq rfl) (logExtends_Fire env _ _ _)
  · intro id req
    unfold SubscriptionsHandler.update
    cases hg : GetSubscription w id with
    | none => exact logExtends_of_eq rfl
    | some a =>
      simp only [hg]
      cases hd : deref w a with
      | none => exact logExtends_of_eq rfl
      | some sub0 =>
        simp only [hd]
        have hw2 : (match req.CustomData with
            | some cd => modifySub (match req.ScheduledChange with
                | some sc => applyScheduledChange env w a sc
                | none => w) a (fun sub => { sub with CustomData := cd })
            | none => (match req.ScheduledChange with
                | some sc => applyScheduledChange env w a sc
                | none => w)).store = w.store := by
          have h1 : (match req.ScheduledChange with
              | some sc => applyScheduledChange env w a sc
              | none => w).store = w.store := by
            split
            · exact applyScheduledChange_store _ _ _ _
            · rfl
          split
          · rw [modifySub_store]
            exact h1
          · exact h1
        split
        · split
          · refine logExtends_of_eq ?_
            show (timeNow env _).2.store.Events = _
            rw [← hw2]
            rfl
          · refine logExtends_trans (logExtends_of_eq ?_) (logExtends_finishUpdate env _ a)
            rw [modifySub_store]
            show (timeNow env _).2.store.Events = _
            rw [← hw2]
            rfl
        · refine logExtends_trans (logExtends_of_eq ?_) (logExtends_finishUpdate env _ a)
          rw [hw2]
  · intro id
    unfold SubscriptionsHandler.activate
    split
    · exact logExtends_of_eq rfl
    · split
      · exact logExtends_of_eq rfl
      · split
        · exact logExtends_of_eq rfl
        · exact logExtends_trans (logExtends_of_eq rfl) (logExtends_Fire env _ _ _)
  · intro id req
    unfold SubscriptionsHandler.charge
    split
    · exact logExtends_of_eq rfl
    · split
      · exact logExtends_of_eq rfl
      · dsimp only
        split
        · exact logExtends_of_eq rfl
        · exact logExtends_trans (logExtends_of_eq rfl) (logExtends_Fire env _ _ _)
  · intro id failParam
    cases hg : GetSubscription w id with
    | none => exact logExtends_of_eq (by simp only [AdminHandler.advanceTime, hg])
    | some a =>
      cases hd : deref w a with
      | none => exact logExtends_of_eq (by simp only [AdminHandler.advanceTime, hg, hd])
      | some sub =>
        have hc : ∀ s, (committed env w a s).store.Events = w.store.Events := fun _ => rfl
        by_cases h1 : sub.Status = "trialing"
        · rw [advanceTime_trialing_run env w id failParam a sub hg hd h1]
          refine logExtends_trans (logExtends_trans (logExtends_of_eq ?_)
            (logExtends_Fire env _ _ _)) (logExtends_fireLast env _ _)
          exact hc _
        · by_cases h2 : sub.Status = "active"
          · by_cases hf : failParam = "true"
            · rw [advanceTime_failed_run env w id failParam a sub hg hd h2 hf]
              refine logExtends_trans (logExtends_trans (logExtends_of_eq ?_)
                (logExtends_Fire env _ _ _)) (logExtends_Fire env _ _ _)
              exact hc _
            · rw [advanceTime_renew_run env w id failParam a sub hg hd h2 hf]
              refine logExtends_trans (logExtends_trans (logExtends_of_eq ?_)
                (logExtends_Fire env _ _ _)) (logExtends_fireLast env _ _)
              exact hc _
          · by_cases h3 : sub.Status = "past_due"
            · rw [advanceTime_pastDue_run env w id failParam a sub hg hd h3]
              exact logExtends_trans (logExtends_of_eq (hc _)) (logExtends_Fire env _ _ _)
            · by_cases h4 : sub.Status = "paused"
              · rw [advanceTime_paused_run env w id failParam a sub hg hd h4]
                exact logExtends_trans (logExtends_of_eq (hc _)) (logExtends_Fire env _ _ _)
              · rw [advanceTime_other_run env w id failParam a sub hg hd h1 h2 h3 h4]
                exact logExtends_of_eq rfl

/-- C20 (the code departs from the claim): the data of a logged event is not a
snapshot. The `subscription.created` event logged by `Create` shows a trialing
subscription; after `Activate` the same log entry, unchanged as a record, shows
the subscription as active, because its data is the pointer to the stored
object that `Activate` writes through. -/
theorem logged_event_data_follows_later_writes :
    ((SubscriptionsHandler.create sampleEnv (sampleWorld "active")
        trialRequest).1.store.Events.head?.map
          (fun e => (e.EventID, e.EventType,
            eventSubscriptionStatus
              (SubscriptionsHandler.create sampleEnv (sampleWorld "active") trialRequest).1 e))) =
      some ("evt_00000003", "subscription.created", some "trialing") ∧
    (SubscriptionsHandler.activate sampleEnv
        (SubscriptionsHandler.create sampleEnv (sampleWorld "active") trialRequest).1
        "sub_00000001").1.store.Events.head? =
      (SubscriptionsHandler.create sampleEnv (sampleWorld "active")
        trialRequest).1.store.Events.head? ∧
    ((SubscriptionsHandler.activate sampleEnv
        (SubscriptionsHandler.create sampleEnv (sampleWorld "active") trialRequest).1
        "sub_00000001").1.store.Events.head?.map
          (fun e => (e.EventID, e.EventType,
            eventSubscriptionStatus
              (SubscriptionsHandler.activate sampleEnv
                (SubscriptionsHandler.create sampleEnv (sampleWorld "active") trialRequest).1
                "sub_00000001").1 e))) =
      some ("evt_00000003", "subscription.created", some "active") := by
  decide

/-! ## Machine arithmetic -/

theorem wrapInt_eq (n : Int) :
    wrapInt n = (n + 9223372036854775808) % 18446744073709551616 - 9223372036854775808 := by
  unfold wrapInt
  norm_num

theorem wrapInt_of_range (n : Int) (h1 : -9223372036854775808 ≤ n)
    (h2 : n < 9223372036854775808) : wrapInt n = n := by
  rw [wrapInt_eq]
  omega

theorem wrapInt_range (n : Int) :
    -9223372036854775808 ≤ wrapInt n ∧ wrapInt n < 9223372036854775808 := by
  rw [wrapInt_eq]
  omega

theorem wrapInt_wrapInt (n : Int) : wrapInt (wrapInt n) = wrapInt n := by
  simp only [wrapInt_eq]
  omega

theorem wrapInt_add_wrapInt (a b : Int) : wrapInt (a + wrapInt b) = wrapInt (a + b) := by
  simp only [wrapInt_eq]
  omega

theorem wrapInt_wrapInt_add (a b : Int) : wrapInt (wrapInt a + b) = wrapInt (a + b) := by
  simp only [wrapInt_eq]
  omega

theorem wrapInt_wrapInt_mul_ten (a : Int) : wrapInt (wrapInt a * 10) = wrapInt (a * 10) := by
  simp only [wrapInt_eq]
  omega

/-! ## Transaction totals -/

theorem wrapInt_add_mid (a x s : Int) :
    wrapInt (wrapInt (a + wrapInt x) + s) = wrapInt (a + (x + s)) := by
  simp only [wrapInt_eq]
  omega

theorem transactionLoop_fold (items : List SubscriptionItem) :
    ∀ (acc : List TransactionItem) (n : Int), wrapInt n = n →
      items.foldl
        (fun (acc : List TransactionItem × Int) item =>
          (acc.1 ++ [{ PriceID := item.Price.ID, Quantity := item.Quantity, Price := item.Price,
                       Product := item.Product }],
           wrapInt (acc.2 + wrapInt (parseAmount item.Price.UnitPrice.Amount * item.Quantity))))
        (acc, n) =
      (acc ++ items.map lineOf, wrapInt (n + lineSum (items.map lineOf))) := by
  induction items with
  | nil =>
    intro acc n hn
    simp [lineSum, hn]
  | cons item rest ih =>
    intro acc n hn
    simp only [List.foldl_cons]
    rw [ih _ _ (wrapInt_wrapInt _)]
    simp only [List.map_cons, List.append_assoc, List.singleton_append, lineSum, List.sum_cons,
      lineOf]
    congr 1
    exact wrapInt_add_mid _ _ _

theorem transactionLoop_eq (items : List SubscriptionItem) :
    transactionLoop items = (items.map lineOf, wrapInt (lineSum (items.map lineOf))) := by
  unfold transactionLoop
  rw [transactionLoop_fold items [] 0 (by decide)]
  simp

theorem chargeItems_total (w : World) (items : List CreateSubItemReq) :
    ∀ (acc : List TransactionItem) (n : Int) (out : List TransactionItem × Int),
      wrapInt n = n → chargeItems w (acc, n) items = .ok out →
      ∃ built, out.1 = acc ++ built ∧ out.2 = wrapInt (n + lineSum built) := by
  induction items with
  | nil =>
    intro acc n out hn hrun
    simp only [chargeItems, Except.ok.injEq] at hrun
    subst hrun
    exact ⟨[], by simp, by simp [lineSum, hn]⟩
  | cons item rest ih =>
    intro acc n out hn hrun
    cases hp : GetPrice w item.PriceID with
    | none => simp [chargeItems, hp] at hrun
    | some p =>
      simp only [chargeItems, hp] at hrun
      obtain ⟨built, h1, h2⟩ := ih _ _ out (wrapInt_wrapInt _) hrun
      refine ⟨{ PriceID := p.ID, Quantity := defaultQty item.Quantity, Price := p,
                Product := GetProduct w p.ProductID } :: built, ?_, ?_⟩
      · rw [h1]
        simp
      · rw [h2]
        simp only [lineSum, List.map_cons, List.sum_cons]
        exact wrapInt_add_mid _ _ _

/-- The totals block of a transaction: the three amounts are the rendering of
`total`, the tax is the literal 0. -/
theorem totalsOf_fields (total : Int) (currency : String) :
    (totalsOf total currency).Subtotal = formatAmount total ∧
      (totalsOf total currency).Total = formatAmount total ∧
      (totalsOf total currency).GrandTotal = formatAmount total ∧
      (totalsOf total currency).Tax = "0" ∧
      (totalsOf total currency).CurrencyCode = currency :=
  ⟨rfl, rfl, rfl, rfl, rfl⟩

/-- C13 (as the code has it): the transaction that `createTransaction` (of
either handler) and `createFailedTransaction` store for a subscription has one
item per subscription item, and the charge transaction one item per request
item (a requested quantity of 0 counting as 1); in each, subtotal, total and
grand total are the decimal rendering of the sum over the transaction's items
of `parseAmount(price amount)` times quantity reduced to the 64-bit
two's-complement range, which is the sum itself whenever the sum lies in that
range; the tax is the literal 0 and the totals currency is the subscription's
currency code. -/
theorem transaction_totals (env : Env) (w : World) (sub : Subscription) (origin : String) :
    ((SubscriptionsHandler.createTransaction env w sub origin).store.Transactions =
        mapSet w.store.Transactions (builtTransaction env w sub origin).ID
          (builtTransaction env w sub origin) ∧
      (AdminHandler.createTransaction env w sub origin).store.Transactions =
        mapSet w.store.Transactions (builtTransaction env w sub origin).ID
          (builtTransaction env w sub origin) ∧
      (AdminHandler.createFailedTransaction env w sub).1 = builtFailedTransaction env w sub) ∧
    (∀ txn, txn = builtTransaction env w sub origin ∨ txn = builtFailedTransaction env w sub →
      txn.Items = sub.Items.map lineOf ∧
      txn.Totals.Subtotal = formatAmount (wrapInt (lineSum txn.Items)) ∧
      txn.Totals.Total = formatAmount (wrapInt (lineSum txn.Items)) ∧
      txn.Totals.GrandTotal = formatAmount (wrapInt (lineSum txn.Items)) ∧
      txn.Totals.Tax = "0" ∧
      txn.Totals.CurrencyCode = sub.CurrencyCode ∧
      (-9223372036854775808 ≤ lineSum txn.Items → lineSum txn.Items < 9223372036854775808 →
        txn.Totals.Total = formatAmount (lineSum txn.Items))) ∧
    (∀ id req, storedSub w id = some sub →
      (∀ item ∈ req.Items, ∃ p, GetPrice w item.PriceID = some p) →
      ∃ txn, (SubscriptionsHandler.charge env w id req).1.store.Transactions =
          mapSet w.store.Transactions txn.ID txn ∧
        List.Forall₂ (ChargedFrom w) txn.Items req.Items ∧
        txn.Totals.Subtotal = formatAmount (wrapInt (lineSum txn.Items)) ∧
        txn.Totals.Total = formatAmount (wrapInt (lineSum txn.Items)) ∧
        txn.Totals.GrandTotal = formatAmount (wrapInt (lineSum txn.Items)) ∧
        txn.Totals.Tax = "0" ∧
        txn.Totals.CurrencyCode = sub.CurrencyCode ∧
        (-9223372036854775808 ≤ lineSum txn.Items → lineSum txn.Items < 9223372036854775808 →
          txn.Totals.Total = formatAmount (lineSum txn.Items))) := by
  refine ⟨⟨rfl, rfl, rfl⟩, ?_, ?_⟩
  · intro txn htxn
    have hitems : txn.Items = sub.Items.map lineOf := by
      rcases htxn with h | h <;> rw [h] <;>
        simp only [builtTransaction, builtFailedTransaction, transactionLoop_eq]
    have htot : txn.Totals = totalsOf (wrapInt (lineSum txn.Items)) sub.CurrencyCode := by
      rw [hitems]
      rcases htxn with h | h <;> rw [h] <;>
        simp only [builtTransaction, builtFailedTransaction, transactionLoop_eq]
    refine ⟨hitems, ?_, ?_, ?_, ?_, ?_, ?_⟩
    · rw [htot]; rfl
    · rw [htot]; rfl
    · rw [htot]; rfl
    · rw [htot]; rfl
    · rw [htot]; rfl
    · intro h1 h2
      rw [htot, wrapInt_of_range _ h1 h2]
      rfl
  · intro id req h hall
    obtain ⟨a, hget, hsub⟩ := storedSub_split w id sub h
    obtain ⟨built, total, hrun, hrel⟩ :=
      chargeItems_resolved (NextID (timeNow env w).2 "txn").2 req.Items ([], 0) hall
    obtain ⟨built', hb1, hb2⟩ :=
      chargeItems_total (NextID (timeNow env w).2 "txn").2 req.Items [] 0 _ (by decide) hrun
    have hb : built' = built := by simpa using hb1.symm
    subst hb
    have htotal : total = wrapInt (lineSum built') := by simpa using hb2
    refine ⟨{ ID := (NextID (timeNow env w).2 "txn").1, Status := "completed",
              CustomerID := sub.CustomerID, SubscriptionID := some sub.ID,
              CurrencyCode := sub.CurrencyCode, CollectionMode := sub.CollectionMode,
              Origin := "subscription_charge", Items := built',
              Totals := totalsOf total sub.CurrencyCode,
              BilledAt := some (timeNow env w).1, CreatedAt := (timeNow env w).1,
              UpdatedAt := (timeNow env w).1, CustomData := [] }, ?_, hrel, ?_⟩
    · simp only [SubscriptionsHandler.charge, hget, hsub, hrun, List.nil_append]
      rw [Fire_store]
      rfl
    · dsimp only
      rw [htotal]
      refine ⟨rfl, rfl, rfl, rfl, rfl, ?_⟩
      intro h1 h2
      rw [wrapInt_of_range _ h1 h2]
      rfl

set_option maxRecDepth 100000 in
/-- The claim C13 as stated fails where the sum leaves the machine range: for
two units at the amount 9223372036854775807 the stored total is the rendering
of the wrapped sum, -2, while the sum itself renders as
18446744073709551614. -/
theorem transaction_totals_overflow :
    (builtTransaction sampleEnv (sampleWorld "active") overflowSub
        "subscription_recurring").Totals.Total = "-2" ∧
      formatAmount (lineSum (builtTransaction sampleEnv (sampleWorld "active") overflowSub
        "subscription_recurring").Items) = "18446744073709551614" ∧
      (builtTransaction sampleEnv (sampleWorld "active") overflowSub
        "subscription_recurring").Totals.Total ≠
        formatAmount (lineSum (builtTransaction sampleEnv (sampleWorld "active") overflowSub
          "subscription_recurring").Items) := by
  decide

set_option maxRecDepth 100000 in
/-- A witness of C13: the transaction built for the sample subscription, two
units at 500. -/
theorem transaction_totals_witness :
    (builtTransaction sampleEnv (sampleWorld "active") (sampleSub "active")
        "subscription_recurring").Totals.Total =
      formatAmount (lineSum (builtTransaction sampleEnv (sampleWorld "active")
        (sampleSub "active") "subscription_recurring").Items) :=
  ((transaction_totals sampleEnv (sampleWorld "active") (sampleSub "active")
      "subscription_recurring").2.1 _ (Or.inl rfl)).2.2.2.2.2.2 (by decide) (by decide)

/-! ## Amount parsing -/

theorem isDigitChar_iff (c : Char) : isDigitChar c = true ↔ 48 ≤ c.toNat ∧ c.toNat ≤ 57 := by
  have h1 : '0' ≤ c ↔ 48 ≤ c.toNat := by
    show (48 : UInt32) ≤ c.val ↔ _
    rw [UInt32.le_def]
    rfl
  have h2 : c ≤ '9' ↔ c.toNat ≤ 57 := by
    show c.val ≤ (57 : UInt32) ↔ _
    rw [UInt32.le_def]
    rfl
  simp only [isDigitChar, decide_eq_true_eq, h1, h2]

theorem parseAmountStep_digit (n : Int) (c : Char) (h : isDigitChar c = true) :
    parseAmountStep n c = wrapInt (wrapInt (n * 10) + (c.toNat - '0'.toNat : Int)) := by
  have h' : '0' ≤ c ∧ c ≤ '9' := by simpa [isDigitChar] using h
  simp only [parseAmountStep, if_pos h']

theorem parseAmountStep_other (n : Int) (c : Char) (h : isDigitChar c = false) :
    parseAmountStep n c = n := by
  have h' : ¬ ('0' ≤ c ∧ c ≤ '9') := by simpa [isDigitChar] using h
  simp only [parseAmountStep, if_neg h']

theorem foldl_parseAmountStep_filter (cs : List Char) :
    ∀ n : Int, cs.foldl parseAmountStep n = (cs.filter isDigitChar).foldl parseAmountStep n := by
  induction cs with
  | nil => intro n; rfl
  | cons c rest ih =>
    intro n
    cases hc : isDigitChar c with
    | true =>
      simp only [List.foldl_cons, List.filter_cons, hc, if_true]
      exact ih _
    | false =>
      simp only [List.foldl_cons, List.filter_cons, hc, parseAmountStep_other n c hc]
      simpa using ih n

theorem foldl_parseAmountStep_digits (cs : List Char) :
    ∀ (m : Int) (n : Nat), (∀ c ∈ cs, isDigitChar c = true) → m = wrapInt n →
      cs.foldl parseAmountStep m =
        wrapInt ((cs.foldl (fun n c => 10 * n + (c.toNat - 48)) n : Nat) : Int) := by
  induction cs with
  | nil =>
    intro m n _ hm
    exact hm
  | cons c rest ih =>
    intro m n hall hm
    have hc : isDigitChar c = true := hall c (List.mem_cons_self _ _)
    obtain ⟨h48, h57⟩ := (isDigitChar_iff c).mp hc
    simp only [List.foldl_cons]
    refine ih _ _ (fun x hx => hall x (List.mem_cons_of_mem _ hx)) ?_
    rw [parseAmountStep_digit m c hc, hm]
    have hz : ('0'.toNat : Int) = 48 := rfl
    rw [hz]
    push_cast
    have hsub : ((c.toNat - 48 : Nat) : Int) = (c.toNat : Int) - 48 := by omega
    rw [hsub]
    simp only [wrapInt_eq]
    omega

theorem parseAmount_digitsOnly (s : String) : parseAmount s = parseAmount (digitsOnly s) := by
  unfold parseAmount digitsOnly
  exact foldl_parseAmountStep_filter s.toList 0

theorem parseAmount_of_digits (s : String) (h : ∀ c ∈ s.toList, isDigitChar c = true) :
    parseAmount s = wrapInt (decimalValue s.toList) := by
  unfold parseAmount decimalValue
  exact foldl_parseAmountStep_digits s.toList 0 0 h (by decide)

theorem parseAmount_eq_wrap (s : String) :
    parseAmount s = wrapInt (decimalValue (digitsOnly s).toList) := by
  rw [parseAmount_digitsOnly s]
  refine parseAmount_of_digits _ ?_
  intro c hc
  have hc' : c ∈ s.toList.filter isDigitChar := hc
  exact (List.mem_filter.mp hc').2

set_option maxRecDepth 100000 in
/-- C14 (as the code has it): `parseAmount` of a string is `parseAmount` of the
string with every non-digit character removed, so non-digit characters are
dropped and nothing is rejected (`-500` and `5.00` both parse to 500); for a
digit-only string the result is the decimal value of the string reduced to the
64-bit two's-complement range, which is the decimal value itself whenever that
value is below 2^63. -/
theorem parseAmount_spec (s : String) :
    parseAmount s = parseAmount (digitsOnly s) ∧
    parseAmount s = wrapInt (decimalValue (digitsOnly s).toList) ∧
    ((∀ c ∈ s.toList, isDigitChar c = true) →
      parseAmount s = wrapInt (decimalValue s.toList) ∧
      (decimalValue s.toList < 9223372036854775808 →
        parseAmount s = (decimalValue s.toList : Int))) ∧
    parseAmount "-500" = 500 ∧ parseAmount "5.00" = 500 := by
  refine ⟨parseAmount_digitsOnly s, ?_, ?_, by decide, by decide⟩
  · exact parseAmount_eq_wrap s
  · intro h
    refine ⟨parseAmount_of_digits s h, ?_⟩
    intro hlt
    rw [parseAmount_of_digits s h]
    exact wrapInt_of_range _ (by omega) (by omega)

set_option maxRecDepth 100000 in
/-- The claim C14 as stated fails for a digit-only string whose value leaves
the machine range: `9223372036854775808` parses to -9223372036854775808. -/
theorem parseAmount_overflow :
    (∀ c ∈ "9223372036854775808".toList, isDigitChar c = true) ∧
      parseAmount "9223372036854775808" = -9223372036854775808 ∧
      decimalValue "9223372036854775808".toList = 9223372036854775808 ∧
      parseAmount "9223372036854775808" ≠ (decimalValue "9223372036854775808".toList : Int) := by
  decide

set_option maxRecDepth 100000 in
/-- A witness of C14: the digit-only string `500`. -/
theorem parseAmount_spec_witness : parseAmount "500" = (decimalValue "500".toList : Int) :=
  ((parseAmount_spec "500").2.2.1 (by decide)).2 (by decide)

/-! ## Amount round trip -/

theorem digitChar_toNat (k : Nat) (h : k < 10) : (Nat.digitChar k).toNat = 48 + k := by
  interval_cases k <;> rfl

theorem toDigitsCore_append (fuel : Nat) :
    ∀ (n : Nat) (ds : List Char),
      Nat.toDigitsCore 10 fuel n ds = Nat.toDigitsCore 10 fuel n [] ++ ds := by
  induction fuel with
  | zero => intro n ds; rfl
  | succ fuel ih =>
    intro n ds
    simp only [Nat.toDigitsCore]
    split
    · rfl
    · rw [ih (n / 10) (Nat.digitChar (n % 10) :: ds), ih (n / 10) [Nat.digitChar (n % 10)]]
      simp only [List.append_assoc, List.singleton_append]

theorem toDigitsCore_digits (fuel : Nat) :
    ∀ n : Nat, n < fuel →
      (∀ c ∈ Nat.toDigitsCore 10 fuel n [], isDigitChar c = true) ∧
        decimalValue (Nat.toDigitsCore 10 fuel n []) = n := by
  induction fuel with
  | zero => intro n h; omega
  | succ fuel ih =>
    intro n hn
    have hd : isDigitChar (Nat.digitChar (n % 10)) = true := by
      rw [isDigitChar_iff, digitChar_toNat _ (Nat.mod_lt _ (by decide))]
      omega
    have hv : (Nat.digitChar (n % 10)).toNat - 48 = n % 10 := by
      rw [digitChar_toNat _ (Nat.mod_lt _ (by decide))]
      omega
    simp only [Nat.toDigitsCore]
    split
    · rename_i h0
      refine ⟨?_, ?_⟩
      · intro c hc
        simp only [List.mem_singleton] at hc
        rw [hc]
        exact hd
      · simp only [decimalValue, List.foldl_cons, List.foldl_nil, hv]
        omega
    · rename_i h0
      have hlt : n / 10 < fuel := by omega
      obtain ⟨ih1, ih2⟩ := ih (n / 10) hlt
      rw [toDigitsCore_append]
      refine ⟨?_, ?_⟩
      · intro c hc
        simp only [List.mem_append, List.mem_singleton] at hc
        rcases hc with hc | hc
        · exact ih1 c hc
        · rw [hc]
          exact hd
      · unfold decimalValue at ih2 ⊢
        rw [List.foldl_append, ih2]
        simp only [List.foldl_cons, List.foldl_nil, hv]
        omega

theorem parseAmount_toString_nat (k : Nat) (h : k < 9223372036854775808) :
    parseAmount (toString (k : Int)) = k := by
  have hs : (toString (k : Int)).toList = Nat.toDigits 10 k := rfl
  obtain ⟨h1, h2⟩ := toDigitsCore_digits (k + 1) k (Nat.lt_succ_self k)
  have hp := parseAmount_of_digits (toString (k : Int)) (by rw [hs]; exact h1)
  rw [hp, hs]
  unfold Nat.toDigits
  rw [h2]
  exact wrapInt_of_range _ (by omega) (by omega)

theorem parseAmount_toString_neg (m : Nat) :
    parseAmount (toString (Int.negSucc m)) = wrapInt ((m + 1 : Nat) : Int) := by
  have hs : (toString (Int.negSucc m)).toList = '-' :: Nat.toDigits 10 (m + 1) := rfl
  obtain ⟨h1, h2⟩ := toDigitsCore_digits (m + 1 + 1) (m + 1) (Nat.lt_succ_self _)
  unfold parseAmount
  rw [hs, List.foldl_cons, parseAmountStep_other 0 '-' (by decide)]
  have hp := foldl_parseAmountStep_digits (Nat.toDigits 10 (m + 1)) 0 0 h1 (by decide)
  rw [hp]
  unfold decimalValue at h2
  unfold Nat.toDigits
  rw [h2]

/-- C15 (as the code has it): parsing, formatting and parsing again returns the
first parse exactly when that parse is not negative or is -2^63; this covers
every digit-only string whose value is below 2^63, and fails for the digit-only
strings whose value wraps to a negative number other than -2^63. -/
theorem amount_round_trip (s : String) :
    parseAmount (formatAmount (parseAmount s)) = parseAmount s ↔
      (0 ≤ parseAmount s ∨ parseAmount s = -9223372036854775808) := by
  have hr : -9223372036854775808 ≤ parseAmount s ∧ parseAmount s < 9223372036854775808 := by
    rw [parseAmount_eq_wrap s]
    exact wrapInt_range _
  generalize parseAmount s = n at hr ⊢
  unfold formatAmount
  cases n with
  | ofNat k =>
    have hk : k < 9223372036854775808 := by
      have := hr.2
      simp only [Int.ofNat_eq_coe] at this
      omega
    have := parseAmount_toString_nat k hk
    simp only [Int.ofNat_eq_coe] at this ⊢
    rw [this]
    constructor
    · intro _
      exact Or.inl (by omega)
    · intro _
      rfl
  | negSucc m =>
    rw [parseAmount_toString_neg m]
    have hm : m + 1 ≤ 9223372036854775808 := by
      have := hr.1
      simp only [Int.negSucc_eq] at this
      omega
    simp only [Int.negSucc_eq, wrapInt_eq]
    push_cast
    omega

set_option maxRecDepth 100000 in
/-- The claim C15 as stated fails for a digit-only string whose value wraps to
a negative number: `9223372036854775809` parses to -9223372036854775807, which
is formatted with a sign that the second parse drops. -/
theorem amount_round_trip_overflow :
    (∀ c ∈ "9223372036854775809".toList, isDigitChar c = true) ∧
      parseAmount "9223372036854775809" = -9223372036854775807 ∧
      formatAmount (parseAmount "9223372036854775809") = "-9223372036854775807" ∧
      parseAmount (formatAmount (parseAmount "9223372036854775809")) = 9223372036854775807 ∧
      parseAmount (formatAmount (parseAmount "9223372036854775809")) ≠
        parseAmount "9223372036854775809" := by
  decide

/-! ## The civil calendar -/

theorem isLeap_iff (y : Int) :
    isLeap y = true ↔ (y % 4 = 0 ∧ (y % 100 ≠ 0 ∨ y % 400 = 0)) := by
  simp [isLeap]

theorem daysSinceEpoch_cycles (c a d e : Int) (ha0 : 0 ≤ a) (ha : a ≤ 3) (hd0 : 0 ≤ d)
    (hd : d ≤ 24) (he0 : 0 ≤ e) (he : e ≤ 3) :
    daysSinceEpoch (400 * c + 100 * a + 4 * d + e + 1) =
      146097 * c + 36524 * a + 1461 * d + 365 * e := by
  unfold daysSinceEpoch
  have h4 : (400 * c + 100 * a + 4 * d + e + 1 - 1) / 4 = 100 * c + 25 * a + d := by omega
  have h100 : (400 * c + 100 * a + 4 * d + e + 1 - 1) / 100 = 4 * c + a := by omega
  have h400 : (400 * c + 100 * a + 4 * d + e + 1 - 1) / 400 = c := by omega
  simp only [h4, h100, h400]
  omega

theorem yearDay_spec (n : Int) :
    daysSinceEpoch (yearDay n).1 + (yearDay n).2 = n ∧ 0 ≤ (yearDay n).2 ∧
      ((yearDay n).2 < 365 ∨ ((yearDay n).2 = 365 ∧ isLeap (yearDay n).1 = true)) := by
  obtain ⟨c, hc⟩ : ∃ c, c = n / 146097 := ⟨_, rfl⟩
  obtain ⟨r, hr⟩ : ∃ r, r = n % 146097 := ⟨_, rfl⟩
  obtain ⟨a, ha⟩ : ∃ a, a = min (r / 36524) 3 := ⟨_, rfl⟩
  obtain ⟨d, hd⟩ : ∃ d, d = (r - 36524 * a) / 1461 := ⟨_, rfl⟩
  obtain ⟨r2, hr2⟩ : ∃ r2, r2 = (r - 36524 * a) % 1461 := ⟨_, rfl⟩
  obtain ⟨e, he⟩ : ∃ e, e = min (r2 / 365) 3 := ⟨_, rfl⟩
  have hy : yearDay n = (400 * c + 100 * a + 4 * d + e + 1, r2 - 365 * e) := by
    simp only [yearDay, ← hc, ← hr, ← ha, ← hd, ← hr2, ← he]
  rw [hy]
  dsimp only
  have hn : n = 146097 * c + r := by omega
  have hr0 : 0 ≤ r ∧ r < 146097 := by omega
  have ha' : 0 ≤ a ∧ a ≤ 3 ∧ 0 ≤ r - 36524 * a ∧ r - 36524 * a ≤ 36524 ∧
      (a < 3 → r - 36524 * a < 36524) := by
    rw [min_def] at ha
    split_ifs at ha <;> omega
  have hd' : 0 ≤ d ∧ d ≤ 24 ∧ r - 36524 * a = 1461 * d + r2 ∧ 0 ≤ r2 ∧ r2 < 1461 := by omega
  have he' : 0 ≤ e ∧ e ≤ 3 ∧ 0 ≤ r2 - 365 * e ∧ r2 - 365 * e ≤ 365 ∧
      (e < 3 → r2 - 365 * e < 365) := by
    rw [min_def] at he
    split_ifs at he <;> omega
  rw [daysSinceEpoch_cycles c a d e ha'.1 ha'.2.1 hd'.1 hd'.2.1 he'.1 he'.2.1]
  refine ⟨by omega, he'.2.2.1, ?_⟩
  by_cases h365 : r2 - 365 * e < 365
  · exact Or.inl h365
  · refine Or.inr ⟨by omega, ?_⟩
    rw [isLeap_iff]
    have he3 : e = 3 := by
      by_contra hne
      exact h365 (he'.2.2.2.2 (by omega))
    subst he3
    refine ⟨by omega, ?_⟩
    by_cases hd24 : d = 24
    · right
      have ha3 : a = 3 := by
        by_contra hne
        have := ha'.2.2.2.2 (by omega)
        omega
      omega
    · left
      omega

theorem dateDays_of_month (Y m D : Int) (h0 : 0 ≤ m) (h11 : m ≤ 11) :
    dateDays Y m D =
      daysSinceEpoch Y + daysBefore m + (if isLeap Y && decide (m ≥ 2) then 1 else 0) + (D - 1) := by
  have h1 : m / 12 = 0 := by omega
  have h2 : m % 12 = m := by omega
  simp only [dateDays, h1, h2, add_zero]

theorem civil_spec (n : Int) :
    1 ≤ (civil n).2.1 ∧ (civil n).2.1 ≤ 12 ∧
      dateDays (civil n).1 ((civil n).2.1 - 1) (civil n).2.2 = n := by
  obtain ⟨hsum, hyd0, hyd⟩ := yearDay_spec n
  rcases hy : yearDay n with ⟨Y, yd⟩
  rw [hy] at hsum hyd0 hyd
  dsimp only at hsum hyd0 hyd
  by_cases hL : isLeap Y = true
  · by_cases h59 : yd = 59
    · have hc : civil n = (Y, 2, 29) := by
        simp [civil, hy, hL, h59]
      rw [hc]
      dsimp only
      refine ⟨by omega, by omega, ?_⟩
      rw [dateDays_of_month Y (2 - 1) 29 (by omega) (by omega)]
      simp [daysBefore]
      omega
    · obtain ⟨ls, hls⟩ : ∃ ls : Int, ls = if yd > 59 then 1 else 0 := ⟨_, rfl⟩
      obtain ⟨q, hq⟩ : ∃ q, q = (yd - ls) / 31 := ⟨_, rfl⟩
      have hday : 0 ≤ yd - ls ∧ yd - ls ≤ 364 := by
        split_ifs at hls <;> omega
      have hq0 : 0 ≤ q ∧ q ≤ 11 := by omega
      have hc : civil n =
          if yd - ls ≥ daysBefore (q + 1) then (Y, q + 2, yd - ls - daysBefore (q + 1) + 1)
          else (Y, q + 1, yd - ls - daysBefore q + 1) := by
        have h59' : ¬ ((yd == 31 + 29 - 1) = true) := by simpa using h59
        simp only [civil, hy, hL, Bool.true_and, h59', if_false, hq, hls]
        simp
      rw [hc]
      obtain ⟨hq0, hq11⟩ := hq0
      interval_cases q <;> simp only [daysBefore] <;> norm_num <;>
        split_ifs <;> dsimp only <;>
        refine ⟨by omega, by omega, ?_⟩ <;>
        (rw [dateDays_of_month _ _ _ (by omega) (by omega)]; simp [daysBefore, hL];
         split_ifs at hls <;> omega)
  · have hLf : isLeap Y = false := by simpa using hL
    obtain ⟨q, hq⟩ : ∃ q, q = yd / 31 := ⟨_, rfl⟩
    have hday : yd ≤ 364 := by
      rcases hyd with h | ⟨_, h⟩
      · omega
      · exact absurd h hL
    have hq0 : 0 ≤ q ∧ q ≤ 11 := by omega
    have hc : civil n =
        if yd ≥ daysBefore (q + 1) then (Y, q + 2, yd - daysBefore (q + 1) + 1)
        else (Y, q + 1, yd - daysBefore q + 1) := by
      simp only [civil, hy, hLf, Bool.false_and, if_false, hq]
      simp
    rw [hc]
    obtain ⟨hq0, hq11⟩ := hq0
    interval_cases q <;> simp only [daysBefore] <;> norm_num <;>
      split_ifs <;> dsimp only <;>
      refine ⟨by omega, by omega, ?_⟩ <;>
      (rw [dateDays_of_month _ _ _ (by omega) (by omega)]; simp [daysBefore, hLf]; omega)

/-! ## The 64-bit arithmetic of `time.Date` -/

theorem wrapUint_eq (n : Int) : wrapUint n = n % 18446744073709551616 := by
  unfold wrapUint
  norm_num

theorem wrapUint_of_range (n : Int) (h1 : 0 ≤ n) (h2 : n < 18446744073709551616) :
    wrapUint n = n := by
  rw [wrapUint_eq]
  omega

/-- Inside its range `norm` changes nothing. -/
theorem norm_id (hi lo base : Int) (h0 : 0 ≤ lo) (h1 : lo < base) : norm hi lo base = (hi, lo) := by
  unfold norm
  rw [if_neg (by omega)]
  dsimp only
  rw [if_neg (by omega)]

/-- The month normalisation of `time.Date` where nothing wraps. -/
theorem norm_twelve (hi lo : Int) (h1 : -4611686018427387904 ≤ hi) (h2 : hi ≤ 4611686018427387904)
    (h3 : -4611686018427387904 ≤ lo) (h4 : lo ≤ 4611686018427387904) :
    norm hi lo 12 = (hi + lo / 12, lo % 12) := by
  unfold norm
  by_cases hneg : lo < 0
  · rw [if_pos hneg]
    dsimp only
    have e1 : wrapInt (-lo) = -lo := wrapInt_of_range _ (by omega) (by omega)
    have e2 : wrapInt (-lo - 1) = -lo - 1 := wrapInt_of_range _ (by omega) (by omega)
    have e3 : wrapInt ((-lo - 1) / 12 + 1) = (-lo - 1) / 12 + 1 :=
      wrapInt_of_range _ (by omega) (by omega)
    have e4 : wrapInt (((-lo - 1) / 12 + 1) * 12) = ((-lo - 1) / 12 + 1) * 12 :=
      wrapInt_of_range _ (by omega) (by omega)
    have e5 : wrapInt (lo + ((-lo - 1) / 12 + 1) * 12) = lo + ((-lo - 1) / 12 + 1) * 12 :=
      wrapInt_of_range _ (by omega) (by omega)
    have e6 : wrapInt (hi - ((-lo - 1) / 12 + 1)) = hi - ((-lo - 1) / 12 + 1) :=
      wrapInt_of_range _ (by omega) (by omega)
    rw [e1, e2, e3, e4, e5, e6]
    rw [if_neg (by omega)]
    refine Prod.ext ?_ ?_ <;> dsimp only <;> omega
  · rw [if_neg hneg]
    dsimp only
    by_cases hge : lo ≥ 12
    · rw [if_pos hge]
      have e4 : wrapInt (lo / 12 * 12) = lo / 12 * 12 :=
        wrapInt_of_range _ (by omega) (by omega)
      have e5 : wrapInt (lo - lo / 12 * 12) = lo - lo / 12 * 12 :=
        wrapInt_of_range _ (by omega) (by omega)
      have e6 : wrapInt (hi + lo / 12) = hi + lo / 12 :=
        wrapInt_of_range _ (by omega) (by omega)
      rw [e4, e5, e6]
      refine Prod.ext ?_ ?_ <;> dsimp only <;> omega
    · rw [if_neg hge]
      refine Prod.ext ?_ ?_ <;> dsimp only <;> omega

/-- From the absolute zero year on, the 64-bit day count of the runtime is the
exact one, counted from the absolute zero year and reduced modulo `2 ^ 64`. -/
theorem daysSinceEpoch64_eq (year : Int) (h1 : absoluteZeroYear ≤ year)
    (h2 : year < 9223372036854775808) :
    daysSinceEpoch64 year = wrapUint (daysSinceEpoch year + absoluteZeroDays) := by
  unfold absoluteZeroYear at h1
  obtain ⟨y, hy⟩ : ∃ y, y = year + 292277022399 := ⟨_, rfl⟩
  obtain ⟨c, hc⟩ : ∃ c, c = y / 400 := ⟨_, rfl⟩
  obtain ⟨a, ha⟩ : ∃ a, a = (y - 400 * c) / 100 := ⟨_, rfl⟩
  obtain ⟨d, hd⟩ : ∃ d, d = (y - 400 * c - 100 * a) / 4 := ⟨_, rfl⟩
  obtain ⟨e, he⟩ : ∃ e, e = y - 400 * c - 100 * a - 4 * d := ⟨_, rfl⟩
  have hw : wrapUint (year - absoluteZeroYear) = y := by
    rw [wrapUint_of_range _ (by unfold absoluteZeroYear; omega)
      (by unfold absoluteZeroYear; omega)]
    unfold absoluteZeroYear
    omega
  have hyear : year = 400 * (c - 730692556) + 100 * a + 4 * d + e + 1 := by omega
  have hcyc := daysSinceEpoch_cycles (c - 730692556) a d e (by omega) (by omega) (by omega)
    (by omega) (by omega) (by omega)
  rw [← hyear] at hcyc
  have hl : daysSinceEpoch64 year = wrapUint (146097 * c + 36524 * a + 1461 * d + 365 * e) := by
    simp only [daysSinceEpoch64, hw, ← hc, ← ha, ← hd, ← he]
  rw [hl, hcyc]
  unfold absoluteZeroDays
  congr 1
  omega

theorem civil_day (n : Int) : 1 ≤ (civil n).2.2 ∧ (civil n).2.2 ≤ 31 := by
  obtain ⟨hsum, hyd0, hyd⟩ := yearDay_spec n
  rcases hy : yearDay n with ⟨Y, yd⟩
  rw [hy] at hsum hyd0 hyd
  dsimp only at hsum hyd0 hyd
  by_cases hL : isLeap Y = true
  · by_cases h59 : yd = 59
    · have hc : civil n = (Y, 2, 29) := by
        simp [civil, hy, hL, h59]
      rw [hc]
      dsimp only
      omega
    · obtain ⟨ls, hls⟩ : ∃ ls : Int, ls = if yd > 59 then 1 else 0 := ⟨_, rfl⟩
      obtain ⟨q, hq⟩ : ∃ q, q = (yd - ls) / 31 := ⟨_, rfl⟩
      have hday : 0 ≤ yd - ls ∧ yd - ls ≤ 364 := by
        split_ifs at hls <;> omega
      have hq0 : 0 ≤ q ∧ q ≤ 11 := by omega
      have hc : civil n =
          if yd - ls ≥ daysBefore (q + 1) then (Y, q + 2, yd - ls - daysBefore (q + 1) + 1)
          else (Y, q + 1, yd - ls - daysBefore q + 1) := by
        have h59' : ¬ ((yd == 31 + 29 - 1) = true) := by simpa using h59
        simp only [civil, hy, hL, Bool.true_and, h59', if_false, hq, hls]
        simp
      rw [hc]
      obtain ⟨hq0, hq11⟩ := hq0
      interval_cases q <;> simp only [daysBefore] <;> norm_num <;>
        split_ifs <;> dsimp only <;> omega
  · have hLf : isLeap Y = false := by simpa using hL
    obtain ⟨q, hq⟩ : ∃ q, q = yd / 31 := ⟨_, rfl⟩
    have hday : yd ≤ 364 := by
      rcases hyd with h | ⟨_, h⟩
      · omega
      · exact absurd h hL
    have hq0 : 0 ≤ q ∧ q ≤ 11 := by omega
    have hc : civil n =
        if yd ≥ daysBefore (q + 1) then (Y, q + 2, yd - daysBefore (q + 1) + 1)
        else (Y, q + 1, yd - daysBefore q + 1) := by
      simp only [civil, hy, hLf, Bool.false_and, if_false, hq]
      simp
    rw [hc]
    obtain ⟨hq0, hq11⟩ := hq0
    interval_cases q <;> simp only [daysBefore] <;> norm_num <;>
      split_ifs <;> dsimp only <;> omega


theorem inRange_iff (t : Time) :
    t.InRange ↔ -9223371966579724800 ≤ t.unixNano / 1000000000 + 62135596800 ∧
      t.unixNano / 1000000000 + 62135596800 < 9223372036854775808 := by
  unfold Time.InRange internalToAbsolute unixToInternal
  norm_num

/-- The absolute count of seconds of an instant in range. -/
theorem abs_eq (t : Time) (ht : t.InRange) :
    t.abs = t.unixNano / 1000000000 + 62135596800 + 9223371966579724800 := by
  obtain ⟨h1, h2⟩ := (inRange_iff t).mp ht
  unfold Time.abs Time.sec unixToInternal internalToAbsolute
  rw [wrapInt_of_range _ (by omega) (by omega), wrapUint_of_range _ (by omega) (by omega)]

/-- The civil date of an instant in range is that of its day number. -/
theorem Date_eq (t : Time) (ht : t.InRange) :
    t.Date = civil (t.unixNano / nanosPerDay + unixEpochDays) := by
  unfold Time.Date
  rw [abs_eq t ht]
  unfold secondsPerDay absoluteZeroDays nanosPerDay unixEpochDays
  congr 1
  omega

/-- The time of day of an instant in range. -/
theorem Clock_spec (t : Time) (ht : t.InRange) :
    0 ≤ t.Clock.1 ∧ t.Clock.1 < 24 ∧ 0 ≤ t.Clock.2.1 ∧ t.Clock.2.1 < 60 ∧
      0 ≤ t.Clock.2.2 ∧ t.Clock.2.2 < 60 ∧
      t.Clock.1 * 3600 + t.Clock.2.1 * 60 + t.Clock.2.2 = t.unixNano / 1000000000 % 86400 := by
  unfold Time.Clock
  rw [abs_eq t ht]
  unfold secondsPerDay
  dsimp only
  omega

theorem daysBefore_bounds (m : Int) (h : m ≤ 11) : 0 ≤ daysBefore m ∧ daysBefore m ≤ 334 := by
  by_cases h0 : m ≤ 0
  · simp [daysBefore, h0]
  · have h1 : 1 ≤ m := by omega
    interval_cases m <;> decide

theorem leapDay_bounds (b : Bool) :
    (0 : Int) ≤ (if b then 1 else 0) ∧ (if b then 1 else 0) ≤ (1 : Int) := by
  cases b <;> simp

/-- The year the day number `n` falls in, within loose bounds. -/
theorem civil_year_bounds (n : Int) (h1 : -106751990353932 ≤ n) (h2 : n ≤ 106751991886463) :
    -292277022400 ≤ (civil n).1 ∧ (civil n).1 ≤ 292277026600 := by
  obtain ⟨hm1, hm12, hd⟩ := civil_spec n
  obtain ⟨hd1, hd31⟩ := civil_day n
  rcases hc : civil n with ⟨Y, M, D⟩
  rw [hc] at hm1 hm12 hd hd1 hd31
  dsimp only at hm1 hm12 hd hd1 hd31 ⊢
  rw [dateDays_of_month Y (M - 1) D (by omega) (by omega)] at hd
  have hb := daysBefore_bounds (M - 1) (by omega)
  have hl := leapDay_bounds (isLeap Y && decide (M - 1 ≥ 2))
  unfold daysSinceEpoch at hd
  dsimp only at hd
  omega

/-- The length of a year. -/
theorem daysSinceEpoch_next (Y : Int) :
    daysSinceEpoch (Y + 1) = daysSinceEpoch Y + 365 + (if isLeap Y then 1 else 0) := by
  unfold daysSinceEpoch
  dsimp only
  by_cases h : isLeap Y = true
  · rw [if_pos h]
    rw [isLeap_iff] at h
    omega
  · rw [if_neg h]
    rw [isLeap_iff] at h
    omega

theorem daysSinceEpoch_mono (a b : Int) (h : a ≤ b) : daysSinceEpoch a ≤ daysSinceEpoch b := by
  unfold daysSinceEpoch
  dsimp only
  omega

/-- A date with its month in the year and its day at most 31 is before the
first of January of the next year. -/
theorem dateDays_lt_next (Y m D : Int) (h0 : 0 ≤ m) (h11 : m ≤ 11) (hD : D ≤ 31) :
    dateDays Y m D < daysSinceEpoch (Y + 1) := by
  rw [dateDays_of_month Y m D h0 h11, daysSinceEpoch_next]
  have hb := daysBefore_bounds m h11
  cases hl : isLeap Y
  · simp
    omega
  · simp
    split_ifs <;> omega

/-- The seconds the runtime computes for a normalised date and time of day:
all of its 64-bit reductions collapse into one. -/
theorem date_seconds (A B L D1 sod : Int)
    (h1 : -9223371966579724800 ≤ (A + B + L + (D1 - 1)) * 86400 + sod)
    (h2 : (A + B + L + (D1 - 1)) * 86400 + sod < 9223372036854775808) :
    wrapInt (wrapUint (wrapUint (wrapUint (wrapUint (wrapUint (wrapUint (A + 106751990353932) + B)
      + L) + wrapUint (wrapInt (wrapInt D1 - 1))) * 86400) + wrapUint sod)
      - 9223371966579724800) = (A + B + L + (D1 - 1)) * 86400 + sod := by
  simp only [wrapInt_eq, wrapUint_eq]
  omega

theorem wrapUint_wrapUint (n : Int) : wrapUint (wrapUint n) = wrapUint n := by
  simp only [wrapUint_eq]
  omega

/-- Where nothing wraps, `AddDate` is the exact calendar shift: the instant is
in range, the year and month shifts are below `2 ^ 61` in absolute value, the
target year is not before the absolute zero year, and the exact result is in
range. -/
theorem AddDate_eq_calendarShift (t : Time) (years months days : Int) (ht : t.InRange)
    (hy1 : -2305843009213693952 < years) (hy2 : years < 2305843009213693952)
    (hm1 : -2305843009213693952 < months) (hm2 : months < 2305843009213693952)
    (hY : absoluteZeroYear ≤ (civil (t.unixNano / nanosPerDay + unixEpochDays)).1 + years +
      ((civil (t.unixNano / nanosPerDay + unixEpochDays)).2.1 - 1 + months) / 12)
    (hr : (calendarShift t years months days).InRange) :
    t.AddDate years months days = calendarShift t years months days := by
  obtain ⟨ht1, ht2⟩ := (inRange_iff t).mp ht
  obtain ⟨hr1, hr2⟩ := (inRange_iff _).mp hr
  have hn1 : -106751990353932 ≤ t.unixNano / nanosPerDay + unixEpochDays := by
    unfold nanosPerDay unixEpochDays
    omega
  have hn2 : t.unixNano / nanosPerDay + unixEpochDays ≤ 106751991886463 := by
    unfold nanosPerDay unixEpochDays
    omega
  obtain ⟨hM1, hM12, _⟩ := civil_spec (t.unixNano / nanosPerDay + unixEpochDays)
  obtain ⟨hD1, hD31⟩ := civil_day (t.unixNano / nanosPerDay + unixEpochDays)
  obtain ⟨hYl, hYu⟩ := civil_year_bounds _ hn1 hn2
  obtain ⟨hh0, hh24, hmi0, hmi60, hs0, hs60, hclock⟩ := Clock_spec t ht
  have hdate := Date_eq t ht
  rcases hc : civil (t.unixNano / nanosPerDay + unixEpochDays) with ⟨Y, M, D⟩
  rcases hk : t.Clock with ⟨hh, mi, ss⟩
  rw [hc] at hM1 hM12 hD1 hD31 hYl hYu hY hdate
  rw [hk] at hh0 hh24 hmi0 hmi60 hs0 hs60 hclock
  dsimp only at hM1 hM12 hD1 hD31 hYl hYu hY hh0 hh24 hmi0 hmi60 hs0 hs60 hclock
  have hns : 0 ≤ t.nsec ∧ t.nsec < 1000000000 := by
    unfold Time.nsec
    omega
  unfold absoluteZeroYear at hY
  have hcs : calendarShift t years months days =
      ⟨(dateDays (Y + years) (M - 1 + months) (D + days) - unixEpochDays) * nanosPerDay +
        t.unixNano % nanosPerDay⟩ := by
    simp only [calendarShift, hc]
  rw [hcs] at hr1 hr2 ⊢
  dsimp only at hr1 hr2
  have e1 : wrapInt (Y + years) = Y + years := wrapInt_of_range _ (by omega) (by omega)
  have e2 : wrapInt (M + months) = M + months := wrapInt_of_range _ (by omega) (by omega)
  have e3 : wrapInt (M + months - 1) = M - 1 + months := by
    rw [wrapInt_of_range _ (by omega) (by omega)]
    omega
  have e4 := norm_twelve (Y + years) (M - 1 + months) (by omega) (by omega) (by omega) (by omega)
  have e5 := norm_id ss t.nsec 1000000000 hns.1 hns.2
  have e6 := norm_id mi ss 60 hs0 hs60
  have e7 := norm_id hh mi 60 hmi0 hmi60
  have e8 := norm_id (wrapInt (D + days)) hh 24 hh0 hh24
  have e9 := daysSinceEpoch64_eq (Y + years + (M - 1 + months) / 12)
    (by unfold absoluteZeroYear; omega) (by omega)
  have hmo : 0 ≤ (M - 1 + months) % 12 ∧ (M - 1 + months) % 12 < 12 := by omega
  have hleap : (decide ((M - 1 + months) % 12 + 1 ≥ 3)) = decide ((M - 1 + months) % 12 ≥ 2) := by
    by_cases h : (M - 1 + months) % 12 ≥ 2
    · rw [decide_eq_true h, decide_eq_true (by omega)]
    · rw [decide_eq_false h, decide_eq_false (by omega)]
  have hl : Time.AddDate t years months days =
      ⟨(wrapInt (wrapUint (wrapUint (wrapUint (wrapUint (wrapUint (wrapUint
          (daysSinceEpoch (Y + years + (M - 1 + months) / 12) + 106751990353932) +
          daysBefore ((M - 1 + months) % 12)) +
          (if isLeap (Y + years + (M - 1 + months) / 12) && decide ((M - 1 + months) % 12 ≥ 2)
            then 1 else 0)) + wrapUint (wrapInt (wrapInt (D + days) - 1))) * 86400) +
          wrapUint (t.unixNano / 1000000000 % 86400)) - 9223371966579724800) - 62135596800) *
        1000000000 + t.nsec⟩ := by
    unfold Time.AddDate
    rw [hdate, hk]
    dsimp only
    unfold PaddleMock.Date
    dsimp only
    rw [e1, e2, e3, e4]
    dsimp only
    rw [e5]
    dsimp only
    rw [e6]
    dsimp only
    rw [e7]
    dsimp only
    rw [e8]
    dsimp only
    rw [e9, hleap, hclock]
    unfold absoluteZeroDays secondsPerDay internalToAbsolute unixToInternal
    have ea : (M - 1 + months) % 12 + 1 - 1 = (M - 1 + months) % 12 := by omega
    rw [ea]
    by_cases hb : (isLeap (Y + years + (M - 1 + months) / 12) &&
        decide ((M - 1 + months) % 12 ≥ 2)) = true
    · rw [if_pos hb, if_pos hb]
    · rw [if_neg hb, if_neg hb]
      rw [add_zero, wrapUint_wrapUint]
  rw [hl]
  have hdd : dateDays (Y + years) (M - 1 + months) (D + days) =
      daysSinceEpoch (Y + years + (M - 1 + months) / 12) + daysBefore ((M - 1 + months) % 12) +
        (if isLeap (Y + years + (M - 1 + months) / 12) && decide ((M - 1 + months) % 12 ≥ 2)
          then 1 else 0) + (D + days - 1) := by
    simp only [dateDays]
  rw [hdd] at hr1 hr2 ⊢
  obtain ⟨A, hA⟩ : ∃ A, A = daysSinceEpoch (Y + years + (M - 1 + months) / 12) := ⟨_, rfl⟩
  obtain ⟨B, hB⟩ : ∃ B, B = daysBefore ((M - 1 + months) % 12) := ⟨_, rfl⟩
  obtain ⟨L, hL⟩ : ∃ L : Int, L = (if isLeap (Y + years + (M - 1 + months) / 12) &&
      decide ((M - 1 + months) % 12 ≥ 2) then 1 else 0) := ⟨_, rfl⟩
  rw [← hA, ← hB, ← hL] at hr1 hr2 ⊢
  unfold nanosPerDay unixEpochDays at hr1 hr2 ⊢
  have hcore := date_seconds A B L (D + days) (t.unixNano / 1000000000 % 86400)
    (by omega) (by omega)
  rw [hcore]
  unfold Time.nsec
  congr 1
  omega

/-! ## Exact calendar shifts -/

/-- Shifting the day field alone moves the instant by whole days. -/
theorem calendarShift_days (t : Time) (d : Int) :
    calendarShift t 0 0 d = ⟨t.unixNano + d * nanosPerDay⟩ := by
  obtain ⟨_, _, hd⟩ := civil_spec (t.unixNano / nanosPerDay + unixEpochDays)
  rcases hc : civil (t.unixNano / nanosPerDay + unixEpochDays) with ⟨Y, M, D⟩
  rw [hc] at hd
  dsimp only at hd
  have hs : dateDays Y (M - 1) (D + d) = dateDays Y (M - 1) D + d := by
    simp only [dateDays]; ring
  have hdiv := Int.ediv_add_emod t.unixNano nanosPerDay
  simp only [calendarShift, hc, add_zero, hs, hd]
  congr 1
  linear_combination hdiv

/-- The year and the month offset of `dateDays` fold into one month count. -/
theorem dateDays_fold (Y M D : Int) : dateDays Y M D = dateDays 0 (12 * Y + M) D := by
  have h1 : (12 * Y + M) / 12 = Y + M / 12 := by omega
  have h2 : (12 * Y + M) % 12 = M % 12 := by omega
  simp only [dateDays, h1, h2, zero_add]

/-- A year has at least 365 days. -/
theorem daysSinceEpoch_succ (Y : Int) : daysSinceEpoch Y + 365 ≤ daysSinceEpoch (Y + 1) := by
  simp only [daysSinceEpoch]
  omega

/-- The first of a month is not after the first of the next month. -/
theorem dateDays_step (K D : Int) : dateDays 0 K D ≤ dateDays 0 (K + 1) D := by
  obtain ⟨Y, hY⟩ : ∃ Y, Y = K / 12 := ⟨_, rfl⟩
  obtain ⟨r, hr⟩ : ∃ r, r = K % 12 := ⟨_, rfl⟩
  have hr0 : 0 ≤ r ∧ r ≤ 11 := by omega
  by_cases h11 : r = 11
  · have h1 : (K + 1) / 12 = Y + 1 := by omega
    have h2 : (K + 1) % 12 = 0 := by omega
    have hs := daysSinceEpoch_succ Y
    simp only [dateDays, zero_add, h1, h2, ← hY, ← hr, h11]
    simp only [daysBefore]
    norm_num
    split_ifs <;> omega
  · have h1 : (K + 1) / 12 = Y := by omega
    have h2 : (K + 1) % 12 = r + 1 := by omega
    simp only [dateDays, zero_add, h1, h2, ← hY, ← hr]
    obtain ⟨hr0, hr11⟩ := hr0
    interval_cases r <;> simp only [daysBefore] <;> norm_num <;> split_ifs <;> omega

/-- Later months start later. -/
theorem dateDays_mono (K D : Int) (j : Nat) : dateDays 0 K D ≤ dateDays 0 (K + j) D := by
  induction j with
  | zero => simp
  | succ j ih =>
    have := dateDays_step (K + j) D
    have e : K + ((j + 1 : Nat) : Int) = K + j + 1 := by push_cast; ring
    rw [e]
    omega

/-- Moving the civil date by years and months that are not negative does not
move an instant backwards. -/
theorem calendarShift_ge (t : Time) (years months : Int) (hy : 0 ≤ years) (hm : 0 ≤ months) :
    t ≤ calendarShift t years months 0 := by
  obtain ⟨_, _, hd⟩ := civil_spec (t.unixNano / nanosPerDay + unixEpochDays)
  rcases hc : civil (t.unixNano / nanosPerDay + unixEpochDays) with ⟨Y, M, D⟩
  rw [hc] at hd
  dsimp only at hd
  have hdiv := Int.ediv_add_emod t.unixNano nanosPerDay
  have hmono := dateDays_mono (12 * Y + (M - 1)) D (12 * years + months).toNat
  have hcast : (((12 * years + months).toNat : Nat) : Int) = 12 * years + months :=
    Int.toNat_of_nonneg (by omega)
  rw [hcast, ← dateDays_fold] at hmono
  have he : 12 * Y + (M - 1) + (12 * years + months) = 12 * (Y + years) + (M - 1 + months) := by
    ring
  rw [he, ← dateDays_fold, hd] at hmono
  show t.unixNano ≤ (calendarShift t years months 0).unixNano
  simp only [calendarShift, hc, add_zero]
  have hpos : (0 : Int) ≤ nanosPerDay := by decide
  nlinarith [mul_le_mul_of_nonneg_right hmono hpos]

/-- The value of the exact day count at the absolute zero year. -/
theorem daysSinceEpoch_absoluteZeroYear : daysSinceEpoch absoluteZeroYear = -106751990353932 := by
  decide

/-- A date whose day number is not before the absolute zero year, with its
month in the year and its day at most 31, is in a year from the absolute zero
year on. -/
theorem year_ge_of_dateDays (Y m D : Int) (h0 : 0 ≤ m) (h11 : m ≤ 11) (hD : D ≤ 31)
    (h : -106751990353932 ≤ dateDays Y m D) : absoluteZeroYear ≤ Y := by
  by_contra hlt
  have h1 := dateDays_lt_next Y m D h0 h11 hD
  have h2 := daysSinceEpoch_mono (Y + 1) absoluteZeroYear (by omega)
  rw [daysSinceEpoch_absoluteZeroYear] at h2
  omega

/-- The year of a date from its day number, within loose bounds. -/
theorem year_le_of_dateDays (Y m D : Int) (h0 : 0 ≤ m) (h11 : m ≤ 11) (hD : 1 ≤ D)
    (h : dateDays Y m D ≤ 106751991886463) : Y ≤ 292277026600 := by
  rw [dateDays_of_month Y m D h0 h11] at h
  have hb := daysBefore_bounds m h11
  have hl := leapDay_bounds (isLeap Y && decide (m ≥ 2))
  unfold daysSinceEpoch at h
  dsimp only at h
  omega

theorem dateDays_norm (Y m D : Int) : dateDays Y m D = dateDays (Y + m / 12) (m % 12) D := by
  have h1 : m % 12 / 12 = 0 := by omega
  have h2 : m % 12 % 12 = m % 12 := by omega
  simp only [dateDays, h1, h2, add_zero]

/-- The target year of a calendar shift by years and months whose exact result
is in range. -/
theorem shift_year_bounds (t : Time) (years months : Int) (ht : t.InRange)
    (hr : (calendarShift t years months 0).InRange) :
    absoluteZeroYear ≤ (civil (t.unixNano / nanosPerDay + unixEpochDays)).1 + years +
        ((civil (t.unixNano / nanosPerDay + unixEpochDays)).2.1 - 1 + months) / 12 ∧
      (civil (t.unixNano / nanosPerDay + unixEpochDays)).1 + years +
        ((civil (t.unixNano / nanosPerDay + unixEpochDays)).2.1 - 1 + months) / 12 ≤
          292277026600 ∧
      -292277022400 ≤ (civil (t.unixNano / nanosPerDay + unixEpochDays)).1 ∧
      (civil (t.unixNano / nanosPerDay + unixEpochDays)).1 ≤ 292277026600 ∧
      1 ≤ (civil (t.unixNano / nanosPerDay + unixEpochDays)).2.1 ∧
      (civil (t.unixNano / nanosPerDay + unixEpochDays)).2.1 ≤ 12 := by
  obtain ⟨ht1, ht2⟩ := (inRange_iff t).mp ht
  obtain ⟨hr1, hr2⟩ := (inRange_iff _).mp hr
  have hn1 : -106751990353932 ≤ t.unixNano / nanosPerDay + unixEpochDays := by
    unfold nanosPerDay unixEpochDays
    omega
  have hn2 : t.unixNano / nanosPerDay + unixEpochDays ≤ 106751991886463 := by
    unfold nanosPerDay unixEpochDays
    omega
  obtain ⟨hM1, hM12, _⟩ := civil_spec (t.unixNano / nanosPerDay + unixEpochDays)
  obtain ⟨hD1, hD31⟩ := civil_day (t.unixNano / nanosPerDay + unixEpochDays)
  obtain ⟨hYl, hYu⟩ := civil_year_bounds _ hn1 hn2
  rcases hc : civil (t.unixNano / nanosPerDay + unixEpochDays) with ⟨Y, M, D⟩
  rw [hc] at hM1 hM12 hD1 hD31 hYl hYu
  dsimp only at hM1 hM12 hD1 hD31 hYl hYu ⊢
  have hcs : calendarShift t years months 0 =
      ⟨(dateDays (Y + years) (M - 1 + months) D - unixEpochDays) * nanosPerDay +
        t.unixNano % nanosPerDay⟩ := by
    simp only [calendarShift, hc, add_zero]
  rw [hcs, dateDays_norm] at hr1 hr2
  dsimp only at hr1 hr2
  have hmo : 0 ≤ (M - 1 + months) % 12 ∧ (M - 1 + months) % 12 ≤ 11 := by omega
  obtain ⟨dd, hdd⟩ : ∃ dd, dd =
    dateDays (Y + years + (M - 1 + months) / 12) ((M - 1 + months) % 12) D := ⟨_, rfl⟩
  rw [← hdd] at hr1 hr2
  unfold nanosPerDay unixEpochDays at hr1 hr2
  have hd1 : -106751990353932 ≤ dd := by omega
  have hd2 : dd ≤ 106751991886463 := by omega
  rw [hdd] at hd1 hd2
  exact ⟨year_ge_of_dateDays _ _ _ hmo.1 hmo.2 hD31 hd1,
    year_le_of_dateDays _ _ _ hmo.1 hmo.2 hD1 hd2, hYl, hYu, hM1, hM12⟩

/-! ## The period calculator -/

theorem calendarShift_zero (t : Time) : calendarShift t 0 0 0 = t := by
  rw [calendarShift_days]
  simp

/-- Where nothing wraps, the day shift of `AddDate` moves the instant by whole
days. -/
theorem AddDate_days (t : Time) (d : Int) (ht : t.InRange)
    (hr : (⟨t.unixNano + d * nanosPerDay⟩ : Time).InRange) :
    t.AddDate 0 0 d = ⟨t.unixNano + d * nanosPerDay⟩ := by
  rw [← calendarShift_days] at hr ⊢
  have hb := shift_year_bounds t 0 0 ht (by rw [calendarShift_zero]; exact ht)
  exact AddDate_eq_calendarShift t 0 0 d ht (by omega) (by omega) (by omega) (by omega) hb.1 hr

/-- Where nothing wraps, the month and year shifts of `AddDate` are the exact
calendar shifts. -/
theorem AddDate_months (t : Time) (years months : Int) (ht : t.InRange)
    (hy1 : -9223372036854775808 ≤ years) (hy2 : years < 9223372036854775808)
    (hm1 : -9223372036854775808 ≤ months) (hm2 : months < 9223372036854775808)
    (h0 : years = 0 ∨ months = 0)
    (hr : (calendarShift t years months 0).InRange) :
    t.AddDate years months 0 = calendarShift t years months 0 := by
  obtain ⟨hb1, hb2, hYl, hYu, hM1, hM12⟩ := shift_year_bounds t years months ht hr
  unfold absoluteZeroYear at hb1
  refine AddDate_eq_calendarShift t years months 0 ht ?_ ?_ ?_ ?_
    (by unfold absoluteZeroYear; exact hb1) hr <;>
  rcases h0 with h0 | h0 <;> subst h0 <;> omega

/-- Where the period fits, `addPeriod` is its reference definition. -/
theorem addPeriod_exact (t : Time) (interval : String) (f : Int)
    (h : PeriodFits t interval f) : addPeriod t interval f = addPeriodRef t interval f := by
  obtain ⟨ht, ⟨hf1, hf2⟩, hr⟩ := h
  norm_num at hf1 hf2
  by_cases hd : interval = "day"
  · subst hd
    have hr' : (⟨t.unixNano + f * nanosPerDay⟩ : Time).InRange := hr
    simp only [addPeriod, addPeriodRef, if_true]
    exact AddDate_days t f ht hr'
  · by_cases hw : interval = "week"
    · subst hw
      have hr' : (⟨t.unixNano + 7 * f * nanosPerDay⟩ : Time).InRange := hr
      have hne : ¬ ("week" = "day") := by decide
      simp only [addPeriod, addPeriodRef, if_true, if_neg hne]
      obtain ⟨ht1, ht2⟩ := (inRange_iff t).mp ht
      obtain ⟨hr1, hr2⟩ := (inRange_iff _).mp hr'
      unfold nanosPerDay at hr1 hr2
      dsimp only at hr1 hr2
      rw [wrapInt_of_range _ (by omega) (by omega)]
      exact AddDate_days t (7 * f) ht hr'
    · by_cases hy : interval = "year"
      · subst hy
        have hr' : (calendarShift t f 0 0).InRange := hr
        have hne : ¬ ("year" = "month") := by decide
        simp only [addPeriod, addPeriodRef, if_neg hd, if_neg hw, if_neg hne, if_true]
        exact AddDate_months t f 0 ht hf1 hf2 (by omega) (by omega) (Or.inr rfl) hr'
      · have hr' : (calendarShift t 0 f 0).InRange := by
          have : addPeriodRef t interval f = calendarShift t 0 f 0 := by
            simp only [addPeriodRef, if_neg hd, if_neg hw, if_neg hy]
          rw [← this]
          exact hr
        have e1 : addPeriod t interval f = t.AddDate 0 f 0 := by
          by_cases hm : interval = "month" <;> simp [addPeriod, hd, hw, hy, hm]
        have e2 : addPeriodRef t interval f = calendarShift t 0 f 0 := by
          simp only [addPeriodRef, if_neg hd, if_neg hw, if_neg hy]
        rw [e1, e2]
        exact AddDate_months t 0 f ht (by omega) (by omega) hf1 hf2 (Or.inl rfl) hr'

/-- The reference definition of the period calculator does not go back for a
frequency that is not negative. -/
theorem addPeriodRef_ge (t : Time) (interval : String) (f : Int) (h0 : 0 ≤ f) :
    t ≤ addPeriodRef t interval f := by
  have hpos : (0 : Int) ≤ nanosPerDay := by decide
  by_cases hd : interval = "day"
  · subst hd
    show t.unixNano ≤ t.unixNano + f * nanosPerDay
    nlinarith [mul_nonneg h0 hpos]
  · by_cases hw : interval = "week"
    · subst hw
      show t.unixNano ≤ t.unixNano + 7 * f * nanosPerDay
      nlinarith [mul_nonneg (show (0 : Int) ≤ 7 * f by omega) hpos]
    · by_cases hy : interval = "year"
      · subst hy
        have : addPeriodRef t "year" f = calendarShift t f 0 0 := by
          simp only [addPeriodRef, if_neg hd, if_neg hw, if_true]
        rw [this]
        exact calendarShift_ge t f 0 h0 (le_refl 0)
      · have : addPeriodRef t interval f = calendarShift t 0 f 0 := by
          simp only [addPeriodRef, if_neg hd, if_neg hw, if_neg hy]
        rw [this]
        exact calendarShift_ge t 0 f (le_refl 0) h0

/-- The period calculator does not go back for a frequency that is not negative
where the period fits. -/
theorem addPeriod_ge (t : Time) (interval : String) (f : Int) (h0 : 0 ≤ f)
    (h : PeriodFits t interval f) : t ≤ addPeriod t interval f := by
  rw [addPeriod_exact t interval f h]
  exact addPeriodRef_ge t interval f h0

/-- C16, as the code has it: for a start instant in the range of the date
arithmetic of `time.Time`, a frequency that is a Go `int` and an interval
string for which the end the reference definition gives is in that range too,
`addPeriod` equals the reference definition: `day` advances by `frequency`
days, `week` by `7 × frequency` days
(`addPeriod(t, week, f) = addPeriod(t, day, 7f)`), `month` by `frequency`
calendar months, `year` by `frequency` calendar years, and every interval
string other than `day`, `week`, `month` and `year`, the empty one included,
gives the month result; the function is total, so no error is possible. -/
theorem addPeriod_eq_ref (t : Time) (interval : String) (f : Int)
    (h : PeriodFits t interval f) :
    addPeriod t interval f = addPeriodRef t interval f ∧
      (interval = "week" →
        (-2 ^ 63 ≤ 7 * f ∧ 7 * f < 2 ^ 63) ∧
          addPeriod t interval f = addPeriod t "day" (7 * f)) ∧
      (interval ≠ "day" → interval ≠ "week" → interval ≠ "year" →
        addPeriod t interval f = addPeriod t "month" f) := by
  refine ⟨addPeriod_exact t interval f h, ?_, ?_⟩
  · intro hw
    subst hw
    obtain ⟨ht, _, hr⟩ := h
    have hr' : (⟨t.unixNano + 7 * f * nanosPerDay⟩ : Time).InRange := hr
    obtain ⟨ht1, ht2⟩ := (inRange_iff t).mp ht
    obtain ⟨hr1, hr2⟩ := (inRange_iff _).mp hr'
    unfold nanosPerDay at hr1 hr2
    dsimp only at hr1 hr2
    have hne : ¬ ("week" = "day") := by decide
    have h7 : -9223372036854775808 ≤ 7 * f ∧ 7 * f < 9223372036854775808 := by omega
    refine ⟨by norm_num; exact h7, ?_⟩
    simp only [addPeriod, if_true, if_neg hne]
    rw [wrapInt_of_range _ h7.1 h7.2]
  · intro hd hw hy
    by_cases hm : interval = "month"
    · rw [hm]
    · simp [addPeriod, hd, hw, hm, hy]

/-- C16 at concrete inputs: two weeks from the sample instant are fourteen
days, and a week is seven days. -/
theorem addPeriod_eq_ref_witness :
    PeriodFits sampleTime "week" 2 ∧
      addPeriod sampleTime "week" 2 = addPeriodRef sampleTime "week" 2 ∧
      ("week" = "week" →
        (-2 ^ 63 ≤ 7 * (2 : Int) ∧ 7 * (2 : Int) < 2 ^ 63) ∧
          addPeriod sampleTime "week" 2 = addPeriod sampleTime "day" (7 * 2)) ∧
      ("week" ≠ "day" → "week" ≠ "week" → "week" ≠ "year" →
        addPeriod sampleTime "week" 2 = addPeriod sampleTime "month" 2) :=
  ⟨by decide, addPeriod_eq_ref sampleTime "week" 2 (by decide)⟩

/-- C16 as stated fails where the 64-bit arithmetic of the program or of
`time.Date` wraps, at the sample instant 2024-01-31T12:00:00Z and frequencies
that are positive Go `int`s: for 2635249153387078802 weeks the product
`7 * frequency` wraps to -2 and the result is two days BEFORE the start; for
`2 ^ 63 - 1` days the day count of `time.Date` wraps and the result is one day
before the start; for `2 ^ 44` weeks the product fits, but the seconds
`time.Date` counts wrap and the result lies in the year -247393661156. None is
what the reference definition gives. -/
theorem addPeriod_wraps :
    sampleTime.InRange ∧
      addPeriod sampleTime "week" 2635249153387078802 =
        ⟨sampleTime.unixNano - 2 * nanosPerDay⟩ ∧
      addPeriod sampleTime "week" 2635249153387078802 ≠
        addPeriodRef sampleTime "week" 2635249153387078802 ∧
      addPeriod sampleTime "day" 9223372036854775807 =
        ⟨sampleTime.unixNano - nanosPerDay⟩ ∧
      addPeriod sampleTime "day" 9223372036854775807 ≠
        addPeriodRef sampleTime "day" 9223372036854775807 ∧
      (-2 ^ 63 ≤ 7 * (17592186044416 : Int) ∧ 7 * (17592186044416 : Int) < 2 ^ 63) ∧
      (addPeriod sampleTime "week" 17592186044416).Date = (-247393661156, 12, 28) ∧
      addPeriod sampleTime "week" 17592186044416 ≠
        addPeriodRef sampleTime "week" 17592186044416 := by
  decide

/-! ## Order of the billing period -/

theorem mapGet_mem {V : Type} (m : List (String × V)) (k : String) (v : V)
    (h : mapGet m k = some v) : (k, v) ∈ m := by
  induction m with
  | nil => simp [mapGet] at h
  | cons hd tl ih =>
    obtain ⟨k', v'⟩ := hd
    by_cases h1 : k' = k
    · simp [mapGet, h1] at h
      simp [h1, h]
    · simp [mapGet, h1] at h
      exact List.mem_cons_of_mem _ (ih h)

theorem mapGet_mapSet_ne {V : Type} (m : List (String × V)) (k id : String) (v : V)
    (hk : k ≠ id) : mapGet (mapSet m k v) id = mapGet m id := by
  induction m with
  | nil => simp [mapSet, mapGet, hk]
  | cons hd tl ih =>
    obtain ⟨k', v'⟩ := hd
    by_cases h1 : k' = k
    · subst h1
      simp [mapSet, mapGet, hk]
    · by_cases h2 : k' = id
      · subst h2
        simp [mapSet, mapGet, h1]
      · simp [mapSet, mapGet, h1, h2, ih]

theorem periodOrdered_of_period (sub : Subscription) (p : BillingPeriodDates)
    (h : sub.CurrentBillingPeriod = some p) (hp : p.StartsAt ≤ p.EndsAt) : PeriodOrdered sub := by
  unfold PeriodOrdered
  rw [h]
  exact hp

theorem periodOrdered_congr (s s' : Subscription)
    (h : s'.CurrentBillingPeriod = s.CurrentBillingPeriod) (hs : PeriodOrdered s) :
    PeriodOrdered s' := by
  unfold PeriodOrdered at hs ⊢
  rw [h]
  exact hs

theorem subOk_congr (s s' : Subscription) (hb : s'.BillingCycle = s.BillingCycle)
    (h : s'.CurrentBillingPeriod = s.CurrentBillingPeriod) (hs : SubOk s) : SubOk s' :=
  ⟨by rw [hb]; exact hs.1, periodOrdered_congr s s' h hs.2⟩

theorem subOk_trialEnded (now : Time) (sub : Subscription) (h : SubOk sub)
    (hf : PeriodFits now sub.BillingCycle.Interval sub.BillingCycle.Frequency) :
    SubOk (trialEnded now sub) :=
  ⟨h.1, periodOrdered_of_period _ _ rfl (addPeriod_ge now _ _ h.1 hf)⟩

theorem subOk_activated (now : Time) (sub : Subscription) (h : SubOk sub)
    (hf : PeriodFits now sub.BillingCycle.Interval sub.BillingCycle.Frequency) :
    SubOk (activated now sub) :=
  ⟨h.1, periodOrdered_of_period _ _ rfl (addPeriod_ge now _ _ h.1 hf)⟩

theorem subOk_resumed (now : Time) (sub : Subscription) (h : SubOk sub)
    (hf : PeriodFits now sub.BillingCycle.Interval sub.BillingCycle.Frequency) :
    SubOk (resumed now sub) :=
  ⟨h.1, periodOrdered_of_period _ _ rfl (addPeriod_ge now _ _ h.1 hf)⟩

theorem subOk_renewed (now : Time) (sub : Subscription) (h : SubOk sub)
    (hf : PeriodFits (prevEndOf now sub) sub.BillingCycle.Interval sub.BillingCycle.Frequency) :
    SubOk (renewed now sub) :=
  ⟨h.1, periodOrdered_of_period _ _ rfl (addPeriod_ge (prevEndOf now sub) _ _ h.1 hf)⟩

theorem subOk_paymentFailed (now : Time) (sub : Subscription) (h : SubOk sub) :
    SubOk (paymentFailed now sub) :=
  subOk_congr sub _ rfl rfl h

theorem subOk_canceledAfterPastDue (now : Time) (sub : Subscription) (h : SubOk sub) :
    SubOk (canceledAfterPastDue now sub) :=
  subOk_congr sub _ rfl rfl h

theorem subOk_initial (env : Env) (w : World) (req : CreateSubscriptionRequest) :
    SubOk (initialSubscription env w req) :=
  ⟨le_refl 0, trivial⟩

theorem subOk_createItem (w : World) (now : Time) (sub sub' : Subscription)
    (item : CreateSubItemReq) (hp : ∀ id price, GetPrice w id = some price → PriceOk price)
    (hfit : ItemFits w now item)
    (hs : SubOk sub) (h : createItem w now sub item = .ok sub') : SubOk sub' := by
  unfold createItem at h
  cases hg : GetPrice w item.PriceID with
  | none => simp [hg] at h
  | some price =>
    obtain ⟨hbc, htp⟩ := hp _ _ hg
    obtain ⟨hftp, hfbc⟩ := hfit price hg
    simp only [hg] at h
    cases ht : price.TrialPeriod with
    | some tp =>
      simp only [ht] at h
      injection h with h
      subst h
      refine ⟨?_,
        periodOrdered_of_period _ _ rfl (addPeriod_ge now _ _ (htp tp ht) (hftp tp ht))⟩
      cases hb : price.BillingCycle with
      | some bc => exact hbc bc hb
      | none => exact hs.1
    | none =>
      simp only [ht] at h
      cases hb : price.BillingCycle with
      | none => simp [hb] at h
      | some bc =>
        simp only [hb] at h
        injection h with h
        subst h
        exact ⟨hbc bc hb,
          periodOrdered_of_period _ _ rfl (addPeriod_ge now _ _ (hbc bc hb) (hfbc ht bc hb))⟩

theorem subOk_createItems (w : World) (now : Time)
    (hp : ∀ id price, GetPrice w id = some price → PriceOk price)
    (items : List CreateSubItemReq) :
    (∀ item ∈ items, ItemFits w now item) →
    ∀ (sub sub' : Subscription), SubOk sub → createItems w now sub items = .ok sub' →
      SubOk sub' := by
  induction items with
  | nil =>
    intro _ sub sub' hs h
    simp only [createItems] at h
    injection h with h
    subst h
    exact hs
  | cons item rest ih =>
    intro hfit sub sub' hs h
    simp only [createItems] at h
    cases hc : createItem w now sub item with
    | error r => simp [hc] at h
    | ok s1 =>
      simp only [hc] at h
      exact ih (fun i hi => hfit i (List.mem_cons_of_mem _ hi)) s1 sub'
        (subOk_createItem w now sub s1 item hp (hfit item (List.mem_cons_self _ _)) hs hc) h

theorem invariant_congr (w w' : World) (hh : w'.heap = w.heap)
    (hs : w'.store.Subscriptions = w.store.Subscriptions)
    (hp : w'.store.Prices = w.store.Prices) (h : Invariant w) : Invariant w' := by
  refine ⟨fun id price hg => h.1 id price ?_, fun id sub hsub => h.2 id sub ?_⟩
  · unfold GetPrice at hg ⊢
    rw [← hp]
    exact hg
  · rw [← storedSub_congr w w' id hh hs]
    exact hsub

theorem invariant_writeSub (w : World) (a : Nat) (s : Subscription) (h : Invariant w)
    (hs : SubOk s) : Invariant (writeSub w a s) := by
  refine ⟨h.1, fun id sub hsub => ?_⟩
  obtain ⟨b, hget, hd⟩ := storedSub_split _ id sub hsub
  have hget' : GetSubscription w id = some b := hget
  have hd' : (w.heap.set a s).get? b = some sub := hd
  by_cases hab : a = b
  · subst hab
    rw [List.get?_eq_getElem?, List.getElem?_set] at hd'
    simp only [if_true] at hd'
    split at hd'
    · injection hd' with hd'
      rw [← hd']
      exact hs
    · cases hd'
  · rw [List.get?_eq_getElem?, List.getElem?_set_ne hab] at hd'
    refine h.2 id sub ?_
    unfold storedSub
    rw [hget']
    show w.heap.get? b = some sub
    rw [List.get?_eq_getElem?]
    exact hd'

theorem deref_writeSub_of (w : World) (a : Nat) (s x : Subscription)
    (h : deref (writeSub w a s) a = some x) : x = s := by
  have h' : (w.heap.set a s).get? a = some x := h
  rw [List.get?_eq_getElem?, List.getElem?_set] at h'
  simp only [if_true] at h'
  split at h'
  · injection h' with h'
    exact h'.symm
  · cases h'

theorem invariant_SetSubscription (w : World) (a : Nat) (s : Subscription) (h : Invariant w)
    (ha : ∀ x, deref w a = some x → SubOk x) : Invariant (SetSubscription w a s) := by
  refine ⟨h.1, fun id sub hsub => ?_⟩
  obtain ⟨b, hget, hd⟩ := storedSub_split _ id sub hsub
  have hd' : deref w b = some sub := hd
  have hget' : mapGet (mapSet w.store.Subscriptions s.ID a) id = some b := hget
  by_cases hid : s.ID = id
  · subst hid
    rw [mapGet_mapSet_same] at hget'
    injection hget' with hget'
    subst hget'
    exact ha sub hd'
  · rw [mapGet_mapSet_ne _ _ _ _ hid] at hget'
    refine h.2 id sub ?_
    unfold storedSub GetSubscription
    rw [hget']
    exact hd'

theorem invariant_allocSub (w : World) (s : Subscription) (h : Invariant w) (hs : SubOk s) :
    Invariant (allocSub w s).2 ∧ ∀ x, deref (allocSub w s).2 w.heap.length = some x → SubOk x := by
  refine ⟨⟨h.1, fun id sub hsub => ?_⟩, fun x hx => ?_⟩
  · obtain ⟨b, hget, hd⟩ := storedSub_split _ id sub hsub
    have hget' : GetSubscription w id = some b := hget
    have hd' : (w.heap ++ [s]).get? b = some sub := hd
    by_cases hb : b < w.heap.length
    · rw [List.get?_eq_getElem?, List.getElem?_append_left hb] at hd'
      refine h.2 id sub ?_
      unfold storedSub
      rw [hget']
      show w.heap.get? b = some sub
      rw [List.get?_eq_getElem?]
      exact hd'
    · rw [List.get?_eq_getElem?, List.getElem?_append_right (by omega)] at hd'
      have hmem := List.getElem?_mem hd'
      simp only [List.mem_singleton] at hmem
      rw [hmem]
      exact hs
  · have hx' : (w.heap ++ [s]).get? w.heap.length = some x := hx
    rw [List.get?_eq_getElem?, List.getElem?_append_right (le_refl _)] at hx'
    have hmem := List.getElem?_mem hx'
    simp only [List.mem_singleton] at hmem
    rw [hmem]
    exact hs

theorem invariant_committed (env : Env) (w : World) (a : Nat) (s : Subscription)
    (h : Invariant w) (hs : SubOk s) : Invariant (committed env w a s) := by
  unfold committed
  refine invariant_SetSubscription _ a s
    (invariant_writeSub _ a s (invariant_congr w _ rfl rfl rfl h) hs) ?_
  intro x hx
  rw [deref_writeSub_of _ a s x hx]
  exact hs

theorem invariant_Fire (env : Env) (w : World) (ty : String) (d : EventData)
    (h : Invariant w) : Invariant (Notifier.Fire env w ty d) :=
  invariant_congr w _ (Fire_heap env w ty d) (by rw [Fire_store]) (by rw [Fire_store]) h

theorem invariant_createTransaction (env : Env) (w : World) (sub : Subscription)
    (origin : String) (h : Invariant w) :
    Invariant (SubscriptionsHandler.createTransaction env w sub origin) :=
  invariant_congr w _ rfl rfl rfl h

theorem invariant_adminCreateTransaction (env : Env) (w : World) (sub : Subscription)
    (origin : String) (h : Invariant w) :
    Invariant (AdminHandler.createTransaction env w sub origin) :=
  invariant_congr w _ rfl rfl rfl h

theorem invariant_createFailedTransaction (env : Env) (w : World) (sub : Subscription)
    (h : Invariant w) : Invariant (AdminHandler.createFailedTransaction env w sub).2 :=
  invariant_congr w _ rfl rfl rfl h

theorem invariant_fireLast (env : Env) (w : World) (sub : Subscription) (h : Invariant w) :
    Invariant (fireLastTransaction env w sub).1 := by
  unfold fireLastTransaction
  split
  · exact h
  · exact invariant_Fire env w _ _ h

/-- The invariant together with the order of the object at one address. -/
theorem invariant_modifySub (w : World) (a : Nat) (f : Subscription → Subscription)
    (hf : ∀ x, SubOk x → SubOk (f x))
    (h : Invariant w ∧ ∀ x, deref w a = some x → SubOk x) :
    Invariant (modifySub w a f) ∧ ∀ x, deref (modifySub w a f) a = some x → SubOk x := by
  unfold modifySub
  cases hd : deref w a with
  | none => exact ⟨h.1, fun x hx => absurd hx (by simp [hd])⟩
  | some s =>
    have hfs := hf s (h.2 s hd)
    refine ⟨invariant_writeSub w a (f s) h.1 hfs, fun x hx => ?_⟩
    rw [deref_writeSub_of _ a (f s) x hx]
    exact hfs

theorem invariant_clock (env : Env) (w : World) (a : Nat)
    (h : Invariant w ∧ ∀ x, deref w a = some x → SubOk x) :
    Invariant (timeNow env w).2 ∧ ∀ x, deref (timeNow env w).2 a = some x → SubOk x :=
  ⟨invariant_congr w _ rfl rfl rfl h.1, h.2⟩

theorem invariant_applyScheduledChange (env : Env) (w : World) (a : Nat)
    (sc : ScheduledChangeReq) (h : Invariant w ∧ ∀ x, deref w a = some x → SubOk x) :
    Invariant (applyScheduledChange env w a sc) ∧
      ∀ x, deref (applyScheduledChange env w a sc) a = some x → SubOk x := by
  unfold applyScheduledChange
  split
  · exact invariant_modifySub _ a _ (fun x hx => subOk_congr x _ rfl rfl hx)
      (invariant_clock env w a h)
  · split
    · exact invariant_modifySub _ a _ (fun x hx => subOk_congr x _ rfl rfl hx)
        (invariant_clock env w a h)
    · split
      · refine invariant_modifySub _ a _ (fun x hx => ?_) h
        dsimp only
        split
        · exact subOk_congr x _ rfl rfl hx
        · exact subOk_congr x _ rfl rfl hx
      · exact h

theorem invariant_finishUpdate (env : Env) (w : World) (a : Nat)
    (h : Invariant w ∧ ∀ x, deref w a = some x → SubOk x) :
    Invariant (finishUpdate env w a).1 := by
  have h1 := invariant_modifySub (timeNow env w).2 a
    (fun sub => { sub with UpdatedAt := (timeNow env w).1 })
    (fun x hx => subOk_congr x _ rfl rfl hx) (invariant_clock env w a h)
  unfold finishUpdate
  dsimp only
  split
  · exact h1.1
  · exact invariant_Fire env _ _ _ (invariant_SetSubscription _ a _ h1.1 h1.2)

theorem storedSub_of (w : World) (id : String) (a : Nat) (sub : Subscription)
    (hget : GetSubscription w id = some a) (hd : deref w a = some sub) :
    storedSub w id = some sub := by
  unfold storedSub
  rw [hget]
  exact hd

theorem invariant_at (w : World) (id : String) (a : Nat) (h : Invariant w)
    (hget : GetSubscription w id = some a) : ∀ x, deref w a = some x → SubOk x := by
  intro x hx
  refine h.2 id x ?_
  unfold storedSub
  rw [hget]
  exact hx

theorem invariant_create (env : Env) (w : World) (req : CreateSubscriptionRequest)
    (h : Invariant w) (hfit : ∀ item ∈ req.Items, ItemFits w (env.clock w.clockReads) item) :
    Invariant (SubscriptionsHandler.create env w req).1 := by
  by_cases hne : req.CustomerID = "" ∨ req.Items.length = 0
  · unfold SubscriptionsHandler.create
    rw [if_pos hne]
    exact h
  · cases hcust : GetCustomer w req.CustomerID with
    | none =>
      unfold SubscriptionsHandler.create
      rw [if_neg hne]
      simp only [hcust]
      exact h
    | some c =>
      have hstart : Invariant (createStart env w) := invariant_congr w _ rfl rfl rfl h
      cases hitems : createItems (createStart env w) (env.clock w.clockReads)
          (initialSubscription env w req) req.Items with
      | error r =>
        rw [create_error_run env w req c r hne hcust hitems]
        exact hstart
      | ok sub =>
        rw [create_ok_run env w req c sub hne hcust hitems]
        have hsub : SubOk sub :=
          subOk_createItems (createStart env w) (env.clock w.clockReads) hstart.1 req.Items
            (fun item hi => hfit item hi) (initialSubscription env w req) sub
            (subOk_initial env w req) hitems
        have ha := invariant_allocSub (createStart env w) sub hstart hsub
        exact invariant_Fire env _ _ _ (invariant_createTransaction env _ _ _
          (invariant_SetSubscription _ _ sub ha.1 ha.2))

theorem invariant_activate (env : Env) (w : World) (id : String) (h : Invariant w)
    (hfit : ∀ sub, storedSub w id = some sub →
      PeriodFits (env.clock w.clockReads) sub.BillingCycle.Interval sub.BillingCycle.Frequency) :
    Invariant (SubscriptionsHandler.activate env w id).1 := by
  cases hg : GetSubscription w id with
  | none =>
    unfold SubscriptionsHandler.activate
    simp only [hg]
    exact h
  | some a =>
    cases hd : deref w a with
    | none =>
      unfold SubscriptionsHandler.activate
      simp only [hg, hd]
      exact h
    | some sub =>
      by_cases hst : sub.Status = "trialing"
      · rw [activate_trialing_run env w id a sub hg hd hst]
        exact invariant_Fire env _ _ _ (invariant_createTransaction env _ _ _
          (invariant_committed env w a _ h (subOk_activated _ sub (invariant_at w id a h hg sub hd)
            (hfit sub (storedSub_of w id a sub hg hd)))))
      · unfold SubscriptionsHandler.activate
        simp only [hg, hd]
        rw [if_pos hst]
        exact h

theorem invariant_charge (env : Env) (w : World) (id : String) (req : ChargeRequest)
    (h : Invariant w) : Invariant (SubscriptionsHandler.charge env w id req).1 := by
  unfold SubscriptionsHandler.charge
  split
  · exact h
  · split
    · exact h
    · dsimp only
      split
      · exact invariant_congr w _ rfl rfl rfl h
      · exact invariant_Fire env _ _ _ (invariant_congr w _ rfl rfl rfl h)

theorem invariant_update (env : Env) (w : World) (id : String) (req : UpdateSubscriptionRequest)
    (h : Invariant w) : Invariant (SubscriptionsHandler.update env w id req).1 := by
  unfold SubscriptionsHandler.update
  cases hg : GetSubscription w id with
  | none => exact h
  | some a =>
    simp only [hg]
    cases hd : deref w a with
    | none => exact h
    | some sub0 =>
      simp only [hd]
      have h1 : Invariant (match req.ScheduledChange with
            | some sc => applyScheduledChange env w a sc
            | none => w) ∧
          ∀ x, deref (match req.ScheduledChange with
            | some sc => applyScheduledChange env w a sc
            | none => w) a = some x → SubOk x := by
        split
        · exact invariant_applyScheduledChange env w a _ ⟨h, invariant_at w id a h hg⟩
        · exact ⟨h, invariant_at w id a h hg⟩
      have h2 : Invariant (match req.CustomData with
            | some cd => modifySub (match req.ScheduledChange with
                | some sc => applyScheduledChange env w a sc
                | none => w) a (fun sub => { sub with CustomData := cd })
            | none => (match req.ScheduledChange with
                | some sc => applyScheduledChange env w a sc
                | none => w)) ∧
          ∀ x, deref (match req.CustomData with
            | some cd => modifySub (match req.ScheduledChange with
                | some sc => applyScheduledChange env w a sc
                | none => w) a (fun sub => { sub with CustomData := cd })
            | none => (match req.ScheduledChange with
                | some sc => applyScheduledChange env w a sc
                | none => w)) a = some x → SubOk x := by
        split
        · exact invariant_modifySub _ a _ (fun x hx => subOk_congr x _ rfl rfl hx) h1
        · exact h1
      split
      · split
        · exact (invariant_clock env _ a h2).1
        · exact invariant_finishUpdate env _ a
            (invariant_modifySub _ a _ (fun x hx => subOk_congr x _ rfl rfl hx)
              (invariant_clock env _ a h2))
      · exact invariant_finishUpdate env _ a h2

theorem invariant_advanceTime (env : Env) (w : World) (id failParam : String)
    (h : Invariant w)
    (hfit : ∀ sub, storedSub w id = some sub → SubFits (env.clock w.clockReads) sub) :
    Invariant (AdminHandler.advanceTime env w id failParam).1 := by
  cases hg : GetSubscription w id with
  | none =>
    unfold AdminHandler.advanceTime
    simp only [hg]
    exact h
  | some a =>
    cases hd : deref w a with
    | none =>
      unfold AdminHandler.advanceTime
      simp only [hg, hd]
      exact h
    | some sub =>
      have hs : SubOk sub := invariant_at w id a h hg sub hd
      obtain ⟨hf1, hf2⟩ := hfit sub (storedSub_of w id a sub hg hd)
      by_cases h1 : sub.Status = "trialing"
      · rw [advanceTime_trialing_run env w id failParam a sub hg hd h1]
        exact invariant_fireLast env _ _ (invariant_Fire env _ _ _
          (invariant_adminCreateTransaction env _ _ _
            (invariant_committed env w a _ h (subOk_trialEnded _ sub hs hf1))))
      · by_cases h2 : sub.Status = "active"
        · by_cases hf : failParam = "true"
          · rw [advanceTime_failed_run env w id failParam a sub hg hd h2 hf]
            exact invariant_Fire env _ _ _ (invariant_Fire env _ _ _
              (invariant_createFailedTransaction env _ _
                (invariant_committed env w a _ h (subOk_paymentFailed _ sub hs))))
          · rw [advanceTime_renew_run env w id failParam a sub hg hd h2 hf]
            exact invariant_fireLast env _ _ (invariant_Fire env _ _ _
              (invariant_adminCreateTransaction env _ _ _
                (invariant_committed env w a _ h (subOk_renewed _ sub hs hf2))))
        · by_cases h3 : sub.Status = "past_due"
          · rw [advanceTime_pastDue_run env w id failParam a sub hg hd h3]
            exact invariant_Fire env _ _ _
              (invariant_committed env w a _ h (subOk_canceledAfterPastDue _ sub hs))
          · by_cases h4 : sub.Status = "paused"
            · rw [advanceTime_paused_run env w id failParam a sub hg hd h4]
              exact invariant_Fire env _ _ _
                (invariant_committed env w a _ h (subOk_resumed _ sub hs hf1))
            · rw [advanceTime_other_run env w id failParam a sub hg hd h1 h2 h3 h4]
              exact invariant_congr w _ rfl rfl rfl h

theorem invariant_sampleWorld (status : String) : Invariant (sampleWorld status) := by
  refine ⟨fun id price hg => ?_, fun id sub hsub => ?_⟩
  · have hmem := mapGet_mem _ _ _ hg
    simp only [sampleWorld, List.mem_cons, Prod.mk.injEq, List.mem_singleton, List.not_mem_nil,
      or_false] at hmem
    rcases hmem with ⟨_, rfl⟩ | ⟨_, rfl⟩ | ⟨_, rfl⟩
    · refine ⟨fun bc hbc => ?_, fun tp htp => ?_⟩
      · cases hbc; decide
      · cases htp; decide
    · refine ⟨fun bc hbc => ?_, fun tp htp => ?_⟩
      · cases hbc; decide
      · cases htp
    · refine ⟨fun bc hbc => ?_, fun tp htp => ?_⟩
      · cases hbc
      · cases htp
  · obtain ⟨a, hget, hd⟩ := storedSub_split _ id sub hsub
    have hmem := mapGet_mem _ _ _ hget
    simp only [sampleWorld, List.mem_singleton, Prod.mk.injEq] at hmem
    obtain ⟨_, rfl⟩ := hmem
    have hd' : some (sampleSub status) = some sub := hd
    injection hd' with hd'
    subst hd'
    refine ⟨?_, ?_⟩
    · show (0 : Int) ≤ 1
      decide
    · show sampleTime ≤ (⟨1707912000000000000⟩ : Time)
      decide

/-- The period ends `AdvanceTime` may compute for the subscription of the
sample store fit. -/
theorem sampleWorld_fits (status : String) :
    ∀ sub, storedSub (sampleWorld status) "sub_a" = some sub →
      SubFits (sampleEnv.clock (sampleWorld status).clockReads) sub := by
  intro sub hsub
  have hd : some (sampleSub status) = some sub := hsub
  injection hd with hd
  subst hd
  show PeriodFits sampleTime "month" 1 ∧ PeriodFits (⟨1707912000000000000⟩ : Time) "month" 1
  decide

/-- C12, as the code has it: `Create` and every lifecycle transition
(`Activate`, `Update`, `Charge`, every branch of `AdvanceTime`, whatever the
request and whether it is accepted or rejected) preserve the state invariant
that every stored subscription whose `current_billing_period` is set has
`starts_at ≤ ends_at`, given that every billing-cycle and trial-period
frequency of the catalogue and of the stored subscriptions is not negative (so
in particular when it is positive) and that the period ends the transition
computes fit: the start instant is in the range of the date arithmetic of
`time.Time`, the frequency is a Go `int`, and the end the reference definition
of the period calculator gives is in that range too. `Create` computes a period
end from now for each requested item, `Activate` one billing cycle from now,
`AdvanceTime` one billing cycle from now or from the end of the current period,
`Update` and `Charge` none. The frequency condition is itself preserved. -/
theorem billing_period_ordered (env : Env) (w : World) (h : Invariant w) :
    (∀ req, (∀ item ∈ req.Items, ItemFits w (env.clock w.clockReads) item) →
      Invariant (SubscriptionsHandler.create env w req).1) ∧
      (∀ id,
        (∀ sub, storedSub w id = some sub →
          PeriodFits (env.clock w.clockReads) sub.BillingCycle.Interval
            sub.BillingCycle.Frequency) →
        Invariant (SubscriptionsHandler.activate env w id).1) ∧
      (∀ id req, Invariant (SubscriptionsHandler.update env w id req).1) ∧
      (∀ id req, Invariant (SubscriptionsHandler.charge env w id req).1) ∧
      (∀ id failParam,
        (∀ sub, storedSub w id = some sub → SubFits (env.clock w.clockReads) sub) →
        Invariant (AdminHandler.advanceTime env w id failParam).1) :=
  ⟨fun req hfit => invariant_create env w req h hfit,
    fun id hfit => invariant_activate env w id h hfit,
    fun id req => invariant_update env w id req h, fun id req => invariant_charge env w id req h,
    fun id failParam hfit => invariant_advanceTime env w id failParam h hfit⟩

/-- C12 at a concrete input: the renewal of the active subscription of the
sample store. -/
theorem billing_period_ordered_witness :
    Invariant (sampleWorld "active") ∧
      SubFits sampleTime (sampleSub "active") ∧
      Invariant (AdminHandler.advanceTime sampleEnv (sampleWorld "active") "sub_a" "").1 :=
  ⟨invariant_sampleWorld "active", by decide,
    (billing_period_ordered sampleEnv (sampleWorld "active")
      (invariant_sampleWorld "active")).2.2.2.2 "sub_a" "" (sampleWorld_fits "active")⟩

/-- The subscription of the sample store, trialing and billed by a cycle of
positive frequency at which the period calculator goes back from the sample
instant: every frequency is positive and every stored billing period ordered,
yet `Activate` stores a billing period that ends before it starts. -/
theorem cycleWorld_disordered (bc : BillingCycle) (hpos : 0 < bc.Frequency)
    (hlt : ¬ sampleTime ≤ addPeriod sampleTime bc.Interval bc.Frequency) :
    FrequenciesPositive (cycleWorld bc) ∧
      (∀ id sub, storedSub (cycleWorld bc) id = some sub → PeriodOrdered sub) ∧
      ∃ sub,
        storedSub (SubscriptionsHandler.activate sampleEnv (cycleWorld bc) "sub_a").1 "sub_a" =
          some sub ∧
        sub.CurrentBillingPeriod =
          some ⟨sampleTime, addPeriod sampleTime bc.Interval bc.Frequency⟩ ∧
        ¬ PeriodOrdered sub := by
  have hstored : ∀ id sub, storedSub (cycleWorld bc) id = some sub →
      sub = { sampleSub "trialing" with BillingCycle := bc } := by
    intro id sub hsub
    obtain ⟨a, hget, hd⟩ := storedSub_split _ id sub hsub
    have hmem := mapGet_mem _ _ _ hget
    simp only [cycleWorld, sampleWorld, List.mem_singleton, Prod.mk.injEq] at hmem
    obtain ⟨_, rfl⟩ := hmem
    have hd' : some ({ sampleSub "trialing" with BillingCycle := bc } : Subscription) =
        some sub := hd
    injection hd' with hd'
    exact hd'.symm
  refine ⟨⟨fun id price hg => ?_, fun id sub hsub => ?_⟩, fun id sub hsub => ?_, ?_⟩
  · have hmem := mapGet_mem _ _ _ hg
    simp only [cycleWorld, sampleWorld, List.mem_cons, Prod.mk.injEq, List.mem_singleton,
      List.not_mem_nil, or_false] at hmem
    rcases hmem with ⟨_, rfl⟩ | ⟨_, rfl⟩ | ⟨_, rfl⟩
    · refine ⟨fun bc hbc => ?_, fun tp htp => ?_⟩
      · cases hbc; decide
      · cases htp; decide
    · refine ⟨fun bc hbc => ?_, fun tp htp => ?_⟩
      · cases hbc; decide
      · cases htp
    · refine ⟨fun bc hbc => ?_, fun tp htp => ?_⟩
      · cases hbc
      · cases htp
  · rw [hstored id sub hsub]
    exact hpos
  · rw [hstored id sub hsub]
    show sampleTime ≤ (⟨1707912000000000000⟩ : Time)
    decide
  · refine ⟨activated sampleTime { sampleSub "trialing" with BillingCycle := bc }, ?_, rfl, ?_⟩
    · rw [activate_trialing_run sampleEnv (cycleWorld bc) "sub_a" 0 _ rfl rfl rfl]
      rw [storedSub_Fire, ← createTransaction_eq, storedSub_createTransaction]
      exact storedSub_committed sampleEnv (cycleWorld bc) "sub_a" 0 _ _ rfl rfl
    · exact hlt

set_option maxRecDepth 100000 in
/-- C12 as stated fails: with positive frequencies everywhere and every stored
billing period ordered, `Activate` on a trialing subscription billed every
`2 ^ 63 - 1` days stores a billing period that ends one day before it starts,
because the day count of `time.Date` wraps in 64-bit arithmetic; and on one
billed every 2635249153387078802 weeks a billing period that ends two days
before it starts, because `7 * frequency` wraps to -2. -/
theorem billing_period_disordered_by_overflow :
    (FrequenciesPositive (cycleWorld ⟨"day", 9223372036854775807⟩) ∧
      (∀ id sub, storedSub (cycleWorld ⟨"day", 9223372036854775807⟩) id = some sub →
        PeriodOrdered sub) ∧
      ∃ sub,
        storedSub (SubscriptionsHandler.activate sampleEnv
          (cycleWorld ⟨"day", 9223372036854775807⟩) "sub_a").1 "sub_a" = some sub ∧
        sub.CurrentBillingPeriod =
          some ⟨sampleTime, ⟨sampleTime.unixNano - nanosPerDay⟩⟩ ∧
        ¬ PeriodOrdered sub) ∧
    (FrequenciesPositive (cycleWorld ⟨"week", 2635249153387078802⟩) ∧
      (∀ id sub, storedSub (cycleWorld ⟨"week", 2635249153387078802⟩) id = some sub →
        PeriodOrdered sub) ∧
      ∃ sub,
        storedSub (SubscriptionsHandler.activate sampleEnv
          (cycleWorld ⟨"week", 2635249153387078802⟩) "sub_a").1 "sub_a" = some sub ∧
        sub.CurrentBillingPeriod =
          some ⟨sampleTime, ⟨sampleTime.unixNano - 2 * nanosPerDay⟩⟩ ∧
        ¬ PeriodOrdered sub) := by
  have e1 : addPeriod sampleTime "day" 9223372036854775807 =
      ⟨sampleTime.unixNano - nanosPerDay⟩ := by decide
  have e2 : addPeriod sampleTime "week" 2635249153387078802 =
      ⟨sampleTime.unixNano - 2 * nanosPerDay⟩ := by decide
  have h1 := cycleWorld_disordered ⟨"day", 9223372036854775807⟩ (by decide)
    (by rw [e1]; decide)
  have h2 := cycleWorld_disordered ⟨"week", 2635249153387078802⟩ (by decide)
    (by rw [e2]; decide)
  rw [e1] at h1
  rw [e2] at h2
  exact ⟨h1, h2⟩


/-! ## Faults of Create -/

/-- C30 (the code departs from the claim): a create request that passes
validation (known customer, one item, its price id resolved) for a price that
declares neither a trial period nor a billing cycle does not complete: the
handler faults on the nil billing cycle in the branch without trial, and
nothing is stored. -/
theorem create_faults_on_one_time_price :
    (∃ c, GetCustomer (sampleWorld "active") "ctm_a" = some c) ∧
      GetPrice (sampleWorld "active") "pri_once" = some oneTimePrice ∧
      oneTimePrice.TrialPeriod = none ∧ oneTimePrice.BillingCycle = none ∧
      (SubscriptionsHandler.create sampleEnv (sampleWorld "active")
          ⟨"ctm_a", [⟨"pri_once", 1⟩], "", "", none⟩).2 =
        .fault "nil pointer dereference: price.BillingCycle" ∧
      (SubscriptionsHandler.create sampleEnv (sampleWorld "active")
          ⟨"ctm_a", [⟨"pri_once", 1⟩], "", "", none⟩).1.store =
        (sampleWorld "active").store :=
  ⟨⟨_, rfl⟩, by decide⟩

/-! ## Item quantities -/

theorem createItem_quantities (w : World) (now : Time) (sub sub' : Subscription)
    (item : CreateSubItemReq) (h : createItem w now sub item = .ok sub') :
    itemQuantities sub' = itemQuantities sub ++ [defaultQty item.Quantity] := by
  unfold createItem at h
  cases hg : GetPrice w item.PriceID with
  | none => simp [hg] at h
  | some price =>
    simp only [hg] at h
    cases ht : price.TrialPeriod with
    | some tp =>
      simp only [ht] at h
      injection h with h
      subst h
      cases hb : price.BillingCycle <;> simp [itemQuantities]
    | none =>
      simp only [ht] at h
      cases hb : price.BillingCycle with
      | none => simp [hb] at h
      | some bc =>
        simp only [hb] at h
        injection h with h
        subst h
        simp [itemQuantities]

theorem createItems_quantities (w : World) (now : Time) (items : List CreateSubItemReq) :
    ∀ (sub sub' : Subscription), createItems w now sub items = .ok sub' →
      itemQuantities sub' = itemQuantities sub ++ requestedQuantities items := by
  induction items with
  | nil =>
    intro sub sub' h
    simp only [createItems] at h
    injection h with h
    subst h
    simp [requestedQuantities]
  | cons item rest ih =>
    intro sub sub' h
    simp only [createItems] at h
    cases hc : createItem w now sub item with
    | error r => simp [hc] at h
    | ok s1 =>
      simp only [hc] at h
      rw [ih s1 sub' h, createItem_quantities w now sub s1 item hc]
      simp [requestedQuantities]

theorem createItems_error_kind (w : World) (now : Time) (items : List CreateSubItemReq) :
    ∀ (sub : Subscription) (r : Result), createItems w now sub items = .error r →
      ∀ n s, r ≠ .ok n s := by
  induction items with
  | nil =>
    intro sub r h
    simp [createItems] at h
  | cons item rest ih =>
    intro sub r h
    simp only [createItems] at h
    cases hc : createItem w now sub item with
    | ok s1 =>
      simp only [hc] at h
      exact ih s1 r h
    | error r1 =>
      simp only [hc] at h
      injection h with h
      subst h
      unfold createItem at hc
      cases hg : GetPrice w item.PriceID with
      | none =>
        simp only [hg] at hc
        injection hc with hc
        subst hc
        intro n s hns
        cases hns
      | some price =>
        simp only [hg] at hc
        cases ht : price.TrialPeriod with
        | some tp => simp [ht] at hc
        | none =>
          simp only [ht] at hc
          cases hb : price.BillingCycle with
          | some bc => simp [hb] at hc
          | none =>
            simp only [hb] at hc
            injection hc with hc
            subst hc
            intro n s hns
            cases hns

theorem updateItems_quantities (w : World) (now : Time) (status : String)
    (items : List CreateSubItemReq) :
    ∀ (acc l : List SubscriptionItem), updateItems w now status acc items = .ok l →
      l.map (fun it => it.Quantity) =
        acc.map (fun it => it.Quantity) ++ requestedQuantities items := by
  induction items with
  | nil =>
    intro acc l h
    simp only [updateItems] at h
    injection h with h
    subst h
    simp [requestedQuantities]
  | cons item rest ih =>
    intro acc l h
    simp only [updateItems] at h
    cases hg : GetPrice w item.PriceID with
    | none => simp [hg] at h
    | some price =>
      simp only [hg] at h
      rw [ih _ l h]
      simp [requestedQuantities]

theorem updateItems_error_kind (w : World) (now : Time) (status : String)
    (items : List CreateSubItemReq) :
    ∀ (acc : List SubscriptionItem) (r : Result), updateItems w now status acc items = .error r →
      ∀ n s, r ≠ .ok n s := by
  induction items with
  | nil =>
    intro acc r h
    simp [updateItems] at h
  | cons item rest ih =>
    intro acc r h
    simp only [updateItems] at h
    cases hg : GetPrice w item.PriceID with
    | none =>
      simp only [hg] at h
      injection h with h
      subst h
      intro n s hns
      cases hns
    | some price =>
      simp only [hg] at h
      exact ih _ r h

theorem defaultQty_pos (q : Int) (h : 0 ≤ q) : 1 ≤ defaultQty q := by
  unfold defaultQty
  split <;> omega

theorem requestedQuantities_pos (items : List CreateSubItemReq)
    (h : ∀ item ∈ items, 0 ≤ item.Quantity) : ∀ q ∈ requestedQuantities items, 1 ≤ q := by
  intro q hq
  simp only [requestedQuantities, List.mem_map] at hq
  obtain ⟨item, hi, rfl⟩ := hq
  exact defaultQty_pos _ (h item hi)

/-- The subscription that an accepted create request returns and stores carries
the requested quantities. -/
theorem create_quantities (env : Env) (w : World) (req : CreateSubscriptionRequest)
    (n : Nat) (sub : Subscription) (h : (SubscriptionsHandler.create env w req).2 = .ok n sub) :
    itemQuantities sub = requestedQuantities req.Items ∧
      storedSub (SubscriptionsHandler.create env w req).1 sub.ID = some sub := by
  by_cases hne : req.CustomerID = "" ∨ req.Items.length = 0
  · unfold SubscriptionsHandler.create at h
    rw [if_pos hne] at h
    cases h
  · cases hcust : GetCustomer w req.CustomerID with
    | none =>
      unfold SubscriptionsHandler.create at h
      rw [if_neg hne] at h
      simp only [hcust] at h
      cases h
    | some c =>
      cases hitems : createItems (createStart env w) (env.clock w.clockReads)
          (initialSubscription env w req) req.Items with
      | error r =>
        rw [create_error_run env w req c r hne hcust hitems] at h
        exact absurd h (createItems_error_kind _ _ _ _ r hitems n sub)
      | ok s =>
        rw [create_ok_run env w req c s hne hcust hitems] at h ⊢
        injection h with _ h2
        subst h2
        refine ⟨?_, ?_⟩
        · rw [createItems_quantities _ _ _ _ _ hitems]
          simp [itemQuantities, initialSubscription]
        · rw [storedSub_Fire, storedSub_subCreateTransaction]
          exact storedSub_createStored env w s

theorem deref_writeSub_ne (w : World) (a b : Nat) (s : Subscription) (h : b ≠ a) :
    deref (writeSub w a s) b = deref w b := by
  show (w.heap.set a s).get? b = w.heap.get? b
  rw [List.get?_eq_getElem?, List.get?_eq_getElem?, List.getElem?_set_ne (Ne.symm h)]

theorem deref_modifySub_ne (w : World) (a b : Nat) (f : Subscription → Subscription)
    (h : b ≠ a) : deref (modifySub w a f) b = deref w b := by
  unfold modifySub
  split
  · exact deref_writeSub_ne w a b _ h
  · rfl

theorem deref_applyScheduledChange_ne (env : Env) (w : World) (a b : Nat)
    (sc : ScheduledChangeReq) (h : b ≠ a) :
    deref (applyScheduledChange env w a sc) b = deref w b := by
  unfold applyScheduledChange
  split
  · exact deref_modifySub_ne _ a b _ h
  · split
    · exact deref_modifySub_ne _ a b _ h
    · split
      · exact deref_modifySub_ne _ a b _ h
      · rfl

/-- The run of `SubscriptionsHandler.update` on a stored subscription: after
the scheduled-change switch and the custom-data write, which touch the object
at `a` only and keep its lifecycle fields, the handler continues with the item
replacement or goes straight to its tail. -/
theorem update_run (env : Env) (w : World) (id : String) (req : UpdateSubscriptionRequest)
    (a : Nat) (sub : Subscription) (hget : GetSubscription w id = some a)
    (hsub : deref w a = some sub) :
    ∃ (w2 : World) (s2 : Subscription),
      w2.store = w.store ∧ deref w2 a = some s2 ∧
      SameLifecycle
        (match req.ScheduledChange with
          | some sc => scheduledChangeApplied (env.clock w.clockReads) sc sub
          | none => sub) s2 ∧
      (∀ b, b ≠ a → deref w2 b = deref w b) ∧
      SubscriptionsHandler.update env w id req =
        if req.Items.length > 0 then
          match updateItems (timeNow env w2).2 (timeNow env w2).1 s2.Status [] req.Items with
          | .error r => ((timeNow env w2).2, r)
          | .ok newItems =>
            finishUpdate env
              (modifySub (timeNow env w2).2 a (fun sub => { sub with Items := newItems })) a
        else finishUpdate env w2 a := by
  obtain ⟨w1, hw1, hst1, hd1, hne1⟩ : ∃ w1 : World,
      w1 = (match req.ScheduledChange with
        | some sc => applyScheduledChange env w a sc
        | none => w) ∧ w1.store = w.store ∧
      deref w1 a = some (match req.ScheduledChange with
        | some sc => scheduledChangeApplied (env.clock w.clockReads) sc sub
        | none => sub) ∧ (∀ b, b ≠ a → deref w1 b = deref w b) := by
    refine ⟨_, rfl, ?_, ?_, ?_⟩
    · split
      · exact applyScheduledChange_store _ _ _ _
      · rfl
    · split
      · exact deref_applyScheduledChange env w a _ sub hsub
      · exact hsub
    · intro b hb
      split
      · exact deref_applyScheduledChange_ne env w a b _ hb
      · rfl
  generalize (match req.ScheduledChange with
    | some sc => scheduledChangeApplied (env.clock w.clockReads) sc sub
    | none => sub) = s1 at hd1 ⊢
  obtain ⟨w2, hw2, hst2, s2, hd2, hl2, hne2⟩ : ∃ w2 : World,
      w2 = (match req.CustomData with
        | some cd => modifySub w1 a (fun sub => { sub with CustomData := cd })
        | none => w1) ∧ w2.store = w.store ∧
      ∃ s2, deref w2 a = some s2 ∧ SameLifecycle s1 s2 ∧
        (∀ b, b ≠ a → deref w2 b = deref w b) := by
    refine ⟨_, rfl, ?_, ?_⟩
    · split
      · rw [modifySub_store]
        exact hst1
      · exact hst1
    · split
      · refine ⟨_, deref_modifySub w1 a _ s1 hd1, SameLifecycle.refl _, fun b hb => ?_⟩
        rw [deref_modifySub_ne w1 a b _ hb]
        exact hne1 b hb
      · exact ⟨s1, hd1, SameLifecycle.refl _, hne1⟩
  refine ⟨w2, s2, hst2, hd2, hl2, hne2, ?_⟩
  have hd2' : deref (timeNow env w2).2 a = some s2 := hd2
  simp only [SubscriptionsHandler.update, hget, hsub, ← hw1, ← hw2, hd2']

/-- The subscription that an accepted update request with an item list returns
and stores carries the requested quantities. -/
theorem update_quantities (env : Env) (w : World) (id : String)
    (req : UpdateSubscriptionRequest) (n : Nat) (sub : Subscription)
    (hitems : req.Items.length > 0)
    (h : (SubscriptionsHandler.update env w id req).2 = .ok n sub) :
    itemQuantities sub = requestedQuantities req.Items ∧
      storedSub (SubscriptionsHandler.update env w id req).1 id = some sub := by
  cases hg : GetSubscription w id with
  | none =>
    unfold SubscriptionsHandler.update at h
    simp only [hg] at h
    cases h
  | some a =>
    cases hd : deref w a with
    | none =>
      unfold SubscriptionsHandler.update at h
      simp only [hg, hd] at h
      cases h
    | some sub0 =>
      obtain ⟨w2, s2, hst2, hd2, _, _, hrun⟩ := update_run env w id req a sub0 hg hd
      rw [hrun, if_pos hitems] at h ⊢
      cases hu : updateItems (timeNow env w2).2 (timeNow env w2).1 s2.Status [] req.Items with
      | error r =>
        simp only [hu] at h
        exact absurd h (updateItems_error_kind _ _ _ _ _ r hu n sub)
      | ok newItems =>
        simp only [hu] at h ⊢
        have hd3 : deref (modifySub (timeNow env w2).2 a
            (fun sub => { sub with Items := newItems })) a = some { s2 with Items := newItems } :=
          deref_modifySub (timeNow env w2).2 a _ s2 hd2
        have hget3 : GetSubscription (modifySub (timeNow env w2).2 a
            (fun sub => { sub with Items := newItems })) id = some a := by
          unfold GetSubscription
          rw [modifySub_store]
          show mapGet w2.store.Subscriptions id = some a
          rw [hst2]
          exact hg
        obtain ⟨s', hs', _, hi', _, hres, _⟩ := finishUpdate_stored env _ id a _ hget3 hd3
        rw [hres] at h
        injection h with _ h2
        subst h2
        refine ⟨?_, hs'⟩
        have hq := updateItems_quantities _ _ _ _ [] newItems hu
        simp only [List.map_nil, List.nil_append] at hq
        unfold itemQuantities
        rw [hi']
        exact hq

/-- C24, as the code has it: every item of the subscription returned and stored
by an accepted `Create`, and of the one returned and stored by an accepted
`Update` that replaces the items, carries the requested quantity with 0
replaced by 1, item by item in the order of the request; so every quantity is
at least 1 whenever no requested quantity is negative. -/
theorem item_quantities_requested (env : Env) (w : World) :
    (∀ req n sub, (SubscriptionsHandler.create env w req).2 = .ok n sub →
      storedSub (SubscriptionsHandler.create env w req).1 sub.ID = some sub ∧
      itemQuantities sub = requestedQuantities req.Items ∧
      ((∀ item ∈ req.Items, 0 ≤ item.Quantity) → ∀ it ∈ sub.Items, 1 ≤ it.Quantity)) ∧
    (∀ id req n sub, req.Items.length > 0 →
      (SubscriptionsHandler.update env w id req).2 = .ok n sub →
      storedSub (SubscriptionsHandler.update env w id req).1 id = some sub ∧
      itemQuantities sub = requestedQuantities req.Items ∧
      ((∀ item ∈ req.Items, 0 ≤ item.Quantity) → ∀ it ∈ sub.Items, 1 ≤ it.Quantity)) := by
  refine ⟨fun req n sub h => ?_, fun id req n sub hitems h => ?_⟩
  · obtain ⟨hq, hs⟩ := create_quantities env w req n sub h
    refine ⟨hs, hq, fun hpos it hit => ?_⟩
    refine requestedQuantities_pos req.Items hpos it.Quantity ?_
    rw [← hq]
    exact List.mem_map_of_mem _ hit
  · obtain ⟨hq, hs⟩ := update_quantities env w id req n sub hitems h
    refine ⟨hs, hq, fun hpos it hit => ?_⟩
    refine requestedQuantities_pos req.Items hpos it.Quantity ?_
    rw [← hq]
    exact List.mem_map_of_mem _ hit

/-- C24 at a concrete input: the create request for one unit of the trial price
of the sample store. -/
theorem item_quantities_requested_witness :
    ∃ sub, (SubscriptionsHandler.create sampleEnv (sampleWorld "active") trialRequest).2 =
        .ok 201 sub ∧
      itemQuantities sub = requestedQuantities trialRequest.Items ∧
      ∀ it ∈ sub.Items, 1 ≤ it.Quantity :=
  ⟨_, rfl,
    ((item_quantities_requested sampleEnv (sampleWorld "active")).1 trialRequest 201 _ rfl).2.1,
    ((item_quantities_requested sampleEnv (sampleWorld "active")).1 trialRequest 201 _ rfl).2.2
      (by decide)⟩

set_option maxRecDepth 100000 in
/-- C24 as stated fails for a negative requested quantity: the create request
for minus three units is accepted, and the subscription it returns and stores
has an item of quantity -3. -/
theorem negative_quantity_kept :
    ∃ sub, (SubscriptionsHandler.create sampleEnv (sampleWorld "active") negativeRequest).2 =
        .ok 201 sub ∧
      storedSub (SubscriptionsHandler.create sampleEnv (sampleWorld "active") negativeRequest).1
        sub.ID = some sub ∧
      itemQuantities sub = [-3] ∧ ¬ (∀ it ∈ sub.Items, 1 ≤ it.Quantity) :=
  ⟨_, rfl, by decide, by decide, by decide⟩

/-! ## SHA-256, HMAC and hex encoding -/

/-- The example of FIPS 180-4 for a message of one block: SHA-256 of `abc`. -/
theorem sha256_abc :
    hexEncode (sha256 (utf8 "abc")) =
      "ba7816bf8f01cfea414140de5dae2223b00361a396177a9cb410ff61f20015ad" := by
  decide

/-- SHA-256 of the empty message. -/
theorem sha256_empty :
    hexEncode (sha256 []) =
      "e3b0c44298fc1c149afbf4c8996fb92427ae41e4649b934ca495991b7852b855" := by
  decide

set_option maxRecDepth 1000000 in
/-- Test case 2 of RFC 4231 for HMAC-SHA256. -/
theorem hmacSHA256_rfc4231 :
    hexEncode (hmacSHA256 (utf8 "Jefe") (utf8 "what do ya want for nothing?")) =
      "5bdcc146bf60754e6a042426089575c75a003f089d2739839dec58b964ec3843" := by
  decide

set_option maxRecDepth 1000000 in
/-- Test case 6 of RFC 4231: a key of 131 bytes, longer than the block, is
hashed first. -/
theorem hmacSHA256_long_key :
    hexEncode (hmacSHA256 (List.replicate 131 170)
        (utf8 "Test Using Larger Than Block-Size Key - Hash Key First")) =
      "60e431591ee0b67f0d8a26aacbf5b77f8e0bc6213728c5140546040f0ee37f54" := by
  decide

theorem sha256_length (msg : List Nat) : (sha256 msg).length = 32 := rfl

theorem hmacSHA256_length (key msg : List Nat) : (hmacSHA256 key msg).length = 32 := rfl

theorem hexEncode_length (bs : List Nat) : (hexEncode bs).length = 2 * bs.length := by
  show (bs.map (fun b => [hexDigit (b / 16 % 16), hexDigit (b % 16)])).flatten.length = _
  induction bs with
  | nil => rfl
  | cons b tl ih =>
    simp only [List.map_cons, List.flatten_cons, List.length_append, List.length_cons,
      List.length_nil, ih]
    omega

theorem hexDigit_mem (n : Nat) (h : n < 16) : hexDigit n ∈ "0123456789abcdef".toList := by
  interval_cases n <;> decide

theorem hexEncode_chars (bs : List Nat) :
    ∀ c ∈ (hexEncode bs).toList, c ∈ "0123456789abcdef".toList := by
  intro c hc
  have hc' : c ∈ (bs.map (fun b => [hexDigit (b / 16 % 16), hexDigit (b % 16)])).flatten := hc
  rw [List.mem_flatten] at hc'
  obtain ⟨l, hl, hcl⟩ := hc'
  rw [List.mem_map] at hl
  obtain ⟨b, _, rfl⟩ := hl
  simp only [List.mem_cons, List.mem_singleton, List.not_mem_nil, or_false] at hcl
  rcases hcl with rfl | rfl
  · exact hexDigit_mem _ (Nat.mod_lt _ (by decide))
  · exact hexDigit_mem _ (Nat.mod_lt _ (by decide))

/-! ## Webhook delivery -/

theorem send_posts (env : Env) (w : World) (u p : String) :
    (Notifier.send env w u p).posts =
      w.posts ++ (if env.requestOk u then
        [{ url := u, body := p,
           signature := paddleSignature env.signingSecret
             (env.clock w.clockReads).Unix p }]
        else []) := by
  unfold Notifier.send timeNow paddleSignature
  dsimp only
  split
  · rfl
  · simp

theorem send_clockReads (env : Env) (w : World) (u p : String) :
    (Notifier.send env w u p).clockReads = w.clockReads + 1 := by
  unfold Notifier.send timeNow
  dsimp only
  split <;> rfl

theorem deliver_eq_sends (env : Env) (p : String) (l : List NotificationSetting) :
    ∀ w, deliver env p w l =
      (l.filter (fun ns => ns.Active)).foldl
        (fun w ns => Notifier.send env w ns.Destination p) w := by
  induction l with
  | nil => intro w; rfl
  | cons ns tl ih =>
    intro w
    have hstep : deliver env p w (ns :: tl) =
        deliver env p (if ns.Active then Notifier.send env w ns.Destination p else w) tl := rfl
    rw [hstep, ih]
    cases hA : ns.Active <;> simp [hA]

theorem sends_clockReads (env : Env) (p : String) (l : List NotificationSetting) :
    ∀ w, (l.foldl (fun w ns => Notifier.send env w ns.Destination p) w).clockReads =
      w.clockReads + l.length := by
  induction l with
  | nil => intro w; rfl
  | cons ns tl ih =>
    intro w
    rw [List.foldl_cons, ih, send_clockReads, List.length_cons]
    omega

theorem sends_posts (env : Env) (p : String) (l : List NotificationSetting) :
    ∀ w, ∃ added,
      (l.foldl (fun w ns => Notifier.send env w ns.Destination p) w).posts = w.posts ++ added ∧
      postedURLs added =
        (l.map (fun ns => ns.Destination)).filter env.requestOk ∧
      ∀ d ∈ added, d.body = p ∧ ∃ k, w.clockReads ≤ k ∧ k < w.clockReads + l.length ∧
        d.signature = paddleSignature env.signingSecret (env.clock k).Unix p := by
  induction l with
  | nil =>
    intro w
    exact ⟨[], by simp, rfl, fun d hd => absurd hd (List.not_mem_nil d)⟩
  | cons ns tl ih =>
    intro w
    obtain ⟨rest, h1, h2, h3⟩ := ih (Notifier.send env w ns.Destination p)
    rw [send_posts] at h1
    simp only [send_clockReads] at h3
    by_cases hok : env.requestOk ns.Destination = true
    · refine ⟨(⟨ns.Destination, p, paddleSignature env.signingSecret
          (env.clock w.clockReads).Unix p⟩ : Delivery) :: rest, ?_, ?_, ?_⟩
      · rw [List.foldl_cons, h1, if_pos hok]
        simp
      · simp [postedURLs, List.filter_cons, hok] at h2 ⊢
        exact h2
      · intro d hd
        rcases List.mem_cons.mp hd with hd | hd
        · subst hd
          exact ⟨rfl, w.clockReads, le_refl _, by simp, rfl⟩
        · obtain ⟨hb, k, hk1, hk2, hk3⟩ := h3 d hd
          exact ⟨hb, k, by omega, by simp only [List.length_cons]; omega, hk3⟩
    · refine ⟨rest, ?_, ?_, ?_⟩
      · rw [List.foldl_cons, h1, if_neg hok]
        simp
      · simp [postedURLs, List.filter_cons, hok] at h2 ⊢
        exact h2
      · intro d hd
        obtain ⟨hb, k, hk1, hk2, hk3⟩ := h3 d hd
        exact ⟨hb, k, by omega, by simp only [List.length_cons]; omega, hk3⟩

theorem Fire_eq (env : Env) (w : World) (ty : String) (d : EventData) :
    Notifier.Fire env w ty d =
      match firedPayload env w ty d with
      | none => firedWorld env w ty d
      | some payload =>
        deliver env payload (firedWorld env w ty d) (ListNotificationSettings env w) := rfl

/-- The run of `Notifier.Fire` for an event that serializes: one call of
`Notifier.send` per active notification setting, in the order of the listing. -/
theorem Fire_sends (env : Env) (w : World) (ty : String) (d : EventData) (payload : String)
    (h : firedPayload env w ty d = some payload) :
    Notifier.Fire env w ty d =
      ((ListNotificationSettings env w).filter (fun ns => ns.Active)).foldl
        (fun w ns => Notifier.send env w ns.Destination payload) (firedWorld env w ty d) := by
  rw [Fire_eq, h]
  exact deliver_eq_sends env payload _ _

theorem firedPosts_spec (env : Env) (w : World) (ty : String) (d : EventData) (payload : String)
    (h : firedPayload env w ty d = some payload) :
    postedURLs (firedPosts env w ty d) = (activeDestinations env w).filter env.requestOk ∧
      ∀ x ∈ firedPosts env w ty d, x.body = payload ∧
        ∃ k, w.clockReads < k ∧ k ≤ w.clockReads + (activeDestinations env w).length ∧
          x.signature = paddleSignature env.signingSecret (env.clock k).Unix payload := by
  obtain ⟨added, h1, h2, h3⟩ := sends_posts env payload
    ((ListNotificationSettings env w).filter (fun ns => ns.Active)) (firedWorld env w ty d)
  have hposts : (firedWorld env w ty d).posts = w.posts := rfl
  have hclock : (firedWorld env w ty d).clockReads = w.clockReads + 1 := rfl
  have hfp : firedPosts env w ty d = added := by
    unfold firedPosts
    rw [Fire_sends env w ty d payload h, h1, hposts, List.drop_left]
  rw [hfp]
  refine ⟨h2, fun x hx => ?_⟩
  obtain ⟨hb, k, hk1, hk2, hk3⟩ := h3 x hx
  rw [hclock] at hk1 hk2
  refine ⟨hb, k, by omega, ?_, hk3⟩
  simp only [activeDestinations, List.length_map]
  omega

theorem activeDestinations_withSubscribedEvents (env : Env) (w : World)
    (f : NotificationSetting → List String) :
    activeDestinations env (withSubscribedEvents f w) = activeDestinations env w := by
  unfold activeDestinations ListNotificationSettings mapValues withSubscribedEvents
  simp only [List.map_map]
  have h : (Prod.snd ∘ fun (kv : String × NotificationSetting) =>
      (kv.1, ({ kv.2 with SubscribedEvents := f kv.2 } : NotificationSetting))) =
      (fun ns => ({ ns with SubscribedEvents := f ns } : NotificationSetting)) ∘ Prod.snd := rfl
  rw [h, ← List.map_map, ← List.map_rotate, List.filter_map, List.map_map]
  rfl

theorem firedPosts_of_unserialized (env : Env) (w : World) (ty : String) (d : EventData)
    (h : firedPayload env w ty d = none) : firedPosts env w ty d = [] := by
  unfold firedPosts
  rw [Fire_eq, h]
  show List.drop w.posts.length w.posts = []
  simp

/-- C21: when the event of a `Fire` call serializes, `Notifier.send` is called
once for each notification setting with `active = true`, in the order of the
listing, and for no other setting (each call reads the clock once, also when
its request cannot be built or its POST fails, and the loop goes on); the
requests handed to the HTTP client go to exactly the destinations of the active
settings for which a request can be built. Neither the event (its type, data
and payload) nor the `subscribed_events` of any setting plays a part. -/
theorem fire_delivers_to_active_settings (env : Env) (w : World) (ty : String) (d : EventData)
    (payload : String) (h : firedPayload env w ty d = some payload) :
    Notifier.Fire env w ty d =
        ((ListNotificationSettings env w).filter (fun ns => ns.Active)).foldl
          (fun w ns => Notifier.send env w ns.Destination payload) (firedWorld env w ty d) ∧
      (Notifier.Fire env w ty d).clockReads =
        w.clockReads + 1 + (activeDestinations env w).length ∧
      postedURLs (firedPosts env w ty d) = (activeDestinations env w).filter env.requestOk ∧
      (∀ ty' d' payload', firedPayload env w ty' d' = some payload' →
        postedURLs (firedPosts env w ty' d') = postedURLs (firedPosts env w ty d)) ∧
      (∀ f payload', firedPayload env (withSubscribedEvents f w) ty d = some payload' →
        postedURLs (firedPosts env (withSubscribedEvents f w) ty d) =
          postedURLs (firedPosts env w ty d)) := by
  refine ⟨Fire_sends env w ty d payload h, ?_, (firedPosts_spec env w ty d payload h).1, ?_, ?_⟩
  · rw [Fire_sends env w ty d payload h, sends_clockReads]
    simp only [activeDestinations, List.length_map]
    rfl
  · intro ty' d' payload' h'
    rw [(firedPosts_spec env w ty' d' payload' h').1, (firedPosts_spec env w ty d payload h).1]
  · intro f payload' h'
    rw [(firedPosts_spec env _ ty d payload' h').1, (firedPosts_spec env w ty d payload h).1,
      activeDestinations_withSubscribedEvents]

/-- C21 at a concrete input: an event fired in the store with two active
settings and an inactive one. -/
theorem fire_delivers_to_active_settings_witness :
    postedURLs (firedPosts sampleEnv hookWorld "subscription.updated" (.subscription 0)) =
      (activeDestinations sampleEnv hookWorld).filter sampleEnv.requestOk :=
  (fire_delivers_to_active_settings sampleEnv hookWorld "subscription.updated" (.subscription 0)
    _ rfl).2.2.1

/-- C22: the request `Notifier.send` hands to the HTTP client, for every
signing secret, payload, URL and clock, carries the payload as its body and the
header `ts=<ts>;h1=<h1>`, with `ts` the decimal Unix seconds of the clock
reading the call takes and `h1` the hex encoding of HMAC-SHA256, keyed by the
signing secret, of `<ts>:<payload>`; every request of a `Fire` call carries the
serialized event as its body and such a header for a clock reading taken during
the call; and `h1` is always 64 characters long, each of them one of
`0123456789abcdef`. -/
theorem paddle_signature_header (env : Env) (w : World) :
    (∀ url payload, (Notifier.send env w url payload).posts =
      w.posts ++ (if env.requestOk url then
        [{ url := url, body := payload,
           signature := paddleSignature env.signingSecret
             (env.clock w.clockReads).Unix payload }]
        else [])) ∧
    (∀ ty d payload, firedPayload env w ty d = some payload →
      ∀ x ∈ firedPosts env w ty d, x.body = payload ∧
        ∃ k, w.clockReads < k ∧ k ≤ w.clockReads + (activeDestinations env w).length ∧
          x.signature = paddleSignature env.signingSecret (env.clock k).Unix payload) ∧
    (∀ secret ts payload, ∃ h1 : String,
      h1 = hexEncode (hmacSHA256 (utf8 secret) (utf8 (toString ts ++ ":" ++ payload))) ∧
      paddleSignature secret ts payload = "ts=" ++ toString ts ++ ";h1=" ++ h1 ∧
      h1.length = 64 ∧ ∀ c ∈ h1.toList, c ∈ "0123456789abcdef".toList) :=
  ⟨fun url payload => send_posts env w url payload,
    fun ty d payload h => (firedPosts_spec env w ty d payload h).2,
    fun secret ts payload =>
      ⟨_, rfl, rfl, by rw [hexEncode_length, hmacSHA256_length], hexEncode_chars _⟩⟩

set_option maxRecDepth 1000000 in
/-- C22 at a concrete input: the one request sent for an event of the sample
store, signed under the secret `secret` at the Unix time 1706702401. -/
theorem paddle_signature_header_witness :
    firedPosts sampleEnv (sampleWorld "active") "subscription.updated" (.subscription 0) =
        [⟨"http://localhost/hook", "evt_00000001:subscription.updated",
          "ts=1706702401;h1=e81f9b3050b7482b78f247008fb08877b8a76b8f391271792bc4303db50ae151"⟩] ∧
      ∃ h1 : String,
        h1 = hexEncode (hmacSHA256 (utf8 "secret")
          (utf8 (toString (1706702401 : Int) ++ ":" ++ "evt_00000001:subscription.updated"))) ∧
        paddleSignature "secret" 1706702401 "evt_00000001:subscription.updated" =
          "ts=" ++ toString (1706702401 : Int) ++ ";h1=" ++ h1 ∧
        h1.length = 64 ∧ ∀ c ∈ h1.toList, c ∈ "0123456789abcdef".toList :=
  ⟨by decide,
    (paddle_signature_header sampleEnv (sampleWorld "active")).2.2 "secret" 1706702401
      "evt_00000001:subscription.updated"⟩

/-- C23, as the code has it: a `Fire` call hands the HTTP client at most one
request per active notification setting, so a URL receives at most as many
POSTs as there are active settings with that destination, and exactly that many
when the event serializes and a request can be built for the URL; each
destination receives at most one POST when the destinations of the active
settings are pairwise distinct. -/
theorem fire_posts_once_per_active_setting (env : Env) (w : World) (ty : String)
    (d : EventData) :
    (∀ u, (postedURLs (firedPosts env w ty d)).count u ≤ (activeDestinations env w).count u) ∧
      ((activeDestinations env w).Nodup → (postedURLs (firedPosts env w ty d)).Nodup) ∧
      (∀ payload u, firedPayload env w ty d = some payload → env.requestOk u = true →
        (postedURLs (firedPosts env w ty d)).count u = (activeDestinations env w).count u) := by
  cases h : firedPayload env w ty d with
  | none =>
    rw [firedPosts_of_unserialized env w ty d h]
    exact ⟨fun u => by simp [postedURLs], fun _ => by simp [postedURLs],
      fun payload u hp _ => by cases hp⟩
  | some payload =>
    rw [(firedPosts_spec env w ty d payload h).1]
    refine ⟨fun u => ?_, fun hn => ?_, fun _ u _ hu => ?_⟩
    · exact List.Sublist.count_le (List.filter_sublist _) u
    · exact hn.filter _
    · rw [List.count_filter hu]

/-- C23 at a concrete input: the sample store, with one active setting. -/
theorem fire_posts_once_per_active_setting_witness :
    (postedURLs (firedPosts sampleEnv (sampleWorld "active") "subscription.updated"
      (.subscription 0))).Nodup :=
  (fire_posts_once_per_active_setting sampleEnv (sampleWorld "active") "subscription.updated"
    (.subscription 0)).2.1 (by decide)

/-- C23 as stated fails when two active notification settings share a
destination: one `Fire` call posts twice to that URL (and not at all to the
destination of the inactive setting). -/
theorem fire_posts_twice_to_shared_destination :
    postedURLs (firedPosts sampleEnv hookWorld "subscription.updated" (.subscription 0)) =
        ["http://localhost/hook", "http://localhost/hook"] ∧
      (postedURLs (firedPosts sampleEnv hookWorld "subscription.updated"
        (.subscription 0))).count "http://localhost/hook" = 2 := by
  decide

/-! ## Authentication middleware -/

theorem TrimPrefix_append (pre s : String) : TrimPrefix (pre ++ s) pre = s := by
  have h : HasPrefix (pre ++ s) pre = true := by
    unfold HasPrefix
    rw [String.toList, String.toList, String.data_append, List.isPrefixOf_iff_prefix]
    exact List.prefix_append _ _
  unfold TrimPrefix
  rw [if_pos h]
  apply String.ext
  show List.drop pre.data.length (pre ++ s).data = s.data
  rw [String.data_append, List.drop_left]

theorem TrimPrefix_ne (s pre : String) (h : TrimPrefix s pre ≠ s) :
    s = pre ++ TrimPrefix s pre := by
  unfold TrimPrefix at h ⊢
  by_cases hp : HasPrefix s pre = true
  · rw [if_pos hp]
    unfold HasPrefix at hp
    rw [List.isPrefixOf_iff_prefix] at hp
    obtain ⟨t, ht⟩ := hp
    apply String.ext
    rw [String.data_append]
    show s.data = pre.data ++ List.drop pre.data.length s.data
    have ht' : pre.data ++ t = s.data := ht
    rw [← ht', List.drop_left]
  · rw [if_neg hp] at h
    exact absurd rfl h

theorem bearer_ne (apiKey : String) :
    "Bearer " ++ apiKey ≠ "" ∧ apiKey ≠ "Bearer " ++ apiKey := by
  refine ⟨fun h => ?_, fun h => ?_⟩
  · have := congrArg String.length h
    rw [String.length_append] at this
    have h7 : "Bearer ".length = 7 := by decide
    rw [h7] at this
    simp at this
  · have := congrArg String.length h
    rw [String.length_append] at this
    have h7 : "Bearer ".length = 7 := by decide
    omega

/-- The requests `Auth` passes on when authentication is enabled and the path
starts with `/v1/`. -/
theorem Auth_next_iff (apiKey : String) (c : Nat) (r : Request)
    (hp : HasPrefix r.Path "/v1/" = true) :
    (Auth apiKey false c r).1 = .next ↔ r.Authorization = "Bearer " ++ apiKey := by
  unfold Auth
  simp only [hp, Bool.false_or, Bool.not_true, Bool.false_eq_true, if_false]
  constructor
  · intro h
    by_cases he : r.Authorization = ""
    · rw [if_pos he] at h
      cases h
    · rw [if_neg he] at h
      by_cases ht : TrimPrefix r.Authorization "Bearer " = r.Authorization ∨
          TrimPrefix r.Authorization "Bearer " ≠ apiKey
      · rw [if_pos ht] at h
        cases h
      · have h1 : TrimPrefix r.Authorization "Bearer " ≠ r.Authorization := fun x => ht (Or.inl x)
        have h2 : TrimPrefix r.Authorization "Bearer " = apiKey := by
          by_contra x
          exact ht (Or.inr x)
        have h3 := TrimPrefix_ne _ _ h1
        rw [h2] at h3
        exact h3
  · intro h
    rw [h, if_neg (bearer_ne apiKey).1, TrimPrefix_append]
    have hn : ¬ (apiKey = "Bearer " ++ apiKey ∨ apiKey ≠ apiKey) := by
      rintro (x | x)
      · exact (bearer_ne apiKey).2 x
      · exact x rfl
    rw [if_neg hn]

/-- C25: with authentication enabled, a request whose path starts with `/v1/`
is passed to the next handler if and only if its `Authorization` header equals
`Bearer ` followed by the configured API key, and every other such request is
answered with status 401 (an `authentication_error` body); a request to a path
that does not start with `/v1/` is passed on whatever it carries, and so is
every request when authentication is disabled. -/
theorem auth_validates_bearer_token (apiKey : String) (c : Nat) (r : Request) :
    (HasPrefix r.Path "/v1/" = true →
      ((Auth apiKey false c r).1 = .next ↔ r.Authorization = "Bearer " ++ apiKey) ∧
      (r.Authorization ≠ "Bearer " ++ apiKey →
        ∃ body, (Auth apiKey false c r).1 = .httpError body 401)) ∧
    (HasPrefix r.Path "/v1/" = false → ∀ noAuth, (Auth apiKey noAuth c r).1 = .next) ∧
    (Auth apiKey true c r).1 = .next := by
  refine ⟨fun hp => ⟨Auth_next_iff apiKey c r hp, fun hne => ?_⟩, fun hp noAuth => ?_, ?_⟩
  · have hnot : (Auth apiKey false c r).1 ≠ .next :=
      fun h => hne ((Auth_next_iff apiKey c r hp).mp h)
    cases ho : (Auth apiKey false c r).1 with
    | next => exact absurd ho hnot
    | httpError body status =>
      have hs : status = 401 := by
        unfold Auth at ho
        simp only [hp, Bool.false_or, Bool.not_true, Bool.false_eq_true, if_false] at ho
        split at ho
        · injection ho with _ h2
          exact h2.symm
        · split at ho
          · injection ho with _ h2
            exact h2.symm
          · cases ho
      exact ⟨body, by rw [hs]⟩
  · unfold Auth
    simp [hp]
  · unfold Auth
    simp

/-- C25 at concrete inputs: a request to `/v1/subscriptions` with the right
token is passed on, and one with another token is answered with 401. -/
theorem auth_validates_bearer_token_witness :
    ((Auth "test_paddle_api_key" false 0
        ⟨"/v1/subscriptions", "Bearer test_paddle_api_key", none⟩).1 = .next ↔
      "Bearer test_paddle_api_key" = "Bearer " ++ "test_paddle_api_key") ∧
    ("Bearer wrong" ≠ "Bearer " ++ "test_paddle_api_key" →
      ∃ body, (Auth "test_paddle_api_key" false 0 ⟨"/v1/subscriptions", "Bearer wrong", none⟩).1 =
        .httpError body 401) :=
  ⟨((auth_validates_bearer_token "test_paddle_api_key" 0
      ⟨"/v1/subscriptions", "Bearer test_paddle_api_key", none⟩).1 (by decide)).1,
    ((auth_validates_bearer_token "test_paddle_api_key" 0
      ⟨"/v1/subscriptions", "Bearer wrong", none⟩).1 (by decide)).2⟩

/-! ## Reset -/

theorem Load_notificationSettings (env : Env) (w : World) :
    (Load env w).store.NotificationSettings = w.store.NotificationSettings := by
  unfold Load
  dsimp only
  split <;> rfl

/-- Whatever the flags and the state, `reset` as `main` wires it leaves the
store without any notification setting. -/
theorem reset_notificationSettings (env : Env) (flags : Flags) (w : World) :
    (AdminHandler.reset (serverStart env flags).2 env w).store.NotificationSettings = [] := by
  have h : (serverStart env flags).2.DefaultWebhookURL = "" := rfl
  unfold AdminHandler.reset
  simp only [h, ne_eq, not_true_eq_false, if_false]
  split
  · rw [Load_notificationSettings]
    rfl
  · rfl

/-- C26 (the code departs from the claim): on a server started with the default
webhook URL `http://localhost/hook` the store holds an active notification
setting for that URL, but the admin handler is built without its
`DefaultWebhookURL`, so after a reset the store holds no notification setting
at all and an event fired then is posted nowhere. -/
theorem reset_drops_default_webhook :
    activeDestinations sampleEnv (serverStart sampleEnv hookFlags).1 =
        ["http://localhost/hook"] ∧
      (serverStart sampleEnv hookFlags).2.DefaultWebhookURL = "" ∧
      ListNotificationSettings sampleEnv
        (AdminHandler.reset (serverStart sampleEnv hookFlags).2 sampleEnv
          (serverStart sampleEnv hookFlags).1) = [] ∧
      firedPosts sampleEnv
        (AdminHandler.reset (serverStart sampleEnv hookFlags).2 sampleEnv
          (serverStart sampleEnv hookFlags).1) "subscription.updated" (.subscription 0) = [] := by
  decide

/-! ## Scheduled changes and AdvanceTime -/

theorem agree_storedSub (w w' : World) (id : String) (h : AgreeUpToScheduledChange w w') :
    (storedSub w' id).map forgetScheduledChange = (storedSub w id).map forgetScheduledChange := by
  obtain ⟨hs, _, _, _, hh⟩ := h
  unfold storedSub GetSubscription
  rw [hs]
  cases mapGet w.store.Subscriptions id with
  | none => rfl
  | some a =>
    show (w'.heap.get? a).map _ = (w.heap.get? a).map _
    rw [List.get?_eq_getElem?, List.get?_eq_getElem?, ← List.getElem?_map, ← List.getElem?_map, hh]

theorem agree_Fire (env : Env) (w w' : World) (ty : String) (d : EventData)
    (h : AgreeUpToScheduledChange w w') :
    AgreeUpToScheduledChange (Notifier.Fire env w ty d) (Notifier.Fire env w' ty d) := by
  obtain ⟨hs, ht, he, hi, hh⟩ := h
  refine ⟨?_, ?_, ?_, ?_, ?_⟩
  · rw [Fire_store, Fire_store]
    exact hs
  · rw [Fire_store, Fire_store]
    exact ht
  · rw [Fire_store, Fire_store]
    show (w'.store.Events ++ _).map eventKey = (w.store.Events ++ _).map eventKey
    rw [List.map_append, List.map_append, he]
    simp only [firedEvent, NextID, hi, eventKey, List.map_cons, List.map_nil]
  · rw [Fire_idCounter, Fire_idCounter, hi]
  · rw [Fire_heap, Fire_heap]
    exact hh

theorem agree_fireLast (env : Env) (w w' : World) (s s' : Subscription)
    (h : AgreeUpToScheduledChange w w')
    (hs : forgetScheduledChange s' = forgetScheduledChange s) :
    AgreeUpToScheduledChange (fireLastTransaction env w s).1 (fireLastTransaction env w' s').1 ∧
      (fireLastTransaction env w' s').2.forgetScheduledChange =
        (fireLastTransaction env w s).2.forgetScheduledChange := by
  have hl : ListTransactions env w' = ListTransactions env w := by
    unfold ListTransactions
    rw [h.2.1]
  unfold fireLastTransaction
  rw [hl]
  cases (ListTransactions env w).getLast? with
  | none => exact ⟨h, rfl⟩
  | some txn =>
    refine ⟨agree_Fire env w w' _ _ h, ?_⟩
    show Result.ok 200 (forgetScheduledChange s') = Result.ok 200 (forgetScheduledChange s)
    rw [hs]

theorem agree_committed (env : Env) (w : World) (a : Nat) (x s s' : Subscription)
    (hid : s'.ID = s.ID) (hs : forgetScheduledChange s' = forgetScheduledChange s) :
    AgreeUpToScheduledChange (committed env w a s) (committed env (writeSub w a x) a s') := by
  refine ⟨?_, rfl, rfl, rfl, ?_⟩
  · show mapSet w.store.Subscriptions s'.ID a = mapSet w.store.Subscriptions s.ID a
    rw [hid]
  · show (((w.heap.set a x).set a s').map forgetScheduledChange) =
      ((w.heap.set a s).map forgetScheduledChange)
    rw [List.set_set, List.map_set, List.map_set, hs]

theorem agree_createTransaction (env : Env) (w w' : World) (s s' : Subscription)
    (origin : String) (h : AgreeUpToScheduledChange w w') (hc : w'.clockReads = w.clockReads)
    (hs : forgetScheduledChange s' = forgetScheduledChange s) :
    AgreeUpToScheduledChange (AdminHandler.createTransaction env w s origin)
      (AdminHandler.createTransaction env w' s' origin) := by
  obtain ⟨h1, h2, h3, h4, h5⟩ := h
  have hb : builtTransaction env w' s' origin = builtTransaction env w s origin := by
    have e1 : s'.ID = s.ID := congrArg (fun x => x.ID) hs
    have e2 : s'.CustomerID = s.CustomerID := congrArg (fun x => x.CustomerID) hs
    have e3 : s'.CurrencyCode = s.CurrencyCode := congrArg (fun x => x.CurrencyCode) hs
    have e4 : s'.CollectionMode = s.CollectionMode := congrArg (fun x => x.CollectionMode) hs
    have e5 : s'.Items = s.Items := congrArg (fun x => x.Items) hs
    simp only [builtTransaction, NextID, h4, hc, e1, e2, e3, e4, e5]
  refine ⟨h1, ?_, h3, ?_, h5⟩
  · rw [createTransaction_eq, createTransaction_eq, createTransaction_store,
      createTransaction_store]
    show mapSet w'.store.Transactions _ _ = mapSet w.store.Transactions _ _
    rw [h2, hb]
  · rw [createTransaction_eq, createTransaction_eq, createTransaction_idCounter,
      createTransaction_idCounter, h4]

theorem agree_createFailedTransaction (env : Env) (w w' : World) (s s' : Subscription)
    (h : AgreeUpToScheduledChange w w') (hc : w'.clockReads = w.clockReads)
    (hs : forgetScheduledChange s' = forgetScheduledChange s) :
    AgreeUpToScheduledChange (AdminHandler.createFailedTransaction env w s).2
        (AdminHandler.createFailedTransaction env w' s').2 ∧
      (AdminHandler.createFailedTransaction env w' s').1 =
        (AdminHandler.createFailedTransaction env w s).1 := by
  obtain ⟨h1, h2, h3, h4, h5⟩ := h
  have hb : builtFailedTransaction env w' s' = builtFailedTransaction env w s := by
    have e1 : s'.ID = s.ID := congrArg (fun x => x.ID) hs
    have e2 : s'.CustomerID = s.CustomerID := congrArg (fun x => x.CustomerID) hs
    have e3 : s'.CurrencyCode = s.CurrencyCode := congrArg (fun x => x.CurrencyCode) hs
    have e4 : s'.CollectionMode = s.CollectionMode := congrArg (fun x => x.CollectionMode) hs
    have e5 : s'.Items = s.Items := congrArg (fun x => x.Items) hs
    simp only [builtFailedTransaction, NextID, h4, hc, e1, e2, e3, e4, e5]
  refine ⟨⟨h1, ?_, h3, ?_, h5⟩, ?_⟩
  · rw [createFailedTransaction_store, createFailedTransaction_store]
    show mapSet w'.store.Transactions _ _ = mapSet w.store.Transactions _ _
    rw [h2, hb]
  · show (w'.idCounter + 1) % 2 ^ 64 = (w.idCounter + 1) % 2 ^ 64
    rw [h4]
  · rw [createFailedTransaction_fst, createFailedTransaction_fst, hb]

theorem list_set_self {α : Type} (l : List α) (a : Nat) (x : α) (h : l[a]? = some x) :
    l.set a x = l := by
  apply List.ext_getElem?
  intro i
  by_cases hi : a = i
  · subst hi
    rw [List.getElem?_set]
    simp only [if_true]
    have hlt : a < l.length := by
      by_contra hc
      rw [List.getElem?_eq_none (by omega)] at h
      cases h
    rw [if_pos hlt, h]
  · rw [List.getElem?_set_ne hi]

theorem agree_Fire_data (env : Env) (w w' : World) (ty : String) (d d' : EventData)
    (h : AgreeUpToScheduledChange w w') (hd : d' = d) :
    AgreeUpToScheduledChange (Notifier.Fire env w ty d) (Notifier.Fire env w' ty d') := by
  subst hd
  exact agree_Fire env w w' ty d' h

theorem eventTypes_of_eventKey (es es' : List Event)
    (h : es'.map eventKey = es.map eventKey) : eventTypes es' = eventTypes es := by
  have := congrArg (List.map (fun (k : String × String × EventData) => k.2.1)) h
  simpa [eventTypes, eventKey, List.map_map, Function.comp] using this

theorem advanceTime_agree (env : Env) (w : World) (id failParam : String) (a : Nat)
    (sub : Subscription) (sc : Option ScheduledChange)
    (hget : GetSubscription w id = some a) (hsub : deref w a = some sub) :
    AgreeUpToScheduledChange (AdminHandler.advanceTime env w id failParam).1
        (AdminHandler.advanceTime env (writeSub w a { sub with ScheduledChange := sc }) id
          failParam).1 ∧
      (AdminHandler.advanceTime env (writeSub w a { sub with ScheduledChange := sc }) id
          failParam).2.forgetScheduledChange =
        (AdminHandler.advanceTime env w id failParam).2.forgetScheduledChange := by
  have hget' : GetSubscription (writeSub w a { sub with ScheduledChange := sc }) id = some a :=
    hget
  have hsub' : deref (writeSub w a { sub with ScheduledChange := sc }) a =
      some { sub with ScheduledChange := sc } := deref_writeSub w a sub _ hsub
  by_cases h1 : sub.Status = "trialing"
  · rw [advanceTime_trialing_run env w id failParam a sub hget hsub h1,
      advanceTime_trialing_run env _ id failParam a _ hget' hsub' h1]
    exact agree_fireLast env _ _ _ _
      (agree_Fire env _ _ _ _
        (agree_createTransaction env _ _ _ _ _
          (agree_committed env w a _ _ _ rfl rfl) rfl rfl)) rfl
  · by_cases h2 : sub.Status = "active"
    · by_cases hf : failParam = "true"
      · rw [advanceTime_failed_run env w id failParam a sub hget hsub h2 hf,
          advanceTime_failed_run env _ id failParam a _ hget' hsub' h2 hf]
        obtain ⟨hA, ht⟩ := agree_createFailedTransaction env
          (committed env w a (paymentFailed (env.clock w.clockReads) sub))
          (committed env (writeSub w a { sub with ScheduledChange := sc }) a
            (paymentFailed (env.clock w.clockReads) { sub with ScheduledChange := sc }))
          (paymentFailed (env.clock w.clockReads) sub)
          (paymentFailed (env.clock w.clockReads) { sub with ScheduledChange := sc })
          (agree_committed env w a { sub with ScheduledChange := sc }
            (paymentFailed (env.clock w.clockReads) sub)
            (paymentFailed (env.clock w.clockReads) { sub with ScheduledChange := sc })
            rfl rfl) rfl rfl
        refine ⟨?_, rfl⟩
        exact agree_Fire_data env _ _ _ _ _ (agree_Fire env _ _ _ _ hA)
          (congrArg EventData.transaction ht)
      · rw [advanceTime_renew_run env w id failParam a sub hget hsub h2 hf,
          advanceTime_renew_run env _ id failParam a _ hget' hsub' h2 hf]
        exact agree_fireLast env _ _ _ _
          (agree_Fire env _ _ _ _
            (agree_createTransaction env _ _ _ _ _
              (agree_committed env w a _ _ _ rfl rfl) rfl rfl)) rfl
    · by_cases h3 : sub.Status = "past_due"
      · rw [advanceTime_pastDue_run env w id failParam a sub hget hsub h3,
          advanceTime_pastDue_run env _ id failParam a _ hget' hsub' h3]
        exact ⟨agree_Fire env _ _ _ _ (agree_committed env w a _ _ _ rfl rfl), rfl⟩
      · by_cases h4 : sub.Status = "paused"
        · rw [advanceTime_paused_run env w id failParam a sub hget hsub h4,
            advanceTime_paused_run env _ id failParam a _ hget' hsub' h4]
          exact ⟨agree_Fire env _ _ _ _ (agree_committed env w a _ _ _ rfl rfl), rfl⟩
        · rw [advanceTime_other_run env w id failParam a sub hget hsub h1 h2 h3 h4,
            advanceTime_other_run env _ id failParam a _ hget' hsub' h1 h2 h3 h4]
          refine ⟨⟨rfl, rfl, rfl, rfl, ?_⟩, rfl⟩
          show (w.heap.set a _).map forgetScheduledChange = w.heap.map forgetScheduledChange
          rw [List.map_set]
          have hg : (w.heap.map forgetScheduledChange)[a]? = some (forgetScheduledChange sub) := by
            rw [List.getElem?_map]
            have : w.heap[a]? = some sub := by
              rw [← List.get?_eq_getElem?]
              exact hsub
            rw [this]
            rfl
          exact list_set_self _ a _ hg

/-- C27: `AdvanceTime` does not consult the scheduled change. For a stored
subscription and the same subscription with any other scheduled change (or
none) in its place, `AdvanceTime` with the same flag gives the same answer and
the same stored subscription up to the `scheduled_change` field itself (so the
same status, billing period, billing cycle and time stamps), the same
transactions, and events of the same ids, types and data in the same order; so
no branch enacts a scheduled cancel or pause. -/
theorem advanceTime_ignores_scheduled_change (env : Env) (w : World) (id failParam : String)
    (a : Nat) (sub : Subscription) (sc : Option ScheduledChange)
    (hget : GetSubscription w id = some a) (hsub : deref w a = some sub) :
    (AdminHandler.advanceTime env (writeSub w a { sub with ScheduledChange := sc }) id
          failParam).2.forgetScheduledChange =
        (AdminHandler.advanceTime env w id failParam).2.forgetScheduledChange ∧
      (storedSub (AdminHandler.advanceTime env (writeSub w a { sub with ScheduledChange := sc })
          id failParam).1 id).map forgetScheduledChange =
        (storedSub (AdminHandler.advanceTime env w id failParam).1 id).map
          forgetScheduledChange ∧
      (AdminHandler.advanceTime env (writeSub w a { sub with ScheduledChange := sc }) id
          failParam).1.store.Transactions =
        (AdminHandler.advanceTime env w id failParam).1.store.Transactions ∧
      (AdminHandler.advanceTime env (writeSub w a { sub with ScheduledChange := sc }) id
          failParam).1.store.Events.map eventKey =
        (AdminHandler.advanceTime env w id failParam).1.store.Events.map eventKey ∧
      eventTypes (AdminHandler.advanceTime env (writeSub w a { sub with ScheduledChange := sc })
          id failParam).1.store.Events =
        eventTypes (AdminHandler.advanceTime env w id failParam).1.store.Events := by
  obtain ⟨hA, hr⟩ := advanceTime_agree env w id failParam a sub sc hget hsub
  exact ⟨hr, agree_storedSub _ _ id hA, hA.2.1, hA.2.2.1, eventTypes_of_eventKey _ _ hA.2.2.1⟩

/-- C27 at a concrete input: the active subscription of the sample store with a
cancellation scheduled for the sample instant is renewed like the one without
it. -/
theorem advanceTime_ignores_scheduled_change_witness :
    (AdminHandler.advanceTime sampleEnv
        (writeSub (sampleWorld "active") 0
          { sampleSub "active" with ScheduledChange := some ⟨"cancel", sampleTime⟩ })
        "sub_a" "").2.forgetScheduledChange =
      (AdminHandler.advanceTime sampleEnv (sampleWorld "active") "sub_a"
        "").2.forgetScheduledChange :=
  (advanceTime_ignores_scheduled_change sampleEnv (sampleWorld "active") "sub_a" "" 0
    (sampleSub "active") (some ⟨"cancel", sampleTime⟩) rfl rfl).1

/-! ## Effects of the operations on the subscription objects -/

theorem active_ne_paused : ¬ ("active" = "paused") := by decide

theorem past_due_ne_paused : ¬ ("past_due" = "paused") := by decide

theorem canceled_ne_paused : ¬ ("canceled" = "paused") := by decide

theorem evolves_refl (s : Subscription) : Evolves s s :=
  ⟨rfl, fun h => h, fun h => h, Or.inr rfl⟩

theorem evolves_trans {s0 s1 s2 : Subscription} (h1 : Evolves s0 s1) (h2 : Evolves s1 s2) :
    Evolves s0 s2 := by
  obtain ⟨a1, b1, c1, d1⟩ := h1
  obtain ⟨a2, b2, c2, d2⟩ := h2
  refine ⟨a2.trans a1, fun h => b2 (b1 h), fun h => c1 (c2 h), ?_⟩
  rcases d2 with d2 | d2
  · exact Or.inl d2
  · rw [d2]
    exact d1

theorem evolves_of_sameLifecycle (s s' : Subscription) (h : SameLifecycle s s') :
    Evolves s s' := by
  obtain ⟨h1, h2, _, h4, _⟩ := h
  exact ⟨h1, fun hc => by rw [h2]; exact hc, fun hp => by rw [← h2]; exact hp, Or.inr h4⟩

theorem evolves_scheduledChangeApplied (now : Time) (sc : ScheduledChangeReq)
    (s : Subscription) : Evolves s (scheduledChangeApplied now sc s) := by
  unfold scheduledChangeApplied
  split
  · exact ⟨rfl, fun h => h, fun h => h, Or.inr rfl⟩
  · split
    · exact ⟨rfl, fun h => h, fun h => h, Or.inr rfl⟩
    · split
      · split
        · rename_i hp
          refine ⟨rfl, fun h => ?_, fun h => ?_, Or.inl rfl⟩
          · rw [hp] at h
            exact absurd h (by decide)
          · exact absurd (show "active" = "paused" from h) active_ne_paused
        · exact ⟨rfl, fun h => h, fun h => h, Or.inr rfl⟩
      · exact evolves_refl s

theorem evolves_activated (now : Time) (s : Subscription) (h : s.Status = "trialing") :
    Evolves s (activated now s) :=
  ⟨rfl, fun hc => by rw [h] at hc; exact absurd hc (by decide),
    fun hp => absurd (show "active" = "paused" from hp) active_ne_paused, Or.inr rfl⟩

theorem evolves_trialEnded (now : Time) (s : Subscription) (h : s.Status = "trialing") :
    Evolves s (trialEnded now s) :=
  ⟨rfl, fun hc => by rw [h] at hc; exact absurd hc (by decide),
    fun hp => absurd (show "active" = "paused" from hp) active_ne_paused, Or.inr rfl⟩

theorem evolves_paymentFailed (now : Time) (s : Subscription) (h : s.Status = "active") :
    Evolves s (paymentFailed now s) :=
  ⟨rfl, fun hc => by rw [h] at hc; exact absurd hc (by decide),
    fun hp => absurd (show "past_due" = "paused" from hp) past_due_ne_paused, Or.inr rfl⟩

theorem evolves_renewed (now : Time) (s : Subscription) : Evolves s (renewed now s) :=
  ⟨rfl, fun hc => hc, fun hp => hp, Or.inr rfl⟩

theorem evolves_canceledAfterPastDue (now : Time) (s : Subscription) :
    Evolves s (canceledAfterPastDue now s) :=
  ⟨rfl, fun _ => rfl, fun hp => absurd (show "canceled" = "paused" from hp) canceled_ne_paused,
    Or.inr rfl⟩

theorem evolves_resumed (now : Time) (s : Subscription) (h : s.Status = "paused") :
    Evolves s (resumed now s) :=
  ⟨rfl, fun hc => by rw [h] at hc; exact absurd hc (by decide),
    fun hp => absurd (show "active" = "paused" from hp) active_ne_paused, Or.inl rfl⟩

theorem unpaused_createItem (w : World) (now : Time) (sub sub' : Subscription)
    (item : CreateSubItemReq) (hs : Unpaused sub) (h : createItem w now sub item = .ok sub') :
    Unpaused sub' := by
  unfold createItem at h
  cases hg : GetPrice w item.PriceID with
  | none => simp [hg] at h
  | some price =>
    simp only [hg] at h
    cases ht : price.TrialPeriod with
    | some tp =>
      simp only [ht] at h
      injection h with h
      subst h
      cases hb : price.BillingCycle <;> exact hs
    | none =>
      simp only [ht] at h
      cases hb : price.BillingCycle with
      | none => simp [hb] at h
      | some bc =>
        simp only [hb] at h
        injection h with h
        subst h
        exact ⟨fun hp => absurd (show "active" = "paused" from hp) active_ne_paused, hs.2⟩

theorem unpaused_createItems (w : World) (now : Time) (items : List CreateSubItemReq) :
    ∀ (sub sub' : Subscription), Unpaused sub → createItems w now sub items = .ok sub' →
      Unpaused sub' := by
  induction items with
  | nil =>
    intro sub sub' hs h
    simp only [createItems] at h
    injection h with h
    subst h
    exact hs
  | cons item rest ih =>
    intro sub sub' hs h
    simp only [createItems] at h
    cases hc : createItem w now sub item with
    | error r => simp [hc] at h
    | ok s1 =>
      simp only [hc] at h
      exact ih s1 sub' (unpaused_createItem w now sub s1 item hs hc) h

theorem effect_of_writeEffect (w w' : World) (h : WriteEffect w w') : Effect w w' := by
  rcases h with h | h
  · exact Or.inl h
  · exact Or.inr (Or.inl h)

theorem writeEffect_congr (w w1 w2 : World) (hh : w2.heap = w1.heap)
    (hs : w2.store.Subscriptions = w1.store.Subscriptions) (h : WriteEffect w w1) :
    WriteEffect w w2 := by
  unfold WriteEffect at h ⊢
  rw [hh, hs]
  exact h

theorem writeEffect_committed (env : Env) (w : World) (id : String) (a : Nat)
    (s0 x : Subscription) (hget : GetSubscription w id = some a) (hsub : deref w a = some s0)
    (he : Evolves s0 x) : WriteEffect w (committed env w a x) :=
  Or.inr ⟨id, a, s0, x, hget, hsub, he, rfl, Or.inr rfl⟩

theorem writeEffect_Fire (env : Env) (w w1 : World) (ty : String) (d : EventData)
    (h : WriteEffect w w1) : WriteEffect w (Notifier.Fire env w1 ty d) :=
  writeEffect_congr w w1 _ (Fire_heap env w1 ty d) (by rw [Fire_store]) h

theorem writeEffect_fireLast (env : Env) (w w1 : World) (s : Subscription)
    (h : WriteEffect w w1) : WriteEffect w (fireLastTransaction env w1 s).1 := by
  unfold fireLastTransaction
  split
  · exact h
  · exact writeEffect_Fire env w w1 _ _ h

theorem writeEffect_activate (env : Env) (w : World) (id : String) :
    WriteEffect w (SubscriptionsHandler.activate env w id).1 := by
  cases hg : GetSubscription w id with
  | none =>
    unfold SubscriptionsHandler.activate
    simp only [hg]
    exact Or.inl ⟨rfl, rfl⟩
  | some a =>
    cases hd : deref w a with
    | none =>
      unfold SubscriptionsHandler.activate
      simp only [hg, hd]
      exact Or.inl ⟨rfl, rfl⟩
    | some sub =>
      by_cases hst : sub.Status = "trialing"
      · rw [activate_trialing_run env w id a sub hg hd hst]
        exact writeEffect_Fire env w _ _ _
          (writeEffect_congr w _ _ rfl rfl
            (writeEffect_committed env w id a sub _ hg hd (evolves_activated _ sub hst)))
      · unfold SubscriptionsHandler.activate
        simp only [hg, hd]
        rw [if_pos hst]
        exact Or.inl ⟨rfl, rfl⟩

theorem writeEffect_charge (env : Env) (w : World) (id : String) (req : ChargeRequest) :
    WriteEffect w (SubscriptionsHandler.charge env w id req).1 :=
  Or.inl (charge_heap env w id req)

theorem writeEffect_advanceTime (env : Env) (w : World) (id failParam : String) :
    WriteEffect w (AdminHandler.advanceTime env w id failParam).1 := by
  cases hg : GetSubscription w id with
  | none =>
    unfold AdminHandler.advanceTime
    simp only [hg]
    exact Or.inl ⟨rfl, rfl⟩
  | some a =>
    cases hd : deref w a with
    | none =>
      unfold AdminHandler.advanceTime
      simp only [hg, hd]
      exact Or.inl ⟨rfl, rfl⟩
    | some sub =>
      by_cases h1 : sub.Status = "trialing"
      · rw [advanceTime_trialing_run env w id failParam a sub hg hd h1]
        exact writeEffect_fireLast env w _ _ (writeEffect_Fire env w _ _ _
          (writeEffect_congr w _ _ rfl rfl
            (writeEffect_committed env w id a sub _ hg hd (evolves_trialEnded _ sub h1))))
      · by_cases h2 : sub.Status = "active"
        · by_cases hf : failParam = "true"
          · rw [advanceTime_failed_run env w id failParam a sub hg hd h2 hf]
            exact writeEffect_Fire env w _ _ _ (writeEffect_Fire env w _ _ _
              (writeEffect_congr w _ _ rfl rfl
                (writeEffect_committed env w id a sub _ hg hd
                  (evolves_paymentFailed _ sub h2))))
          · rw [advanceTime_renew_run env w id failParam a sub hg hd h2 hf]
            exact writeEffect_fireLast env w _ _ (writeEffect_Fire env w _ _ _
              (writeEffect_congr w _ _ rfl rfl
                (writeEffect_committed env w id a sub _ hg hd (evolves_renewed _ sub))))
        · by_cases h3 : sub.Status = "past_due"
          · rw [advanceTime_pastDue_run env w id failParam a sub hg hd h3]
            exact writeEffect_Fire env w _ _ _
              (writeEffect_committed env w id a sub _ hg hd
                (evolves_canceledAfterPastDue _ sub))
          · by_cases h4 : sub.Status = "paused"
            · rw [advanceTime_paused_run env w id failParam a sub hg hd h4]
              exact writeEffect_Fire env w _ _ _
                (writeEffect_committed env w id a sub _ hg hd (evolves_resumed _ sub h4))
            · rw [advanceTime_other_run env w id failParam a sub hg hd h1 h2 h3 h4]
              exact Or.inl ⟨rfl, rfl⟩

theorem heap_eq_set (l l2 : List Subscription) (a : Nat) (x y : Subscription)
    (hne : ∀ b, b ≠ a → l2.get? b = l.get? b) (hx : l2.get? a = some x)
    (hy : l.get? a = some y) : l2 = l.set a x := by
  apply List.ext_getElem?
  intro i
  rw [List.get?_eq_getElem?] at hx hy
  by_cases hi : a = i
  · subst hi
    rw [List.getElem?_set]
    simp only [if_true]
    have hlt : a < l.length := by
      by_contra hc
      rw [List.getElem?_eq_none (by omega)] at hy
      cases hy
    rw [if_pos hlt, hx]
  · rw [List.getElem?_set_ne hi]
    have := hne i (Ne.symm hi)
    rw [List.get?_eq_getElem?, List.get?_eq_getElem?] at this
    exact this

theorem modifySub_heap (w : World) (a : Nat) (f : Subscription → Subscription)
    (s : Subscription) (h : deref w a = some s) :
    (modifySub w a f).heap = w.heap.set a (f s) := by
  unfold modifySub
  rw [h]
  rfl

theorem finishUpdate_effect (env : Env) (w : World) (a : Nat) (s : Subscription)
    (h : deref w a = some s) :
    ∃ x, Evolves s x ∧ (finishUpdate env w a).1.heap = w.heap.set a x ∧
      (finishUpdate env w a).1.store.Subscriptions = mapSet w.store.Subscriptions x.ID a := by
  have h0 : deref (timeNow env w).2 a = some s := h
  have h1 : deref (modifySub (timeNow env w).2 a
      (fun sub => { sub with UpdatedAt := (timeNow env w).1 })) a =
      some { s with UpdatedAt := (timeNow env w).1 } :=
    deref_modifySub (timeNow env w).2 a _ s h0
  have h2 := modifySub_heap (timeNow env w).2 a
    (fun sub => { sub with UpdatedAt := (timeNow env w).1 }) s h0
  refine ⟨{ s with UpdatedAt := (timeNow env w).1 },
    ⟨rfl, fun h => h, fun h => h, Or.inr rfl⟩, ?_, ?_⟩
  · simp only [finishUpdate, h1]
    rw [Fire_heap]
    exact h2
  · simp only [finishUpdate, h1]
    rw [Fire_store]
    show mapSet (modifySub _ _ _).store.Subscriptions _ _ = _
    rw [modifySub_store]
    rfl

theorem writeEffect_update (env : Env) (w : World) (id : String)
    (req : UpdateSubscriptionRequest) :
    WriteEffect w (SubscriptionsHandler.update env w id req).1 := by
  cases hg : GetSubscription w id with
  | none =>
    unfold SubscriptionsHandler.update
    simp only [hg]
    exact Or.inl ⟨rfl, rfl⟩
  | some a =>
    cases hd : deref w a with
    | none =>
      unfold SubscriptionsHandler.update
      simp only [hg, hd]
      exact Or.inl ⟨rfl, rfl⟩
    | some sub =>
      obtain ⟨w2, s2, hst2, hd2, hl2, hne2, hrun⟩ := update_run env w id req a sub hg hd
      have he2 : Evolves sub s2 := by
        refine evolves_trans ?_ (evolves_of_sameLifecycle _ _ hl2)
        split
        · exact evolves_scheduledChangeApplied _ _ sub
        · exact evolves_refl sub
      have hh2 : w2.heap = w.heap.set a s2 := heap_eq_set w.heap w2.heap a s2 sub hne2 hd2 hd
      rw [hrun]
      split
      · split
        · exact Or.inr ⟨id, a, sub, s2, hg, hd, he2, hh2, Or.inl (by rw [← hst2]; rfl)⟩
        · rename_i newItems _
          have hd3 : deref (modifySub (timeNow env w2).2 a
              (fun sub => { sub with Items := newItems })) a =
              some { s2 with Items := newItems } :=
            deref_modifySub (timeNow env w2).2 a _ s2 hd2
          have hh3 := modifySub_heap (timeNow env w2).2 a
            (fun sub => { sub with Items := newItems }) s2 hd2
          obtain ⟨x, hx, e1, e2⟩ := finishUpdate_effect env _ a _ hd3
          refine Or.inr ⟨id, a, sub, x, hg, hd, ?_, ?_, Or.inr ?_⟩
          · exact evolves_trans he2 (evolves_trans
              (⟨rfl, fun h => h, fun h => h, Or.inr rfl⟩ :
                Evolves s2 { s2 with Items := newItems }) hx)
          · rw [e1, hh3]
            show ((w2.heap.set a _).set a _) = _
            rw [hh2, List.set_set, List.set_set]
          · rw [e2, modifySub_store]
            show mapSet w2.store.Subscriptions _ _ = _
            rw [hst2]
      · obtain ⟨x, hx, e1, e2⟩ := finishUpdate_effect env w2 a s2 hd2
        refine Or.inr ⟨id, a, sub, x, hg, hd, evolves_trans he2 hx, ?_, Or.inr ?_⟩
        · rw [e1, hh2, List.set_set]
        · rw [e2, hst2]

theorem effect_create (env : Env) (w : World) (req : CreateSubscriptionRequest) :
    Effect w (SubscriptionsHandler.create env w req).1 := by
  by_cases hne : req.CustomerID = "" ∨ req.Items.length = 0
  · unfold SubscriptionsHandler.create
    rw [if_pos hne]
    exact Or.inl ⟨rfl, rfl⟩
  · cases hcust : GetCustomer w req.CustomerID with
    | none =>
      unfold SubscriptionsHandler.create
      rw [if_neg hne]
      simp only [hcust]
      exact Or.inl ⟨rfl, rfl⟩
    | some c =>
      cases hitems : createItems (createStart env w) (env.clock w.clockReads)
          (initialSubscription env w req) req.Items with
      | error r =>
        rw [create_error_run env w req c r hne hcust hitems]
        exact Or.inl ⟨rfl, rfl⟩
      | ok sub =>
        rw [create_ok_run env w req c sub hne hcust hitems]
        have hu : Unpaused sub :=
          unpaused_createItems _ _ req.Items (initialSubscription env w req) sub
            ⟨fun hp => absurd (show "trialing" = "paused" from hp) (by decide), rfl⟩ hitems
        refine Or.inr (Or.inr ⟨sub, hu, ?_, ?_⟩)
        · rw [Fire_heap]
          rfl
        · rw [Fire_store]
          rfl

theorem effect_step (env : Env) (w : World) (op : Op) : Effect w (step env w op) := by
  cases op with
  | create req => exact effect_create env w req
  | activate id => exact effect_of_writeEffect _ _ (writeEffect_activate env w id)
  | update id req => exact effect_of_writeEffect _ _ (writeEffect_update env w id req)
  | charge id req => exact effect_of_writeEffect _ _ (writeEffect_charge env w id req)
  | advanceTime id fp => exact effect_of_writeEffect _ _ (writeEffect_advanceTime env w id fp)

theorem writeEffect_step (env : Env) (w : World) (op : Op) (h : op.isCreate = false) :
    WriteEffect w (step env w op) := by
  cases op with
  | create req => cases h
  | activate id => exact writeEffect_activate env w id
  | update id req => exact writeEffect_update env w id req
  | charge id req => exact writeEffect_charge env w id req
  | advanceTime id fp => exact writeEffect_advanceTime env w id fp

theorem deref_lt (w : World) (a : Nat) (s : Subscription) (h : deref w a = some s) :
    a < w.heap.length := by
  by_contra hc
  have h1 : w.heap.get? a = some s := h
  rw [List.get?_eq_getElem?, List.getElem?_eq_none (by omega)] at h1
  cases h1

theorem deref_set_same (l : List Subscription) (a : Nat) (x : Subscription)
    (h : a < l.length) : (l.set a x).get? a = some x := by
  rw [List.get?_eq_getElem?, List.getElem?_set]
  simp [h]

theorem deref_set_ne (l : List Subscription) (a b : Nat) (x : Subscription) (h : b ≠ a) :
    (l.set a x).get? b = l.get? b := by
  rw [List.get?_eq_getElem?, List.get?_eq_getElem?, List.getElem?_set_ne (Ne.symm h)]

/-- Every subscription object lives on through a request, changed at most as
`Evolves` allows. -/
theorem cells_of_effect (w w' : World) (h : Effect w w') (b : Nat) (s0 : Subscription)
    (hb : deref w b = some s0) : ∃ s1, deref w' b = some s1 ∧ Evolves s0 s1 := by
  rcases h with ⟨hh, _⟩ | ⟨id, a, t0, x, _, hsub, he, hh, _⟩ | ⟨x, _, hh, _⟩
  · refine ⟨s0, ?_, evolves_refl s0⟩
    show w'.heap.get? b = some s0
    rw [hh]
    exact hb
  · by_cases hab : b = a
    · subst hab
      have : t0 = s0 := by
        rw [hsub] at hb
        injection hb
      subst this
      refine ⟨x, ?_, he⟩
      show w'.heap.get? b = some x
      rw [hh]
      exact deref_set_same _ _ _ (deref_lt w b t0 hsub)
    · refine ⟨s0, ?_, evolves_refl s0⟩
      show w'.heap.get? b = some s0
      rw [hh, deref_set_ne _ _ _ _ hab]
      exact hb
  · refine ⟨s0, ?_, evolves_refl s0⟩
    show w'.heap.get? b = some s0
    rw [hh, List.get?_eq_getElem?, List.getElem?_append_left (deref_lt w b s0 hb),
      ← List.get?_eq_getElem?]
    exact hb

/-- Every subscription stored after a request comes from one stored before it,
changed at most as `Evolves` allows, or is a new one that is not paused. -/
theorem stored_of_effect (w w' : World) (h : Effect w w') (id : String) (s1 : Subscription)
    (hs : storedSub w' id = some s1) :
    (∃ id0 s0, storedSub w id0 = some s0 ∧ Evolves s0 s1) ∨ Unpaused s1 := by
  obtain ⟨b, hget, hd⟩ := storedSub_split w' id s1 hs
  have hget' : mapGet w'.store.Subscriptions id = some b := hget
  have hd' : w'.heap.get? b = some s1 := hd
  have back : ∀ t, mapGet w.store.Subscriptions id = some b → w.heap.get? b = some t →
      storedSub w id = some t := by
    intro t h1 h2
    unfold storedSub GetSubscription
    rw [h1]
    exact h2
  rcases h with ⟨hh, hm⟩ | ⟨id', a, t0, x, hg0, hsub, he, hh, hm⟩ | ⟨x, hu, hh, hm⟩
  · rw [hh] at hd'
    rw [hm] at hget'
    exact Or.inl ⟨id, s1, back s1 hget' hd', evolves_refl s1⟩
  · rw [hh] at hd'
    by_cases hab : b = a
    · subst hab
      rw [deref_set_same _ _ _ (deref_lt w b t0 hsub)] at hd'
      injection hd' with hd'
      subst hd'
      refine Or.inl ⟨id', t0, ?_, he⟩
      unfold storedSub
      rw [hg0]
      exact hsub
    · rw [deref_set_ne _ _ _ _ hab] at hd'
      refine Or.inl ⟨id, s1, back s1 ?_ hd', evolves_refl s1⟩
      rcases hm with hm | hm
      · rw [hm] at hget'
        exact hget'
      · rw [hm] at hget'
        by_cases hid : x.ID = id
        · rw [← hid, mapGet_mapSet_same] at hget'
          injection hget' with hget'
          exact absurd hget'.symm hab
        · rw [mapGet_mapSet_ne _ _ _ _ hid] at hget'
          exact hget'
  · rw [hh] at hd'
    by_cases hb : b < w.heap.length
    · rw [List.get?_eq_getElem?, List.getElem?_append_left hb, ← List.get?_eq_getElem?] at hd'
      refine Or.inl ⟨id, s1, back s1 ?_ hd', evolves_refl s1⟩
      rw [hm] at hget'
      by_cases hid : x.ID = id
      · rw [← hid, mapGet_mapSet_same] at hget'
        injection hget' with hget'
        omega
      · rw [mapGet_mapSet_ne _ _ _ _ hid] at hget'
        exact hget'
    · rw [List.get?_eq_getElem?, List.getElem?_append_right (by omega)] at hd'
      have hmem := List.getElem?_mem hd'
      simp only [List.mem_singleton] at hmem
      rw [hmem]
      exact Or.inr hu

theorem getSubscription_of_writeEffect (w w' : World) (hk : WellKeyed w)
    (h : WriteEffect w w') (id : String) : GetSubscription w' id = GetSubscription w id := by
  unfold GetSubscription
  rcases h with ⟨_, hm⟩ | ⟨id', a, t0, x, hg0, hsub, he, _, hm⟩
  · rw [hm]
  · rcases hm with hm | hm
    · rw [hm]
    · rw [hm]
      have hx : x.ID = id' := he.1.trans (hk id' a t0 hg0 hsub)
      rw [hx]
      by_cases hid : id' = id
      · subst hid
        rw [mapGet_mapSet_same]
        exact hg0.symm
      · exact mapGet_mapSet_ne _ _ _ _ hid

theorem wellKeyed_of_writeEffect (w w' : World) (hk : WellKeyed w) (h : WriteEffect w w') :
    WellKeyed w' := by
  intro id b s1 hget hd
  rw [getSubscription_of_writeEffect w w' hk h id] at hget
  have hd' : w'.heap.get? b = some s1 := hd
  rcases h with ⟨hh, _⟩ | ⟨id', a, t0, x, hg0, hsub, he, hh, _⟩
  · rw [hh] at hd'
    exact hk id b s1 hget hd'
  · rw [hh] at hd'
    by_cases hab : b = a
    · subst hab
      rw [deref_set_same _ _ _ (deref_lt w b t0 hsub)] at hd'
      injection hd' with hd'
      subst hd'
      exact he.1.trans (hk id b t0 hget hsub)
    · rw [deref_set_ne _ _ _ _ hab] at hd'
      exact hk id b s1 hget hd'

theorem run_cons (env : Env) (w : World) (op : Op) (ops : List Op) :
    run env w (op :: ops) = run env (step env w op) ops := rfl

/-- A canceled subscription object stays canceled through every sequence of
requests. -/
theorem run_cell_canceled (env : Env) (ops : List Op) :
    ∀ (w : World) (a : Nat) (s : Subscription), deref w a = some s → s.Status = "canceled" →
      ∃ s', deref (run env w ops) a = some s' ∧ s'.Status = "canceled" := by
  induction ops with
  | nil => intro w a s h hc; exact ⟨s, h, hc⟩
  | cons op rest ih =>
    intro w a s h hc
    obtain ⟨s1, h1, he⟩ := cells_of_effect w _ (effect_step env w op) a s h
    rw [run_cons]
    exact ih _ a s1 h1 (he.2.1 hc)

/-- A well-keyed subscription map keeps its entries through every sequence of
requests other than `Create`. -/
theorem run_getSubscription (env : Env) (ops : List Op) :
    ∀ (w : World), WellKeyed w → (∀ op ∈ ops, op.isCreate = false) →
      ∀ id, GetSubscription (run env w ops) id = GetSubscription w id := by
  induction ops with
  | nil => intro w _ _ id; rfl
  | cons op rest ih =>
    intro w hk hops id
    have hw := writeEffect_step env w op (hops op (List.mem_cons_self _ _))
    rw [run_cons, ih _ (wellKeyed_of_writeEffect w _ hk hw)
      (fun o ho => hops o (List.mem_cons_of_mem _ ho)) id]
    exact getSubscription_of_writeEffect w _ hk hw id

theorem unpaused_evolves (s0 s1 : Subscription) (hu : Unpaused s0) (he : Evolves s0 s1) :
    Unpaused s1 := by
  obtain ⟨_, _, hp, hat⟩ := he
  refine ⟨fun h => hu.1 (hp h), ?_⟩
  rcases hat with hat | hat
  · exact hat
  · rw [hat]
    exact hu.2

/-- Every subscription stored after a sequence of requests comes from one
stored before it, changed at most as `Evolves` allows, or is not paused. -/
theorem run_stored (env : Env) (w0 : World) (ops : List Op) :
    ∀ (w : World),
      (∀ id s, storedSub w id = some s →
        (∃ id0 s0, storedSub w0 id0 = some s0 ∧ Evolves s0 s) ∨ Unpaused s) →
      ∀ id s, storedSub (run env w ops) id = some s →
        (∃ id0 s0, storedSub w0 id0 = some s0 ∧ Evolves s0 s) ∨ Unpaused s := by
  induction ops with
  | nil => intro w h id s hs; exact h id s hs
  | cons op rest ih =>
    intro w h id s hs
    rw [run_cons] at hs
    refine ih (step env w op) ?_ id s hs
    intro id1 s1 hs1
    rcases stored_of_effect w _ (effect_step env w op) id1 s1 hs1 with ⟨id2, s2, h2, he⟩ | hu
    · rcases h id2 s2 h2 with ⟨id0, s0, h0, he0⟩ | hu2
      · exact Or.inl ⟨id0, s0, h0, evolves_trans he0 he⟩
      · exact Or.inr (unpaused_evolves s2 s1 hu2 he)
    · exact Or.inr hu

/-! ## Terminal and unreachable statuses -/

/-- C28: once the subscription stored under an id is canceled, its object stays
canceled through every sequence of requests (`Create`, `Activate`, `Update`
with any scheduled change, item list and custom data, `Charge`, `AdvanceTime`
with any flag, for any subscription id, accepted or rejected); and when the
subscription map is keyed by the ids of its objects, as the handlers keep it,
the subscription stored under that id is still canceled after every sequence of
requests other than `Create`. -/
theorem canceled_is_terminal (env : Env) (w : World) (id : String) (s : Subscription)
    (h : storedSub w id = some s) (hc : s.Status = "canceled") :
    ∃ a, GetSubscription w id = some a ∧
      (∀ ops, ∃ s', deref (run env w ops) a = some s' ∧ s'.Status = "canceled") ∧
      (WellKeyed w → ∀ ops, (∀ op ∈ ops, op.isCreate = false) →
        ∃ s', storedSub (run env w ops) id = some s' ∧ s'.Status = "canceled") := by
  obtain ⟨a, hget, hsub⟩ := storedSub_split w id s h
  refine ⟨a, hget, fun ops => run_cell_canceled env ops w a s hsub hc, fun hk ops hops => ?_⟩
  obtain ⟨s', hs', hc'⟩ := run_cell_canceled env ops w a s hsub hc
  refine ⟨s', ?_, hc'⟩
  unfold storedSub
  rw [run_getSubscription env ops w hk hops id, hget]
  exact hs'

theorem wellKeyed_sampleWorld (status : String) : WellKeyed (sampleWorld status) := by
  intro id a s hget hd
  have hmem := mapGet_mem _ _ _ hget
  simp only [sampleWorld, List.mem_singleton, Prod.mk.injEq] at hmem
  obtain ⟨rfl, rfl⟩ := hmem
  have hd' : some (sampleSub status) = some s := hd
  injection hd' with hd'
  rw [← hd']
  rfl

/-- C28 at a concrete input: the canceled subscription of the sample store is
still canceled after an activation, a resume with new items, a charge and two
advances. -/
theorem canceled_is_terminal_witness :
    ∃ s', storedSub (run sampleEnv (sampleWorld "canceled")
        [.activate "sub_a", .update "sub_a" ⟨some ⟨"resume"⟩, [⟨"pri_plain", 1⟩], none⟩,
         .charge "sub_a" ⟨[⟨"pri_plain", 2⟩]⟩, .advanceTime "sub_a" "true",
         .advanceTime "sub_a" ""]) "sub_a" = some s' ∧ s'.Status = "canceled" :=
  (canceled_is_terminal sampleEnv (sampleWorld "canceled") "sub_a" (sampleSub "canceled")
    rfl rfl).elim
    (fun _ ha => ha.2.2 (wellKeyed_sampleWorld "canceled") _ (by decide))

/-- C29: starting from a state in which no stored subscription has the status
paused, no sequence of `Create`, `Activate`, `Update` (also with the scheduled
change pause), `Charge` and `AdvanceTime` requests, accepted or rejected, stores
a subscription with the status paused; and `paused_at` is never set: after the
sequence it is unset or the value a stored subscription had at the start, so it
is unset everywhere when it was unset everywhere at the start. -/
theorem paused_is_never_reached (env : Env) (w : World)
    (h : ∀ id s, storedSub w id = some s → s.Status ≠ "paused") :
    ∀ ops id s, storedSub (run env w ops) id = some s →
      s.Status ≠ "paused" ∧
        (s.PausedAt = none ∨ ∃ id0 s0, storedSub w id0 = some s0 ∧ s.PausedAt = s0.PausedAt) ∧
        ((∀ id0 s0, storedSub w id0 = some s0 → s0.PausedAt = none) → s.PausedAt = none) := by
  intro ops id s hs
  rcases run_stored env w ops w
      (fun id1 s1 h1 => Or.inl ⟨id1, s1, h1, evolves_refl s1⟩) id s hs with
    ⟨id0, s0, h0, _, _, hp, hat⟩ | hu
  · refine ⟨fun hpa => h id0 s0 h0 (hp hpa), ?_, fun hall => ?_⟩
    · rcases hat with hat | hat
      · exact Or.inl hat
      · exact Or.inr ⟨id0, s0, h0, hat⟩
    · rcases hat with hat | hat
      · exact hat
      · rw [hat]
        exact hall id0 s0 h0
  · exact ⟨hu.1, Or.inl hu.2, fun _ => hu.2⟩

theorem seededWorld_stored (id : String) (s : Subscription)
    (h : storedSub seededWorld id = some s) : s.Status = "trialing" ∧ s.PausedAt = none := by
  obtain ⟨a, hget, hd⟩ := storedSub_split _ id s h
  have hmem := mapGet_mem _ _ _ hget
  have hsubs : seededWorld.store.Subscriptions = [("sub_test_alice", 0)] := by decide
  rw [hsubs] at hmem
  simp only [List.mem_singleton, Prod.mk.injEq] at hmem
  obtain ⟨rfl, rfl⟩ := hmem
  have hheap : deref seededWorld 0 = seededWorld.heap.head? := by decide
  rw [hheap] at hd
  have hst : (seededWorld.heap.head?.map (fun x => (x.Status, x.PausedAt))) =
      some ("trialing", none) := by decide
  rw [hd] at hst
  simp only [Option.map_some', Option.some.injEq, Prod.mk.injEq] at hst
  exact hst

/-- C29 at a concrete input: in the seeded store, a scheduled pause followed by
three advances leaves the seeded subscription stored, not paused and without a
`paused_at`. -/
theorem paused_is_never_reached_witness :
    (storedSub (run sampleEnv seededWorld
        [.update "sub_test_alice" ⟨some ⟨"pause"⟩, [], none⟩, .advanceTime "sub_test_alice" "",
         .advanceTime "sub_test_alice" "true", .advanceTime "sub_test_alice" ""])
        "sub_test_alice").isSome = true ∧
      ∀ s, storedSub (run sampleEnv seededWorld
          [.update "sub_test_alice" ⟨some ⟨"pause"⟩, [], none⟩,
           .advanceTime "sub_test_alice" "", .advanceTime "sub_test_alice" "true",
           .advanceTime "sub_test_alice" ""]) "sub_test_alice" = some s →
        s.Status ≠ "paused" ∧ s.PausedAt = none :=
  ⟨by decide,
    fun s hs =>
      ⟨(paused_is_never_reached sampleEnv seededWorld
          (fun id s hs hp => by
            rw [(seededWorld_stored id s hs).1] at hp
            exact absurd hp (by decide))
          _ "sub_test_alice" s hs).1,
        (paused_is_never_reached sampleEnv seededWorld
          (fun id s hs hp => by
            rw [(seededWorld_stored id s hs).1] at hp
            exact absurd hp (by decide))
          _ "sub_test_alice" s hs).2.2 (fun id0 s0 h0 => (seededWorld_stored id0 s0 h0).2)⟩⟩

end PaddleMock
